import Mathlib

/-!
# Scheduler of sancus-riot: a shallow embedding

The definitions below follow `core/sched.c`, `core/thread.c`, `cpu/msp430-sancus/cpu.c`
and `sys/secure_mintimer/secure_mintimer_core.c`.

Conventions of the embedding.

* A pointer to a thread control block (or to its embedded `rq_entry` node, which
  `container_of` maps back to the block) is the index of the block in
  `sched_threads`; `NULL` is `none`.
* Arrays are total functions on `Nat`; every access through a computed integer
  index (a priority, a pid) is bounds checked by the operation that performs it.
* An operation returns `none` where the C code has no defined result: a `NULL`
  dereference, an out-of-bounds array access, or a loop that never exits.
* `uint32_t` arithmetic is arithmetic modulo `2 ^ 32`; `int` and `unsigned` are the
  16-bit types of the MSP430.
-/

namespace SancusRiot

/-! ## Constants of `sched.h` and `secure_mintimer.h` -/

/-- Number of priority levels, `SCHED_PRIO_LEVELS`. -/
def SCHED_PRIO_LEVELS : Nat := 16

/-- Levels reserved for protected threads, `SCHED_PROTECTED_PRIO_LEVELS`. -/
def SCHED_PROTECTED_PRIO_LEVELS : Nat := 1

/-- Priority level of the periodic class, `SCHED_PERIODIC_PRIO_LEVEL`. -/
def SCHED_PERIODIC_PRIO_LEVEL : Nat := 1

/-- First level open to unprotected threads; the macro expands to
`SCHED_PROTECTED_PRIO_LEVELS + SCHED_PERIODIC_PRIO_LEVEL + 1`. -/
def SCHED_MAX_PRIO_LEVEL_UNPROTECTED : Nat :=
  SCHED_PROTECTED_PRIO_LEVELS + SCHED_PERIODIC_PRIO_LEVEL + 1

/-- Overhead charged to a periodic job, `SCHEDULER_OVERHEAD_RUN`. -/
def SCHEDULER_OVERHEAD_RUN : Nat := 300

/-- Modulus of `uint32_t`. -/
def U32 : Nat := 2 ^ 32

/-- Modulus of the 16-bit `unsigned int`. -/
def U16 : Nat := 2 ^ 16

/-- The constants of `kernel_types.h` and `errno.h`, which the scheduler uses but
which are not part of the source tree; they are parameters of the embedding. -/
structure Config where
  /-- The pid that names no thread, `KERNEL_PID_UNDEF`. -/
  KERNEL_PID_UNDEF : Int
  /-- First usable pid, `KERNEL_PID_FIRST`. -/
  KERNEL_PID_FIRST : Int
  /-- Last usable pid, `KERNEL_PID_LAST`; the thread table has `KERNEL_PID_LAST + 1` slots. -/
  KERNEL_PID_LAST : Int
  /-- The errno value `EINVAL`. -/
  EINVAL : Int
  /-- The errno value `EOVERFLOW`. -/
  EOVERFLOW : Int
  deriving DecidableEq, Repr

/-- The values of upstream RIOT: `KERNEL_PID_UNDEF = 0`, `KERNEL_PID_FIRST = 1`,
`MAXTHREADS = 32`, and the errno numbers of newlib. -/
def riotConfig : Config :=
  { KERNEL_PID_UNDEF := 0, KERNEL_PID_FIRST := 1, KERNEL_PID_LAST := 32,
    EINVAL := 22, EOVERFLOW := 139 }

/-- What the code relies on: pids are table indices, the undefined pid is not one of
them (the allocation loop of `_thread_create_scheduler_internal` uses it as "none found"),
and errno values are positive. -/
def Config.wf (cfg : Config) : Prop :=
  0 ≤ cfg.KERNEL_PID_FIRST ∧ cfg.KERNEL_PID_FIRST ≤ cfg.KERNEL_PID_LAST ∧
  0 ≤ cfg.KERNEL_PID_UNDEF ∧
  (cfg.KERNEL_PID_UNDEF < cfg.KERNEL_PID_FIRST ∨ cfg.KERNEL_PID_LAST < cfg.KERNEL_PID_UNDEF) ∧
  0 < cfg.EINVAL ∧ 0 < cfg.EOVERFLOW

instance (cfg : Config) : Decidable cfg.wf := by
  unfold Config.wf; infer_instance

/-! ## Data model (`sched.h`, `secure_mintimer.h`) -/

/-- The enumeration `thread_status_t`. -/
inductive thread_status_t where
  | STATUS_STOPPED
  | STATUS_SLEEPING
  | STATUS_MUTEX_BLOCKED
  | STATUS_RECEIVE_BLOCKED
  | STATUS_SEND_BLOCKED
  | STATUS_REPLY_BLOCKED
  | STATUS_FLAG_BLOCKED_ANY
  | STATUS_FLAG_BLOCKED_ALL
  | STATUS_MBOX_BLOCKED
  | STATUS_COND_BLOCKED
  | STATUS_RUNNING
  | STATUS_PENDING
  deriving DecidableEq, Repr

open thread_status_t

/-- Numeric value of an enumerator. -/
def thread_status_t.toNat : thread_status_t → Nat
  | STATUS_STOPPED => 0
  | STATUS_SLEEPING => 1
  | STATUS_MUTEX_BLOCKED => 2
  | STATUS_RECEIVE_BLOCKED => 3
  | STATUS_SEND_BLOCKED => 4
  | STATUS_REPLY_BLOCKED => 5
  | STATUS_FLAG_BLOCKED_ANY => 6
  | STATUS_FLAG_BLOCKED_ALL => 7
  | STATUS_MBOX_BLOCKED => 8
  | STATUS_COND_BLOCKED => 9
  | STATUS_RUNNING => 10
  | STATUS_PENDING => 11

/-- The macro `STATUS_ON_RUNQUEUE`, which is `STATUS_RUNNING`. -/
def STATUS_ON_RUNQUEUE : thread_status_t := STATUS_RUNNING

/-- The test `st >= STATUS_ON_RUNQUEUE`. -/
def on_runqueue (st : thread_status_t) : Bool :=
  decide (STATUS_ON_RUNQUEUE.toNat ≤ st.toNat)

/-- The value `STATUS_NOT_FOUND`, `(thread_status_t)-1`, as the `int` that `thread_wakeup`
returns. -/
def STATUS_NOT_FOUND : Int := -1

/-- The thread control block `struct _thread`. -/
structure thread_t where
  is_sm : Bool
  sp : Nat
  sm_idx : Nat
  status : thread_status_t
  priority : Nat
  pid : Int
  /-- The field `rq_entry.next`. -/
  rq_entry : Option Nat
  in_use : Bool
  sm_entry : Nat
  period : Nat
  runtime : Nat
  last_reference : Nat
  last_runtime : Nat
  original_idx : Nat
  deriving DecidableEq, Repr

/-- A zero-initialised control block (static storage). -/
def thread_t.zero : thread_t :=
  { is_sm := false, sp := 0, sm_idx := 0, status := STATUS_STOPPED, priority := 0, pid := 0,
    rq_entry := none, in_use := false, sm_entry := 0, period := 0, runtime := 0,
    last_reference := 0, last_runtime := 0, original_idx := 0 }

/-- A pointer to a soft timer of the scheduler module: a slot of
`secure_mintimer_timer_list` or the scheduler's own `scheduler_timer`. -/
inductive timer_ptr where
  | pool (i : Nat)
  | sched
  deriving DecidableEq, Repr

/-- The soft timer `secure_mintimer_t`. -/
structure secure_mintimer_t where
  next : Option timer_ptr
  target : Nat
  long_target : Nat
  thread : Option Nat
  deriving DecidableEq, Repr

/-- A zero-initialised timer. -/
def secure_mintimer_t.zero : secure_mintimer_t :=
  { next := none, target := 0, long_target := 0, thread := none }

/-- Length of the timer pool, `SECURE_MINTIMER_TIMER_LIST_LENGTH`. -/
def SECURE_MINTIMER_TIMER_LIST_LENGTH : Nat := 15

/-- The constant `SECURE_MINTIMER_BACKOFF`. -/
def SECURE_MINTIMER_BACKOFF : Nat := 200

/-- The constant `SECURE_MINTIMER_OVERHEAD`. -/
def SECURE_MINTIMER_OVERHEAD : Nat := 300

/-- The constant `SECURE_MINTIMER_ISR_BACKOFF`. -/
def SECURE_MINTIMER_ISR_BACKOFF : Nat := 200

/-- The constant `SECURE_MINTIMER_WIDTH` of the board. -/
def SECURE_MINTIMER_WIDTH : Nat := 16

/-- The macro `SECURE_MINTIMER_MASK`, `(0xffffffff >> WIDTH) << WIDTH`. -/
def SECURE_MINTIMER_MASK : Nat := (0xffffffff >>> SECURE_MINTIMER_WIDTH) <<< SECURE_MINTIMER_WIDTH

/-- The protected data of the scheduler module together with the registers of timer A
that it reads and writes. -/
structure State where
  sched_num_threads : Int
  sched_context_switch_request : Nat
  sched_threads : Nat → thread_t
  sched_active_thread : Option Nat
  sched_active_pid : Int
  /-- The field `next` of each list head `sched_runqueues[p]`: the last node of the ring. -/
  sched_runqueues : Nat → Option Nat
  runqueue_bitcache : Nat
  initialization_done : Bool
  scheduler_timer : secure_mintimer_t
  in_handler : Nat
  long_cnt : Nat
  secure_mintimer_high_cnt : Nat
  overflow_list_head : Option timer_ptr
  secure_mintimer_timer_list : Nat → secure_mintimer_t
  timer_list_head : Option timer_ptr
  long_list_head : Option timer_ptr
  sm_irq_is_in : Nat
  /-- The counter register `TIMER_A->R`. -/
  TAR : Nat
  /-- The compare register `TIMER_BASE->CCR[0]`. -/
  CCR0 : Nat
  /-- The flag `TIMER_CTL_IFG` of `TIMER_BASE->CTL`. -/
  CTL_IFG : Bool
  /-- The flag `TIMER_CCTL_CCIFG` of `TIMER_BASE->CCTL[0]`. -/
  CCTL0_CCIFG : Bool
  /-- The flag `TIMER_CCTL_CCIE` of `TIMER_BASE->CCTL[0]`. -/
  CCTL0_CCIE : Bool

/-- The state after static initialisation, with the counter at 0. -/
def State.init (cfg : Config) : State :=
  { sched_num_threads := 0, sched_context_switch_request := 0,
    sched_threads := fun _ => thread_t.zero, sched_active_thread := none,
    sched_active_pid := cfg.KERNEL_PID_UNDEF, sched_runqueues := fun _ => none,
    runqueue_bitcache := 0, initialization_done := false,
    scheduler_timer := secure_mintimer_t.zero, in_handler := 0, long_cnt := 0,
    secure_mintimer_high_cnt := 0, overflow_list_head := none,
    secure_mintimer_timer_list := fun _ => secure_mintimer_t.zero, timer_list_head := none,
    long_list_head := none, sm_irq_is_in := 0, TAR := 0, CCR0 := 0, CTL_IFG := false,
    CCTL0_CCIFG := false, CCTL0_CCIE := false }

/-- Overwrite the control block at index `i`. -/
def State.setThread (s : State) (i : Nat) (t : thread_t) : State :=
  { s with sched_threads := Function.update s.sched_threads i t }

/-- Store `v` in `sched_threads[i].rq_entry.next`. -/
def State.setRqNext (s : State) (i : Nat) (v : Option Nat) : State :=
  s.setThread i { s.sched_threads i with rq_entry := v }

/-- Store `st` in `sched_threads[i].status`. -/
def State.setStatus (s : State) (i : Nat) (st : thread_status_t) : State :=
  s.setThread i { s.sched_threads i with status := st }

/-- Store `v` in `sched_runqueues[p].next`. -/
def State.setQueue (s : State) (p : Nat) (v : Option Nat) : State :=
  { s with sched_runqueues := Function.update s.sched_runqueues p v }

/-! ## Bit arithmetic and circular lists (`sched.c`) -/

/-- The loop of `bitarithm_lsb_sm_timer`; `fuel` bounds the number of tests of the loop
condition. -/
def bitarithm_lsb_loop : Nat → Nat → Nat → Option Nat
  | 0, _, _ => none
  | fuel + 1, v, r =>
    if v &&& 0x01 = 0 then bitarithm_lsb_loop fuel (v >>> 1) ((r + 1) % U16) else some r

/-- The function `bitarithm_lsb_sm_timer`. Its parameter has type `unsigned`, so the argument
is reduced modulo `2 ^ 16`. A non-zero 16-bit value leaves the loop after at most 16
tests; on 0 the loop never exits (`bitarithm_lsb_loop_zero`), which is the result `none`. -/
def bitarithm_lsb_sm_timer (v : Nat) : Option Nat :=
  bitarithm_lsb_loop 16 (v % U16) 0

/-- The function `sm_clist_rpush` on the list head `sched_runqueues[p]`. -/
def sm_clist_rpush (p : Nat) (new_node : Nat) (s : State) : State :=
  match s.sched_runqueues p with
  | some last =>
    let s1 := s.setRqNext new_node (s.sched_threads last).rq_entry
    let s2 := s1.setRqNext last (some new_node)
    s2.setQueue p (some new_node)
  | none =>
    (s.setRqNext new_node (some new_node)).setQueue p (some new_node)

/-- The function `sm_clist_lpop` on the list head `sched_runqueues[p]`; the result is the
removed node, and `none` stands for the dereference of a `NULL` `next` field. -/
def sm_clist_lpop (p : Nat) (s : State) : Option (Option Nat × State) :=
  match s.sched_runqueues p with
  | some last =>
    let first := (s.sched_threads last).rq_entry
    if some last = first then
      some (first, s.setQueue p none)
    else
      match first with
      | some f => some (first, s.setRqNext last (s.sched_threads f).rq_entry)
      | none => none
  | none => some (none, s)

/-- The function `sm_clist_lpoprpush` on the list head `sched_runqueues[p]`. -/
def sm_clist_lpoprpush (p : Nat) (s : State) : State :=
  match s.sched_runqueues p with
  | some last => s.setQueue p (s.sched_threads last).rq_entry
  | none => s

/-- The `uint32_t` value of the `int` expression `1 << p` for `p < 16`: with 16-bit `int`,
`1 << 15` is the `int` `-32768`, which converts to `0xFFFF8000`. -/
def shl1_u32 (p : Nat) : Nat :=
  if p < 15 then 1 <<< p else 0xFFFF8000

/-- The `uint32_t` value of the `int` expression `~(1 << p)` for `p < 16`. -/
def not_shl1_u32 (p : Nat) : Nat :=
  if p < 15 then 0xFFFFFFFF - 1 <<< p else 0x7FFF

/-- The function `sched_set_status`. The thread is given by its index `process`. -/
def sched_set_status (process : Nat) (status : thread_status_t) (s : State) : Option State :=
  let t := s.sched_threads process
  if on_runqueue status then
    if !on_runqueue t.status then
      if t.priority < SCHED_PRIO_LEVELS then
        let s1 := sm_clist_rpush t.priority process s
        let s2 := { s1 with runqueue_bitcache := s1.runqueue_bitcache ||| shl1_u32 t.priority }
        some (s2.setStatus process status)
      else none
    else some (s.setStatus process status)
  else
    if on_runqueue t.status then
      if t.priority < SCHED_PRIO_LEVELS then
        match sm_clist_lpop t.priority s with
        | some (_, s1) =>
          let s2 :=
            if (s1.sched_runqueues t.priority).isNone then
              { s1 with runqueue_bitcache := s1.runqueue_bitcache &&& not_shl1_u32 t.priority }
            else s1
          some (s2.setStatus process status)
        | none => none
      else none
    else some (s.setStatus process status)

/-! ## Soft timers (`secure_mintimer_core.c`) -/

/-- Read the timer a pointer refers to. -/
def State.getTimer (s : State) : timer_ptr → secure_mintimer_t
  | .pool i => s.secure_mintimer_timer_list i
  | .sched => s.scheduler_timer

/-- Overwrite the timer a pointer refers to. -/
def State.setTimer (s : State) (p : timer_ptr) (t : secure_mintimer_t) : State :=
  match p with
  | .pool i =>
    { s with secure_mintimer_timer_list := Function.update s.secure_mintimer_timer_list i t }
  | .sched => { s with scheduler_timer := t }

/-- The three timer lists: `timer_list_head`, `overflow_list_head`, `long_list_head`. -/
inductive timer_list_id where
  | short
  | overflow
  | long
  deriving DecidableEq, Repr

/-- A value of type `secure_mintimer_t **` as the list functions use it: the address of a
list head or of the `next` field of a timer. -/
inductive timer_loc where
  | head (l : timer_list_id)
  | next (t : timer_ptr)
  deriving DecidableEq, Repr

/-- Read a list head. -/
def State.listHead (s : State) : timer_list_id → Option timer_ptr
  | .short => s.timer_list_head
  | .overflow => s.overflow_list_head
  | .long => s.long_list_head

/-- The value `*loc`. -/
def State.readLoc (s : State) : timer_loc → Option timer_ptr
  | .head l => s.listHead l
  | .next t => (s.getTimer t).next

/-- The assignment `*loc = v`. -/
def State.writeLoc (s : State) (loc : timer_loc) (v : Option timer_ptr) : State :=
  match loc with
  | .head .short => { s with timer_list_head := v }
  | .head .overflow => { s with overflow_list_head := v }
  | .head .long => { s with long_list_head := v }
  | .next t => s.setTimer t { s.getTimer t with next := v }

/-- Number of soft timers of the module: the pool and `scheduler_timer`. A walk along
`next` fields that takes more steps than this has entered a cycle, so the C loop that
performs it does not exit. -/
def TIMER_NODES : Nat := SECURE_MINTIMER_TIMER_LIST_LENGTH + 1

/-- The function `_secure_mintimer_lltimer_mask`: `val & ~SECURE_MINTIMER_MASK`. -/
def _secure_mintimer_lltimer_mask (val : Nat) : Nat :=
  val &&& (0xFFFFFFFF - SECURE_MINTIMER_MASK)

/-- The function `_is_set`. -/
def _is_set (s : State) (timer : timer_ptr) : Bool :=
  (s.getTimer timer).target != 0 || (s.getTimer timer).long_target != 0

/-- The function `_secure_mintimer_lltimer_now`: the counter register. -/
def _secure_mintimer_lltimer_now (s : State) : Nat := s.TAR

/-- The function `secure_mintimer_spin_until`. The two busy loops exit when the counter
has reached the masked target; time passing is the only effect. -/
def secure_mintimer_spin_until (target : Nat) (s : State) : State :=
  { s with TAR := _secure_mintimer_lltimer_mask target }

/-- The function `_secure_mintimer_now`; interrupts are off inside the module, so the
latch loop runs once. -/
def _secure_mintimer_now (s : State) : Nat :=
  s.secure_mintimer_high_cnt ||| _secure_mintimer_lltimer_now s

/-- The function `_secure_mintimer_now_internal`: the pair `(*short_term, *long_term)`. -/
def _secure_mintimer_now_internal (s : State) : Nat × Nat :=
  (s.secure_mintimer_high_cnt ||| _secure_mintimer_lltimer_now s, s.long_cnt)

/-- The function `sm_timer_set_absolute` on channel 0; `value` is an `unsigned int`. -/
def sm_timer_set_absolute (value : Nat) (s : State) : State :=
  { s with CCR0 := value % U16, CCTL0_CCIFG := false, CCTL0_CCIE := true }

/-- The function `_lltimer_set`. -/
def _lltimer_set (target : Nat) (s : State) : State :=
  if s.in_handler ≠ 0 then s
  else sm_timer_set_absolute (_secure_mintimer_lltimer_mask target) s

/-- The loop and the two final assignments of `_add_timer_to_list`. -/
def add_timer_to_list_loop (timer : timer_ptr) : Nat → timer_loc → State → Option State
  | 0, _, _ => none
  | fuel + 1, loc, s =>
    match s.readLoc loc with
    | some h =>
      if (s.getTimer h).target ≤ (s.getTimer timer).target then
        add_timer_to_list_loop timer fuel (.next h) s
      else
        some ((s.setTimer timer { s.getTimer timer with next := some h }).writeLoc loc
          (some timer))
    | none =>
      some ((s.setTimer timer { s.getTimer timer with next := none }).writeLoc loc (some timer))

/-- The function `_add_timer_to_list`. -/
def _add_timer_to_list (l : timer_list_id) (timer : timer_ptr) (s : State) : Option State :=
  add_timer_to_list_loop timer (TIMER_NODES + 1) (.head l) s

/-- The loop and the two final assignments of `_add_timer_to_long_list`. -/
def add_timer_to_long_list_loop (timer : timer_ptr) : Nat → timer_loc → State → Option State
  | 0, _, _ => none
  | fuel + 1, loc, s =>
    match s.readLoc loc with
    | some h =>
      if (s.getTimer h).long_target < (s.getTimer timer).long_target
          ∨ ((s.getTimer h).long_target = (s.getTimer timer).long_target
              ∧ (s.getTimer h).target ≤ (s.getTimer timer).target) then
        add_timer_to_long_list_loop timer fuel (.next h) s
      else
        some ((s.setTimer timer { s.getTimer timer with next := some h }).writeLoc loc
          (some timer))
    | none =>
      some ((s.setTimer timer { s.getTimer timer with next := none }).writeLoc loc (some timer))

/-- The function `_add_timer_to_long_list`. -/
def _add_timer_to_long_list (l : timer_list_id) (timer : timer_ptr) (s : State) :
    Option State :=
  add_timer_to_long_list_loop timer (TIMER_NODES + 1) (.head l) s

/-- The loop of `_remove_timer_from_list`. -/
def remove_timer_from_list_loop (timer : timer_ptr) :
    Nat → timer_loc → State → Option (Int × State)
  | 0, _, _ => none
  | fuel + 1, loc, s =>
    match s.readLoc loc with
    | none => some (0, s)
    | some h =>
      if h = timer then some (1, s.writeLoc loc (s.getTimer timer).next)
      else remove_timer_from_list_loop timer fuel (.next h) s

/-- The function `_remove_timer_from_list`. -/
def _remove_timer_from_list (l : timer_list_id) (timer : timer_ptr) (s : State) :
    Option (Int × State) :=
  remove_timer_from_list_loop timer (TIMER_NODES + 1) (.head l) s

/-- The function `_remove`. -/
def _remove (timer : timer_ptr) (s : State) : Option State :=
  if s.timer_list_head = some timer then
    let s1 := { s with timer_list_head := (s.getTimer timer).next }
    let next :=
      match s1.timer_list_head with
      | some h => ((s1.getTimer h).target + U32 - SECURE_MINTIMER_OVERHEAD) % U32
      | none => _secure_mintimer_lltimer_mask 0xFFFFFFFF
    some (_lltimer_set next s1)
  else
    match _remove_timer_from_list .short timer s with
    | none => none
    | some (r1, s1) =>
      if r1 = 0 then
        match _remove_timer_from_list .overflow timer s1 with
        | none => none
        | some (r2, s2) =>
          if r2 = 0 then
            match _remove_timer_from_list .long timer s2 with
            | none => none
            | some (_, s3) => some s3
          else some s2
      else some s1

/-- The function `secure_mintimer_remove`. -/
def secure_mintimer_remove (timer : timer_ptr) (s : State) : Option State :=
  if _is_set s timer then
    match _remove timer s with
    | none => none
    | some s1 => some (s1.setTimer timer { s1.getTimer timer with target := 0, long_target := 0 })
  else some s

/-- The function `get_available_timer`. The guard is `pid <= 15` while the pool has the
slots 0..14: an index outside the pool is an out-of-bounds access. -/
def get_available_timer (pid : Int) (s : State) : Option (Option timer_ptr × State) :=
  if pid ≤ SECURE_MINTIMER_TIMER_LIST_LENGTH then
    if 0 ≤ pid ∧ pid < SECURE_MINTIMER_TIMER_LIST_LENGTH then
      match secure_mintimer_remove (.pool pid.toNat) s with
      | none => none
      | some s1 => some (some (.pool pid.toNat), s1)
    else none
  else some (none, s)

/-- The function `_this_high_period`. -/
def _this_high_period (s : State) (target : Nat) : Bool :=
  target &&& SECURE_MINTIMER_MASK == s.secure_mintimer_high_cnt

/-- The function `_shoot_timer`. -/
def _shoot_timer (timer : timer_ptr) (s : State) : Option State :=
  let r :=
    match (s.getTimer timer).thread with
    | some t => sched_set_status t STATUS_PENDING s
    | none => some s
  match r with
  | none => none
  | some s1 => some { s1 with sched_context_switch_request := 1 }

/-- The statement `if (target < now) timer->long_target++` of
`_secure_mintimer_set_absolute_explicit`. -/
def set_absolute_bump (timer : timer_ptr) (target now : Nat) (s : State) : State :=
  if target < now then
    s.setTimer timer
      { s.getTimer timer with long_target := ((s.getTimer timer).long_target + 1) % U32 }
  else s

/-- The choice of the list in `_secure_mintimer_set_absolute_explicit`, with `target` the
local variable of that name. -/
def set_absolute_place (timer : timer_ptr) (target now : Nat) (s1 : State) :
    Option (Int × State) :=
  if (s1.getTimer timer).long_target > s1.long_cnt ∨ !_this_high_period s1 target then
    match _add_timer_to_long_list .long timer s1 with
    | none => none
    | some s2 => some (0, s2)
  else if _secure_mintimer_lltimer_mask now ≥ target then
    match _add_timer_to_list .overflow timer s1 with
    | none => none
    | some s2 => some (0, s2)
  else
    match _add_timer_to_list .short timer s1 with
    | none => none
    | some s2 =>
      if s2.timer_list_head = some timer then some (0, _lltimer_set target s2)
      else some (0, s2)

/-- The function `_secure_mintimer_set_absolute_explicit`. -/
def _secure_mintimer_set_absolute_explicit (timer : timer_ptr) (now : Nat) (s : State) :
    Option (Int × State) :=
  let target := ((s.getTimer timer).target + U32 - SECURE_MINTIMER_OVERHEAD) % U32
  set_absolute_place timer target now (set_absolute_bump timer target now s)

/-- The function `_secure_mintimer_set_absolute`; a `NULL` timer is dereferenced by the
first assignment. -/
def _secure_mintimer_set_absolute (timer : Option timer_ptr) (target : Nat) (s : State) :
    Option (Int × State) :=
  match timer with
  | none => none
  | some tm =>
    let now := _secure_mintimer_now s
    let s1 := s.setTimer tm { s.getTimer tm with next := none }
    let offset := (target + U32 - now) % U32
    if offset ≤ SECURE_MINTIMER_BACKOFF then
      match _shoot_timer tm (secure_mintimer_spin_until target s1) with
      | none => none
      | some s2 => some (0, s2)
    else
      match (if _is_set s1 tm then _remove tm s1 else some s1) with
      | none => none
      | some s2 =>
        let s3 := s2.setTimer tm { s2.getTimer tm with target := target, long_target := s2.long_cnt }
        _secure_mintimer_set_absolute_explicit tm now s3

/-- The function `_secure_mintimer_set`. -/
def _secure_mintimer_set (timer : timer_ptr) (offset : Nat) (s : State) : Option State :=
  match secure_mintimer_remove timer s with
  | none => none
  | some s1 =>
    let target := (_secure_mintimer_now s1 + offset) % U32
    match _secure_mintimer_set_absolute (some timer) target s1 with
    | none => none
    | some (_, s2) => some s2

/-- The function `_secure_mintimer_tsleep_specific_pid`; `sched_threads[pid]` is an array
access. -/
def _secure_mintimer_tsleep_specific_pid (cfg : Config) (offset : Nat) (pid : Int) (s : State) :
    Option State :=
  match get_available_timer pid s with
  | none => none
  | some (none, s1) => some s1
  | some (some timer, s1) =>
    if 0 ≤ pid ∧ pid ≤ cfg.KERNEL_PID_LAST then
      let s2 := s1.setTimer timer
        { s1.getTimer timer with target := 0, long_target := 0, thread := some pid.toNat }
      match sched_set_status pid.toNat STATUS_SLEEPING s2 with
      | none => none
      | some s3 => _secure_mintimer_set timer offset s3
    else none

/-- The function `_compare` on two timers that exist. -/
def _compare (s : State) (a b : timer_ptr) : timer_ptr :=
  if (s.getTimer a).target ≤ (s.getTimer b).target then a else b

/-- The loop of `_merge_lists`; `pos` is the last node of the merged list so far. -/
def merge_lists_loop : Nat → timer_ptr → timer_ptr → timer_ptr → State → Option State
  | 0, _, _, _, _ => none
  | fuel + 1, head_a, head_b, pos, s =>
    match (s.getTimer head_a).next, (s.getTimer head_b).next with
    | none, b1 => some (s.setTimer pos { s.getTimer pos with next := b1 })
    | some a1, none => some (s.setTimer pos { s.getTimer pos with next := some a1 })
    | some a1, some b1 =>
      let c := _compare s a1 b1
      merge_lists_loop fuel a1 b1 c (s.setTimer pos { s.getTimer pos with next := some c })

/-- The function `_merge_lists` on two non-empty lists: the new head and the state. -/
def _merge_lists (head_a head_b : timer_ptr) (s : State) : Option (timer_ptr × State) :=
  let result_head := _compare s head_a head_b
  match merge_lists_loop (TIMER_NODES + 1) head_a head_b result_head s with
  | none => none
  | some s1 => some (result_head, s1)

/-- The first loop of `_select_long_timers`: the last selected timer and the state with
`long_list_head` advanced. -/
def select_long_timers_loop : Nat → Option timer_ptr → State → Option (Option timer_ptr × State)
  | 0, _, _ => none
  | fuel + 1, last, s =>
    match s.long_list_head with
    | some h =>
      if (s.getTimer h).long_target ≤ s.long_cnt ∧ _this_high_period s (s.getTimer h).target then
        select_long_timers_loop fuel (some h) { s with long_list_head := (s.getTimer h).next }
      else some (last, s)
    | none => some (last, s)

/-- The function `_select_long_timers`. -/
def _select_long_timers (s : State) : Option State :=
  let select_list_start := s.long_list_head
  match select_long_timers_loop (TIMER_NODES + 1) none s with
  | none => none
  | some (none, s1) => some s1
  | some (some last, s1) =>
    let s2 := s1.setTimer last { s1.getTimer last with next := none }
    match s2.timer_list_head, select_list_start with
    | some h, some st =>
      match _merge_lists h st s2 with
      | none => none
      | some (r, s3) => some { s3 with timer_list_head := some r }
    | some _, none => some s2
    | none, st => some { s2 with timer_list_head := st }

/-- The function `_next_period`. -/
def _next_period (s : State) : Option State :=
  let high := (s.secure_mintimer_high_cnt + (0xFFFFFFFF - SECURE_MINTIMER_MASK) + 1) % U32
  let s1 := { s with secure_mintimer_high_cnt := high }
  let s2 := if high = 0 then { s1 with long_cnt := (s1.long_cnt + 1) % U32 } else s1
  let s3 := { s2 with timer_list_head := s2.overflow_list_head, overflow_list_head := none }
  _select_long_timers s3

/-- The function `_time_left`. -/
def _time_left (s : State) (target reference : Nat) : Nat :=
  let now := _secure_mintimer_lltimer_now s
  if now < reference then 0
  else if target > now then target - now else 0

/-- The inner `while` of `_timer_callback` that shoots the timers which are due. The busy
loop `while (_time_left(..)) {}` exits when the counter has reached the target. -/
def timer_callback_shoot : Nat → Nat → State → Option State
  | 0, _, _ => none
  | fuel + 1, reference, s =>
    match s.timer_list_head with
    | some h =>
      let tgt := _secure_mintimer_lltimer_mask (s.getTimer h).target
      if _time_left s tgt reference < SECURE_MINTIMER_ISR_BACKOFF then
        let s1 := if _time_left s tgt reference ≠ 0 then { s with TAR := tgt } else s
        let s2 := { s1 with timer_list_head := (s1.getTimer h).next }
        let s3 := s2.setTimer h { s2.getTimer h with target := 0, long_target := 0 }
        match _shoot_timer h s3 with
        | none => none
        | some s4 => timer_callback_shoot fuel reference s4
      else some s
    | none => some s

/-- The part of `_timer_callback` from the label `overflow` on. `passes` bounds the number
of times the label is reached. In this embedding the counter moves only in the busy loops
that wait for it, so a pass that returns to `overflow` merely to wait for the counter uses
up `passes`; the result `none` of this function therefore does not tell that the C code
fails to return. -/
def timer_callback_overflow : Nat → Nat → State → Option State
  | 0, _, _ => none
  | passes + 1, reference, s =>
    match timer_callback_shoot (TIMER_NODES + 1) reference s with
    | none => none
    | some s1 =>
      let now := (_secure_mintimer_lltimer_now s1 + SECURE_MINTIMER_ISR_BACKOFF) % U16
      if now < reference then
        match _next_period s1 with
        | none => none
        | some s2 =>
          let s3 := if reference < _secure_mintimer_lltimer_now s2 then { s2 with TAR := 0 } else s2
          timer_callback_overflow passes 0 s3
      else
        match s1.timer_list_head with
        | some h =>
          let next_target := ((s1.getTimer h).target + U32 - SECURE_MINTIMER_OVERHEAD) % U32
          if next_target < (_secure_mintimer_now s1 + SECURE_MINTIMER_ISR_BACKOFF) % U32 then
            timer_callback_overflow passes reference s1
          else
            let s2 := { s1 with in_handler := 0 }
            some { _lltimer_set next_target s2 with CTL_IFG := false }
        | none =>
          let next_target := _secure_mintimer_lltimer_mask 0xFFFFFFFF
          let now := _secure_mintimer_lltimer_now s1
          if now < reference then
            match _next_period s1 with
            | none => none
            | some s2 => timer_callback_overflow passes 0 s2
          else if _secure_mintimer_lltimer_mask (now + SECURE_MINTIMER_ISR_BACKOFF) < now then
            match _next_period { s1 with TAR := 0 } with
            | none => none
            | some s2 => timer_callback_overflow passes 0 s2
          else
            let s2 := { s1 with in_handler := 0 }
            some { _lltimer_set next_target s2 with CTL_IFG := false }

/-- The function `_timer_callback`. -/
def _timer_callback (passes : Nat) (s : State) : Option State :=
  let s1 := { s with in_handler := 1 }
  match s1.timer_list_head with
  | none =>
    match _next_period s1 with
    | none => none
    | some s2 =>
      let s3 :=
        if _secure_mintimer_lltimer_now s2 = _secure_mintimer_lltimer_mask 0xFFFFFFFF then
          { s2 with TAR := 0 }
        else s2
      timer_callback_overflow passes 0 s3
  | some _ => timer_callback_overflow passes (_secure_mintimer_lltimer_now s1) s1

/-- The function `secure_mintimer_timer_callback`. -/
def secure_mintimer_timer_callback (passes : Nat) (s : State) : Option State :=
  _timer_callback passes s

/-! ## The scheduler (`sched.c`) -/

/-- The function `scheduler_init`; `secure_mintimer_init` resets the control registers of
timer A (`sm_timer_init`) and registers the first overflow tick. -/
def scheduler_init (s : State) : State :=
  if !s.initialization_done then
    let s1 := { s with CTL_IFG := false, CCTL0_CCIFG := false, CCTL0_CCIE := false }
    let s2 := _lltimer_set 0xFFFFFFFF s1
    { s2 with scheduler_timer := { s2.scheduler_timer with thread := none, next := none },
              initialization_done := true }
  else s

/-- The `while` loop of `periodic_thread_schedule_next_timer` on the value of
`last_reference`. The loop state is one 32-bit word, so a run of more than `2 ^ 32`
iterations repeats a value and never exits. -/
def periodic_reference_loop (period current_time : Nat) : Nat → Nat → Option Nat
  | 0, _ => none
  | fuel + 1, last_reference =>
    if last_reference < current_time ∧ (current_time + U32 - last_reference) % U32 < current_time
    then periodic_reference_loop period current_time fuel ((last_reference + period) % U32)
    else some last_reference

/-- The function `periodic_thread_schedule_next_timer`. -/
def periodic_thread_schedule_next_timer (periodic_thread : Nat) (current_time : Nat)
    (s : State) : Option State :=
  let t := s.sched_threads periodic_thread
  match periodic_reference_loop t.period current_time (U32 + 1) t.last_reference with
  | none => none
  | some lr =>
    let s1 := s.setThread periodic_thread { t with last_reference := lr }
    match get_available_timer (s1.sched_threads periodic_thread).pid s1 with
    | none => none
    | some (timer, s2) =>
      match sched_set_status periodic_thread STATUS_SLEEPING s2 with
      | none => none
      | some s3 =>
        match _secure_mintimer_set_absolute timer
            (s3.sched_threads periodic_thread).last_reference s3 with
        | none => none
        | some (_, s4) =>
          let t4 := s4.sched_threads periodic_thread
          some (s4.setThread periodic_thread
            { t4 with sm_idx := t4.original_idx, last_runtime := 0 })

/-- The code of `sched_run_internal` after the label `end`. -/
def sched_run_end (changed_thread : Int) (s : State) : Option (Int × State) :=
  match s.sched_active_thread with
  | none => none
  | some a =>
    if (s.sched_threads a).priority = SCHED_PERIODIC_PRIO_LEVEL then
      let s1 := sm_clist_lpoprpush SCHED_PERIODIC_PRIO_LEVEL s
      let (short_term, long_term) := _secure_mintimer_now_internal s1
      let ta := s1.sched_threads a
      let s2 := { s1 with scheduler_timer :=
        { s1.scheduler_timer with
          target := (short_term + ta.runtime + U32 - ta.last_runtime) % U32,
          long_target := long_term } }
      match _secure_mintimer_set_absolute_explicit .sched short_term s2 with
      | none => none
      | some (_, s3) => some (changed_thread, s3)
    else some (changed_thread, s)

/-- The selection path of `sched_run_internal`: from the reset of
`sched_context_switch_request` to the return. `active_thread` is the local variable of
that name. -/
def sched_run_select (active_thread : Option Nat) (s : State) : Option (Int × State) :=
  let s1 := { s with sched_context_switch_request := 0 }
  match bitarithm_lsb_sm_timer s1.runqueue_bitcache with
  | none => none
  | some nextrq =>
    if nextrq < SCHED_PRIO_LEVELS then
      match s1.sched_runqueues nextrq with
      | none => none
      | some last =>
        match (s1.sched_threads last).rq_entry with
        | none => none
        | some next_thread =>
          if active_thread = some next_thread then sched_run_end 0 s1
          else
            let s2 :=
              match active_thread with
              | some a =>
                if (s1.sched_threads a).status = STATUS_RUNNING then
                  s1.setStatus a STATUS_PENDING
                else s1
              | none => s1
            let s3 := s2.setStatus next_thread STATUS_RUNNING
            let s4 := { s3 with sched_active_pid := (s3.sched_threads next_thread).pid,
                                sched_active_thread := some next_thread }
            sched_run_end 1 s4
    else none

/-- The function `sched_run_internal`: the result is the returned `int` and the state. -/
def sched_run_internal (s : State) : Option (Int × State) :=
  match s.sched_active_thread with
  | some a =>
    let t := s.sched_threads a
    if t.status = STATUS_RUNNING ∧ t.priority = SCHED_PERIODIC_PRIO_LEVEL
        ∧ s.sched_context_switch_request = 0 then
      let current_time := (_secure_mintimer_now_internal s).1
      let runtime := (t.last_runtime + U32 - SCHEDULER_OVERHEAD_RUN) % U32
      let runtime := (runtime + (current_time + U32 - t.last_reference) % U32) % U32
      if runtime ≥ t.runtime then
        match periodic_thread_schedule_next_timer a current_time s with
        | none => none
        | some s1 => sched_run_select (some a) s1
      else
        sched_run_end 0 (s.setThread a { t with last_runtime := runtime })
    else sched_run_select (some a) s
  | none => sched_run_select none s

/-- The function `sched_set_own_status`. -/
def sched_set_own_status (status : thread_status_t) (s : State) : Option State :=
  match s.sched_active_thread with
  | none => none
  | some me => sched_set_status me status s

/-- The function `sched_yield`. The second `if` reads `me->priority` whether or not `me` is
`NULL`. -/
def sched_yield (s : State) : Option State :=
  match s.sched_active_thread with
  | none => none
  | some me =>
    let t := s.sched_threads me
    let r :=
      if on_runqueue t.status then
        if t.priority < SCHED_PRIO_LEVELS then some (sm_clist_lpoprpush t.priority s) else none
      else some s
    match r with
    | none => none
    | some s1 =>
      if (s1.sched_threads me).priority = SCHED_PERIODIC_PRIO_LEVEL then
        match secure_mintimer_remove .sched s1 with
        | none => none
        | some s2 =>
          let short_term := (_secure_mintimer_now_internal s2).1
          match periodic_thread_schedule_next_timer me short_term s2 with
          | none => none
          | some s3 => some { s3 with sched_context_switch_request := 1 }
      else some s1

/-- The function `sched_task_exit_internal`. -/
def sched_task_exit_internal (cfg : Config) (s : State) : Option State :=
  if s.sched_active_pid ≠ cfg.KERNEL_PID_UNDEF then
    if 0 ≤ s.sched_active_pid ∧ s.sched_active_pid ≤ cfg.KERNEL_PID_LAST then
      let i := s.sched_active_pid.toNat
      let s1 := s.setThread i { s.sched_threads i with in_use := false }
      let s2 := { s1 with sched_num_threads := s1.sched_num_threads - 1 }
      match s2.sched_active_thread with
      | none => none
      | some a =>
        match sched_set_status a STATUS_STOPPED s2 with
        | none => none
        | some s3 => some { s3 with sched_active_thread := none }
    else none
  else some s

/-- The function `thread_yield_higher_internal` (`cpu.c`): it does not return to its caller
but ends in `___MACRO_RESTORE_CONTEXT`, which only loads registers from the block of the
active thread. -/
def thread_yield_higher_internal (do_thread_yield : Bool) (s : State) : Option State :=
  let r := if do_thread_yield then sched_yield s else some s
  match r with
  | none => none
  | some s1 =>
    match sched_run_internal s1 with
    | none => none
    | some (_, s2) => some s2

/-- The function `sched_switch_internal_allow_yield`; the yield inside it does not return,
which for the state is the same as returning at once. -/
def sched_switch_internal_allow_yield (other_prio : Nat) (yield_allowed : Bool) (s : State) :
    Option State :=
  match s.sched_active_thread with
  | none => none
  | some a =>
    let current_prio := (s.sched_threads a).priority
    if !on_runqueue (s.sched_threads a).status ∨ current_prio > other_prio then
      let s1 := { s with sched_context_switch_request := 1 }
      if s1.sm_irq_is_in ≠ 0 then some s1
      else if yield_allowed then thread_yield_higher_internal true s1
      else some s1
    else some s

/-- The function `sched_switch_internal`. -/
def sched_switch_internal (other_prio : Nat) (s : State) : Option State :=
  sched_switch_internal_allow_yield other_prio true s

/-! ## Threads (`thread.c`) -/

/-- Modelled from the spec: `pid_is_valid` of `kernel_types.h`, which is not part of the
source tree. The thread table is indexed `[FIRST … LAST]`. -/
def pid_is_valid (cfg : Config) (pid : Int) : Bool :=
  decide (cfg.KERNEL_PID_FIRST ≤ pid ∧ pid ≤ cfg.KERNEL_PID_LAST)

/-- The function `thread_get`. -/
def thread_get (cfg : Config) (pid : Int) : Option Nat :=
  if pid_is_valid cfg pid then some pid.toNat else none

/-- The function `thread_getpid`. -/
def thread_getpid (s : State) : Int := s.sched_active_pid

/-- The function `thread_wakeup`. -/
def thread_wakeup (cfg : Config) (pid : Int) (s : State) : Option (Int × State) :=
  match thread_get cfg pid with
  | none => some (STATUS_NOT_FOUND, s)
  | some thread =>
    if (s.sched_threads thread).status = STATUS_SLEEPING then
      match sched_set_status thread STATUS_RUNNING s with
      | none => none
      | some s1 => some (1, s1)
    else some (STATUS_NOT_FOUND, s)

/-- The `for` loop of `_thread_create_scheduler_internal`: the first pid from `i` on whose
slot is not in use, `KERNEL_PID_UNDEF` if there is none; `n` is the number of pids left. -/
def find_unused_pid (cfg : Config) (s : State) : Nat → Int → Int
  | 0, _ => cfg.KERNEL_PID_UNDEF
  | n + 1, i =>
    if i ≤ cfg.KERNEL_PID_LAST then
      if (s.sched_threads i.toNat).in_use = false then i
      else find_unused_pid cfg s n (i + 1)
    else cfg.KERNEL_PID_UNDEF

/-- The function `_thread_create_scheduler_internal`. -/
def _thread_create_scheduler_internal (cfg : Config) (priority : Nat) (is_sm : Bool)
    (thread_sp_init : Nat) (s : State) : Option (Int × State) :=
  let pid := find_unused_pid cfg s (cfg.KERNEL_PID_LAST - cfg.KERNEL_PID_FIRST + 1).toNat
    cfg.KERNEL_PID_FIRST
  if pid = cfg.KERNEL_PID_UNDEF then some (-cfg.EOVERFLOW, s)
  else
    let i := pid.toNat
    let s1 := s.setThread i
      { s.sched_threads i with
        in_use := true, pid := pid, priority := priority, is_sm := is_sm, sp := thread_sp_init,
        rq_entry := none }
    let s2 := { s1 with sched_num_threads := s1.sched_num_threads + 1 }
    match sched_set_status i STATUS_PENDING s2 with
    | none => none
    | some s3 => some (pid, s3)

/-- The function `thread_create_protected_in_scheduler`. The result of the internal
function is compared with `KERNEL_PID_UNDEF`; any other value indexes `sched_threads`. -/
def thread_create_protected_in_scheduler (cfg : Config) (priority : Nat)
    (thread_sp_init : Nat) (thread_entry : Nat) (thread_idx : Nat) (s : State) :
    Option (Int × State) :=
  match _thread_create_scheduler_internal cfg priority true thread_sp_init s with
  | none => none
  | some (pid, s1) =>
    if pid = cfg.KERNEL_PID_UNDEF then some (pid, s1)
    else if 0 ≤ pid ∧ pid ≤ cfg.KERNEL_PID_LAST then
      let i := pid.toNat
      let s2 := s1.setThread i { s1.sched_threads i with sm_idx := thread_idx }
      let s3 := s2.setThread i { s2.sched_threads i with sm_entry := thread_entry }
      some (pid, s3)
    else none

/-- The function `thread_create_unprotected_in_scheduler`. -/
def thread_create_unprotected_in_scheduler (cfg : Config) (priority : Nat)
    (thread_sp_init : Nat) (s : State) : Option (Int × State) :=
  if priority < SCHED_MAX_PRIO_LEVEL_UNPROTECTED then some (-cfg.EINVAL, s)
  else _thread_create_scheduler_internal cfg priority false thread_sp_init s

/-! ## The entry stub (`cpu.c`) -/

/-- The opcode `EXITLESS_FUNCTION_TYPE_BOOT`. -/
def EXITLESS_FUNCTION_TYPE_BOOT : Nat := 0

/-- The opcode `EXITLESS_FUNCTION_TYPE_YIELD`. -/
def EXITLESS_FUNCTION_TYPE_YIELD : Nat := 1

/-- The opcode `EXITLESS_FUNCTION_TYPE_EXIT`. -/
def EXITLESS_FUNCTION_TYPE_EXIT : Nat := 2

/-- The opcode `EXITLESS_FUNCTION_TYPE_SCHED_SWITCH`. -/
def EXITLESS_FUNCTION_TYPE_SCHED_SWITCH : Nat := 3

/-- The opcode `EXITLESS_FUNCTION_TYPE_SLEEP`. -/
def EXITLESS_FUNCTION_TYPE_SLEEP : Nat := 4

/-- The function `_secure_mintimer_tsleep_internal`. -/
def _secure_mintimer_tsleep_internal (cfg : Config) (offset : Nat) (s : State) : Option State :=
  match s.sched_active_thread with
  | none => none
  | some a => _secure_mintimer_tsleep_specific_pid cfg offset (s.sched_threads a).pid s

/-- The first part of `exitless_entry`: the context of the active thread is stored unless
there is none or the call is an exit. `unprotected_caller` tells whether
`sancus_get_caller_id` yields `SM_ID_UNPROTECTED`. -/
def exitless_save_context (function_type : Nat) (r14 : Nat) (unprotected_caller : Bool)
    (s : State) : State :=
  match s.sched_active_thread with
  | none => s
  | some a =>
    if function_type = EXITLESS_FUNCTION_TYPE_EXIT then s
    else
      let s1 := s.setThread a { s.sched_threads a with sp := r14 }
      if unprotected_caller then s1.setThread a { s1.sched_threads a with is_sm := false }
      else s1.setThread a { s1.sched_threads a with is_sm := true, sm_idx := 0xffff }

/-- The code of `exitless_entry` at the label `.default`: a pending timer A interrupt is
served first, through `secure_mintimer_timer_callback` and `__MACRO_EXIT_ISR`; otherwise
the stub branches to `thread_yield_higher_internal` with argument 1. -/
def exitless_default (passes : Nat) (s : State) : Option State :=
  if s.CTL_IFG ∨ s.CCTL0_CCIFG then
    let s1 := { s with sm_irq_is_in := 1 }
    match secure_mintimer_timer_callback passes s1 with
    | none => none
    | some s2 =>
      let s3 := { s2 with sched_context_switch_request := 1 }
      let r :=
        if s3.sched_context_switch_request ≠ 0 then
          (sched_run_internal s3).map Prod.snd
        else some s3
      match r with
      | none => none
      | some s4 =>
        match s4.sched_active_thread with
        | none => none
        | some _ => some { s4 with sm_irq_is_in := 0 }
  else thread_yield_higher_internal true s

/-- The function `exitless_entry`. `r15` is the opcode, `r14` the stack pointer to record,
`r13` and `r12` the optional arguments; `passes` bounds `_timer_callback`. -/
def exitless_entry (cfg : Config) (passes : Nat) (r15 r14 r13 r12 : Nat)
    (unprotected_caller : Bool) (s : State) : Option State :=
  let s1 := exitless_save_context r15 r14 unprotected_caller s
  if r15 = EXITLESS_FUNCTION_TYPE_BOOT then
    exitless_default passes (scheduler_init s1)
  else if r15 = EXITLESS_FUNCTION_TYPE_EXIT then
    match sched_task_exit_internal cfg s1 with
    | none => none
    | some s2 => exitless_default passes s2
  else if r15 = EXITLESS_FUNCTION_TYPE_SCHED_SWITCH then
    match sched_switch_internal r13 s1 with
    | none => none
    | some s2 =>
      match s2.sched_active_thread with
      | none => none
      | some _ => some s2
  else if r15 = EXITLESS_FUNCTION_TYPE_SLEEP then
    match _secure_mintimer_tsleep_internal cfg (r13 * U16 + r12) s1 with
    | none => none
    | some s2 => exitless_default passes s2
  else exitless_default passes s1

/-- The function `thread_yield_higher`: the exitless call with opcode YIELD; `r1` is the
stack pointer after the context was pushed. -/
def thread_yield_higher (cfg : Config) (passes : Nat) (r1 : Nat) (unprotected_caller : Bool)
    (s : State) : Option State :=
  exitless_entry cfg passes EXITLESS_FUNCTION_TYPE_YIELD r1 0 0 unprotected_caller s

/-- The function `sched_switch`: the exitless call with opcode SCHED_SWITCH and the other
priority in `r13`. -/
def sched_switch (cfg : Config) (passes : Nat) (other_prio : Nat) (r1 : Nat)
    (unprotected_caller : Bool) (s : State) : Option State :=
  exitless_entry cfg passes EXITLESS_FUNCTION_TYPE_SCHED_SWITCH r1 other_prio 0
    unprotected_caller s

/-- The flag `THREAD_CREATE_WOUT_YIELD`. -/
def THREAD_CREATE_WOUT_YIELD : Nat := 4

/-- The function `thread_stack_init`: the returned stack pointer. The words it writes lie in
the stack of the new thread, outside the state of the scheduler. -/
def thread_stack_init (stack_start : Nat) (stack_size : Int) : Nat :=
  let stk := (((stack_start : Int) + stack_size) % (U16 : Int)).toNat &&& 0xfffe
  (stk + U16 - 2 * 16) % U16

/-- The function `thread_unprotected_stack_init`: the returned stack pointer. -/
def thread_unprotected_stack_init (stack_start : Nat) (stack_size : Int) : Nat :=
  let stk := (((stack_start : Int) + stack_size) % (U16 : Int)).toNat &&& 0xfffe
  (stk + U16 - 2) % U16

/-- The alignment steps at the head of `thread_create` and `thread_create_protected`, with
the 2-byte alignment of the MSP430: the aligned stack address and size. -/
def align_stack (stack : Nat) (stacksize : Int) : Nat × Int :=
  let misalignment := stack % 2
  let p : Nat × Int :=
    if misalignment ≠ 0 then (stack + (2 - misalignment), stacksize - (2 - misalignment))
    else (stack, stacksize)
  (p.1, p.2 - p.2 % 2)

/-- The function `thread_create`, called from unprotected code; `r1` is the stack pointer
of the caller inside `sched_switch`. The result is the returned pid and the state at the
point where the entry stub has finished. -/
def thread_create (cfg : Config) (passes : Nat) (r1 : Nat) (stack : Nat) (stacksize : Int)
    (priority : Nat) (flags : Nat) (s : State) : Option (Int × State) :=
  if priority < SCHED_MAX_PRIO_LEVEL_UNPROTECTED then some (-cfg.EINVAL, s)
  else
    let a := align_stack stack stacksize
    let thread_sp_init := thread_stack_init a.1 a.2
    match thread_create_unprotected_in_scheduler cfg priority thread_sp_init s with
    | none => none
    | some (pid, s1) =>
      if flags &&& THREAD_CREATE_WOUT_YIELD = 0 then
        match sched_switch cfg passes priority r1 true s1 with
        | none => none
        | some s2 => some (pid, s2)
      else some (pid, s1)

/-- The function `thread_create_protected`, called from unprotected code. -/
def thread_create_protected (cfg : Config) (passes : Nat) (r1 : Nat) (unprotected_stack : Nat)
    (unprotected_stack_size : Int) (priority : Nat) (flags : Nat) (sm_entry : Nat)
    (sm_idx : Nat) (s : State) : Option (Int × State) :=
  let a := align_stack unprotected_stack unprotected_stack_size
  let thread_sp_init := thread_unprotected_stack_init a.1 a.2
  match thread_create_protected_in_scheduler cfg priority thread_sp_init sm_entry sm_idx s with
  | none => none
  | some (pid, s1) =>
    if flags &&& THREAD_CREATE_WOUT_YIELD = 0 then
      match sched_switch cfg passes priority r1 true s1 with
      | none => none
      | some s2 => some (pid, s2)
    else some (pid, s1)

/-- The function `thread_change_to_periodical`; `sched_threads[pid]` is an array access. -/
def thread_change_to_periodical (cfg : Config) (pid : Int) (runtime : Nat) (period : Nat)
    (s : State) : Option State :=
  if 0 ≤ pid ∧ pid ≤ cfg.KERNEL_PID_LAST then
    let i := pid.toNat
    match sched_set_status i STATUS_SLEEPING s with
    | none => none
    | some s1 =>
      let short_term := (_secure_mintimer_now_internal s1).1
      let t := s1.sched_threads i
      let s2 := s1.setThread i
        { t with priority := SCHED_PERIODIC_PRIO_LEVEL, period := period,
                 last_reference := short_term, last_runtime := 0, runtime := runtime % U16,
                 original_idx := t.sm_idx }
      _secure_mintimer_tsleep_specific_pid cfg period pid s2
  else none

/-! ## Specification vocabulary -/

/-- Walk along the ring of a run queue: the nodes after `cur` up to and including `last`;
the walk stops at a `NULL` field and after `fuel` steps. -/
def clist_walk (s : State) (last : Nat) : Nat → Nat → List Nat
  | 0, _ => []
  | fuel + 1, cur =>
    match (s.sched_threads cur).rq_entry with
    | none => []
    | some n => if n = last then [n] else n :: clist_walk s last fuel n

/-- The nodes linked in `sched_runqueues[p]`, from the first to the last, for a thread table
of `n` slots. -/
def queue_nodes (n : Nat) (s : State) (p : Nat) : List Nat :=
  match s.sched_runqueues p with
  | none => []
  | some last => clist_walk s last n last

/-- The run-queue membership invariant for a thread table of `n` slots: a thread is on a run
queue exactly when it is linked in the queue of its priority, and it is linked in no other
queue. -/
def rq_membership_inv (n : Nat) (s : State) : Prop :=
  ∀ t < n,
    (on_runqueue (s.sched_threads t).status = true ↔
        t ∈ queue_nodes n s (s.sched_threads t).priority) ∧
    ∀ p < SCHED_PRIO_LEVELS, p ≠ (s.sched_threads t).priority → t ∉ queue_nodes n s p

instance (n : Nat) (s : State) : Decidable (rq_membership_inv n s) := by
  unfold rq_membership_inv; infer_instance

/-- The bitmap invariant: bit `p` of `runqueue_bitcache` is set exactly when
`sched_runqueues[p]` is not empty. -/
def bitmap_inv (s : State) : Prop :=
  ∀ p < SCHED_PRIO_LEVELS, (s.runqueue_bitcache.testBit p = true ↔ s.sched_runqueues p ≠ none)

instance (s : State) : Decidable (bitmap_inv s) := by
  unfold bitmap_inv; infer_instance

/-- The ring of `sched_runqueues[p]` is closed at its last node: the field `next` of the node
the list head points to is not `NULL`. -/
def ring_closed (s : State) (p : Nat) : Prop :=
  match s.sched_runqueues p with
  | none => True
  | some last => (s.sched_threads last).rq_entry ≠ none

instance (s : State) (p : Nat) : Decidable (ring_closed s p) := by
  unfold ring_closed; split <;> infer_instance

/-- Two threads created at priority 5 from the initial state, then one scheduler run:
thread 1 is running, thread 2 is pending behind it. -/
def two_threads_boot : Option State :=
  match thread_create_unprotected_in_scheduler riotConfig 5 0x300 (State.init riotConfig) with
  | some (_, s1) =>
    match thread_create_unprotected_in_scheduler riotConfig 5 0x400 s1 with
    | some (_, s2) => (sched_run_internal s2).map Prod.snd
    | none => none
  | none => none

/-- The state of `two_threads_boot`. -/
def two_threads : State := two_threads_boot.getD (State.init riotConfig)


/-- The nodes of a timer list from the timer `h` on, if the chain of `next` fields ends
within `fuel` nodes. -/
def timer_chain (s : State) : Nat → Option timer_ptr → Option (List timer_ptr)
  | _, none => some []
  | 0, some _ => none
  | fuel + 1, some h => (timer_chain s fuel (s.getTimer h).next).map (h :: ·)

/-- The timers linked in a list, in order, if the list ends. -/
def timer_list (s : State) (l : timer_list_id) : Option (List timer_ptr) :=
  timer_chain s TIMER_NODES (s.listHead l)

/-- Each of the three timer lists ends (none of them runs into a cycle). -/
def timer_lists_wf (s : State) : Prop :=
  ∀ l : timer_list_id, (timer_list s l).isSome = true

instance (s : State) : Decidable (timer_lists_wf s) :=
  decidable_of_iff
    ((timer_list s .short).isSome = true ∧ (timer_list s .overflow).isSome = true ∧
      (timer_list s .long).isSome = true)
    ⟨fun h l => by cases l; exact h.1; exact h.2.1; exact h.2.2,
     fun h => ⟨h .short, h .overflow, h .long⟩⟩

/-- Exactly one thread of the table of `n` slots has status `STATUS_RUNNING`, and it is the
thread `sched_active_thread` points to. -/
def one_running_inv (n : Nat) (s : State) : Prop :=
  match s.sched_active_thread with
  | none => False
  | some a => ∀ t < n, ((s.sched_threads t).status = STATUS_RUNNING ↔ t = a)

instance (n : Nat) (s : State) : Decidable (one_running_inv n s) := by
  unfold one_running_inv; split <;> infer_instance

/-- The scheduler data of `sched.c` is the same in both states. -/
def same_sched (s s' : State) : Prop :=
  s'.sched_num_threads = s.sched_num_threads ∧
  s'.sched_context_switch_request = s.sched_context_switch_request ∧
  s'.sched_threads = s.sched_threads ∧
  s'.sched_active_thread = s.sched_active_thread ∧
  s'.sched_active_pid = s.sched_active_pid ∧
  s'.sched_runqueues = s.sched_runqueues ∧
  s'.runqueue_bitcache = s.runqueue_bitcache

/-- The function `thread_sleep`; `in_isr` is the result of `irq_is_in()`. -/
def thread_sleep (cfg : Config) (passes : Nat) (r1 : Nat) (unprotected_caller : Bool)
    (in_isr : Bool) (s : State) : Option State :=
  if in_isr then some s
  else
    match sched_set_own_status STATUS_SLEEPING s with
    | none => none
    | some s1 => thread_yield_higher cfg passes r1 unprotected_caller s1

/-- From `two_threads`: the running thread 1 calls `thread_sleep`, so that thread 2 runs and
thread 1 sleeps. -/
def one_asleep_boot : Option State :=
  thread_sleep riotConfig 0 0x2f0 true false two_threads

/-- The call `sched_yield` followed by `sched_run_internal`, as
`thread_yield_higher_internal` performs them; the result is that of `sched_run_internal`. -/
def yield_run (s : State) : Option (Int × State) :=
  match sched_yield s with
  | none => none
  | some s1 => sched_run_internal s1

/-- The state after `k` rounds of `yield_run`, each yield made by the thread that is active
at the time. -/
def yield_run_iter : Nat → State → Option State
  | 0, s => some s
  | k + 1, s =>
    match yield_run s with
    | none => none
    | some (_, s1) => yield_run_iter k s1

/-- The position of a round-robin schedule after `k` yields on the ring
`node 0, …, node (n - 1)` of `sched_runqueues[p]` of the state `s0`: the thread `node (k % n)`
is active and on the run queue, the list head points to its predecessor on the ring, and
the links, priorities, pids and the bitmap are those of `s0`. -/
def rr_inv (s0 : State) (node : Nat → Nat) (n p k : Nat) (s : State) : Prop :=
  s.sched_runqueues = Function.update s0.sched_runqueues p (some (node ((k + n - 1) % n))) ∧
  s.sched_active_thread = some (node (k % n)) ∧
  s.runqueue_bitcache = s0.runqueue_bitcache ∧
  on_runqueue (s.sched_threads (node (k % n))).status = true ∧
  ∀ i, (s.sched_threads i).rq_entry = (s0.sched_threads i).rq_entry ∧
    (s.sched_threads i).priority = (s0.sched_threads i).priority ∧
    (s.sched_threads i).pid = (s0.sched_threads i).pid

/-- The state after `k` further calls of `thread_create_unprotected_in_scheduler` at
priority 5. -/
def create_many : Nat → State → Option State
  | 0, s => some s
  | k + 1, s =>
    match thread_create_unprotected_in_scheduler riotConfig 5 0x300 s with
    | some (_, s1) => create_many k s1
    | none => none

/-- The thread table filled from the initial state: 32 threads, pids 1 to 32. -/
def full_table_boot : Option State := create_many 32 (State.init riotConfig)

/-- The state of `full_table_boot`. -/
def full_table : State := full_table_boot.getD (State.init riotConfig)

/-- Two control blocks agree in every field but `rq_entry.next` and `status`. -/
def same_thread_data (t t' : thread_t) : Prop :=
  t' = { t with rq_entry := t'.rq_entry, status := t'.status }

/-- The flag `THREAD_CREATE_SLEEPING`. -/
def THREAD_CREATE_SLEEPING : Nat := 1

/-- Two protected threads created at the periodic priority level 1 from the initial state,
then one scheduler run: thread 1 is running and, the queue of the periodic level having been
rotated by `sched_run_internal`, it is the last node of the queue; thread 2 is pending and
is the first node. -/
def periodic_pair_boot : Option State :=
  match thread_create_protected_in_scheduler riotConfig 1 0x300 0x8000 0
      (State.init riotConfig) with
  | some (_, s1) =>
    match thread_create_protected_in_scheduler riotConfig 1 0x400 0x9000 0 s1 with
    | some (_, s2) => (sched_run_internal s2).map Prod.snd
    | none => none
  | none => none

/-- The state of `periodic_pair_boot`. -/
def periodic_pair : State := periodic_pair_boot.getD (State.init riotConfig)

/-! ## Mutexes (`mutex.c`, `mutex.h`) -/

/-- A value of type `list_node_t *` in the field `queue.next` of a mutex: `NULL`, the
sentinel `mutex_LOCKED`, or the address of the `rq_entry` of a thread. -/
inductive list_ptr where
  | null
  | LOCKED
  | node (i : Nat)
  deriving DecidableEq, Repr

/-- The structure `mutex_t`; `queue` is the field `queue.next`. -/
structure mutex_t where
  queue : list_ptr
  deriving DecidableEq, Repr

/-- The initialiser `mutex_INIT`. -/
def mutex_INIT : mutex_t := { queue := .null }

/-- The initialiser `mutex_INIT_LOCKED`. -/
def mutex_INIT_LOCKED : mutex_t := { queue := .LOCKED }

/-- The value of a field `rq_entry.next` as a `list_node_t *`. -/
def list_ptr.ofNext : Option Nat → list_ptr
  | none => .null
  | some i => .node i

/-- A value of type `list_node_t *` that `thread_add_to_list` dereferences: the address of
the list head `mutex->queue` or of the `rq_entry` of a thread. -/
inductive list_loc where
  | head
  | entry (i : Nat)
  deriving DecidableEq, Repr

/-- The value `list->next`. -/
def list_loc.next (mutex : mutex_t) (s : State) : list_loc → list_ptr
  | .head => mutex.queue
  | .entry i => list_ptr.ofNext (s.sched_threads i).rq_entry

/-- The loop of `thread_add_to_list`: the node behind which the new node is linked. The
sentinel `mutex_LOCKED` in a `next` field is dereferenced by `container_of`; a walk of more
than `fuel` steps has entered a cycle. -/
def thread_add_to_list_loop (mutex : mutex_t) (s : State) (my_prio : Nat) :
    Nat → list_loc → Option list_loc
  | 0, _ => none
  | fuel + 1, list =>
    match list.next mutex s with
    | .null => some list
    | .LOCKED => none
    | .node e =>
      if (s.sched_threads e).priority > my_prio then some list
      else thread_add_to_list_loop mutex s my_prio fuel (.entry e)

/-- The function `thread_add_to_list` on the list head `mutex->queue`. A failed `assert` has
no result. The fuel is the number of slots of the thread table plus one. -/
def thread_add_to_list (cfg : Config) (mutex : mutex_t) (thread : Nat) (s : State) :
    Option (mutex_t × State) :=
  if on_runqueue (s.sched_threads thread).status then none
  else
    let my_prio := (s.sched_threads thread).priority
    match thread_add_to_list_loop mutex s my_prio (cfg.KERNEL_PID_LAST + 2).toNat .head with
    | none => none
    | some list =>
      match list.next mutex s with
      | .LOCKED => none
      | .null =>
        let s1 := s.setRqNext thread none
        match list with
        | .head => some ({ mutex with queue := .node thread }, s1)
        | .entry i => some (mutex, s1.setRqNext i (some thread))
      | .node n =>
        let s1 := s.setRqNext thread (some n)
        match list with
        | .head => some ({ mutex with queue := .node thread }, s1)
        | .entry i => some (mutex, s1.setRqNext i (some thread))

/-- The branch of `_mutex_lock` for a locked mutex and `blocking != 0`, up to the call of
`thread_yield_higher`. -/
def mutex_lock_block (cfg : Config) (mutex : mutex_t) (s : State) : Option (mutex_t × State) :=
  match s.sched_active_thread with
  | none => none
  | some me =>
    match sched_set_status me STATUS_MUTEX_BLOCKED s with
    | none => none
    | some s1 =>
      if mutex.queue = .LOCKED then
        some ({ mutex with queue := .node me }, s1.setRqNext me none)
      else thread_add_to_list cfg mutex me s1

/-- The function `_mutex_lock`: the returned `int`, the mutex and the state. In the blocking
branch the state is the one at the point where the entry stub called by
`thread_yield_higher` has finished. -/
def _mutex_lock (cfg : Config) (passes : Nat) (r1 : Nat) (unprotected_caller : Bool)
    (mutex : mutex_t) (blocking : Int) (s : State) : Option (Int × mutex_t × State) :=
  if mutex.queue = .null then some (1, { mutex with queue := .LOCKED }, s)
  else if blocking ≠ 0 then
    match mutex_lock_block cfg mutex s with
    | none => none
    | some (m1, s1) =>
      match thread_yield_higher cfg passes r1 unprotected_caller s1 with
      | none => none
      | some s2 => some (1, m1, s2)
  else some (0, mutex, s)

/-- The function `mutex_trylock`. -/
def mutex_trylock (cfg : Config) (passes : Nat) (r1 : Nat) (unprotected_caller : Bool)
    (mutex : mutex_t) (s : State) : Option (Int × mutex_t × State) :=
  _mutex_lock cfg passes r1 unprotected_caller mutex 0 s

/-- The function `mutex_lock`. -/
def mutex_lock (cfg : Config) (passes : Nat) (r1 : Nat) (unprotected_caller : Bool)
    (mutex : mutex_t) (s : State) : Option (mutex_t × State) :=
  (_mutex_lock cfg passes r1 unprotected_caller mutex 1 s).map Prod.snd

/-- The waiters of a mutex from the node `p` on, in order, if the chain of `next` fields
ends within `fuel` nodes. -/
def wait_chain (s : State) : Nat → Option Nat → Option (List Nat)
  | _, none => some []
  | 0, some _ => none
  | fuel + 1, some h => (wait_chain s fuel (s.sched_threads h).rq_entry).map (h :: ·)

/-- The wait list of a mutex for a thread table of `n` slots: empty for an unlocked mutex and
for a locked one without waiters. -/
def mutex_waiters (n : Nat) (mutex : mutex_t) (s : State) : Option (List Nat) :=
  match mutex.queue with
  | .null => some []
  | .LOCKED => some []
  | .node h => wait_chain s n (some h)

/-- Threads 1 and 2 at priority 5, thread 3 at priority 7 and thread 4 at priority 3,
created from the initial state, then one scheduler run: thread 4 is running. -/
def four_threads_boot : Option State :=
  match create_many 2 (State.init riotConfig) with
  | some s1 =>
    match thread_create_unprotected_in_scheduler riotConfig 7 0x500 s1 with
    | some (_, s2) =>
      match thread_create_unprotected_in_scheduler riotConfig 3 0x600 s2 with
      | some (_, s3) => (sched_run_internal s3).map Prod.snd
      | none => none
    | none => none
  | none => none

/-- From `four_threads_boot` and a locked mutex: the running thread calls `mutex_lock`, three
times in a row, so that threads 4, 1 and 2 block in this order and thread 3 runs. -/
def three_blocked_boot : Option (mutex_t × State) :=
  match four_threads_boot with
  | none => none
  | some s0 =>
    match mutex_lock riotConfig 0 0x2f0 true mutex_INIT_LOCKED s0 with
    | none => none
    | some (m1, s1) =>
      match mutex_lock riotConfig 0 0x2f0 true m1 s1 with
      | none => none
      | some (m2, s2) => mutex_lock riotConfig 0 0x2f0 true m2 s2

/-- The mutex and the state of `three_blocked_boot`. -/
def three_blocked : mutex_t × State :=
  three_blocked_boot.getD (mutex_INIT, State.init riotConfig)

/-- The state after `scheduler_init`, with the counter register at `t` and no timer armed. -/
def booted_at (t : Nat) : State := { scheduler_init (State.init riotConfig) with TAR := t }

/-- Two timers armed at time 1000 of the first hardware epoch: `pool 0` with the target 1300,
whose corrected value is `now` so that it is linked in the overflow list, and `pool 1` with
a target in the next hardware epoch, which is linked in the long list. -/
def overflow_and_long_boot : Option State :=
  match _secure_mintimer_set_absolute (some (.pool 0)) 1300 (booted_at 1000) with
  | none => none
  | some (_, s1) =>
    match _secure_mintimer_set_absolute (some (.pool 1)) (0x10000 + 1000) s1 with
    | none => none
    | some (_, s2) => some s2

/-- The state of `overflow_and_long_boot`. -/
def overflow_and_long : State := overflow_and_long_boot.getD (State.init riotConfig)

/-- The ownership invariant of the soft timers: each of the three lists ends, and no timer
occurs twice in the three lists taken together. -/
def timer_ownership_inv (s : State) : Prop :=
  match timer_list s .short, timer_list s .overflow, timer_list s .long with
  | some a, some b, some c => (a ++ b ++ c).Nodup
  | _, _, _ => False

instance (s : State) : Decidable (timer_ownership_inv s) := by
  unfold timer_ownership_inv; split <;> infer_instance

/-- A periodic thread in its first job. At time 1000 the protected thread 1 and the ordinary
thread 2 (priority 5) are created, thread 1 is made periodic with a runtime of 500 and a
period of 1000 ticks, and the scheduler runs thread 2. The timer of thread 1 is served
(the callback is entered at time 1850 and waits for the target 2000), and the scheduler
selects thread 1: it is running at time 2000 with `last_reference = 1000`. -/
def periodic_running_boot : Option State :=
  match thread_create_protected_in_scheduler riotConfig 2 0x300 0x8000 0 (booted_at 1000) with
  | some (_, s1) =>
    match thread_create_unprotected_in_scheduler riotConfig 5 0x400 s1 with
    | some (_, s2) =>
      match thread_change_to_periodical riotConfig 1 500 1000 s2 with
      | some s3 =>
        match sched_run_internal s3 with
        | some (_, s4) =>
          match _timer_callback 4 { s4 with TAR := 1850 } with
          | some s5 => (sched_run_internal s5).map Prod.snd
          | none => none
        | none => none
      | none => none
    | none => none
  | none => none

/-- The state of `periodic_running_boot`. -/
def periodic_running : State := periodic_running_boot.getD (State.init riotConfig)

/-- The periodic thread of `periodic_running` at the start of its second job. At time 2100
the scheduler finds the budget of the first job used up and puts thread 1 to sleep until
`last_reference = 3000`; the timers are served (callback entered at time 2850) and the
scheduler selects thread 1 again: it is running at time 3000 with `last_reference = 3000`,
`last_runtime = 0` and `runtime = 500`. -/
def periodic_second_job_boot : Option State :=
  match sched_run_internal { periodic_running with TAR := 2100 } with
  | some (_, s1) =>
    match _timer_callback 4 { s1 with TAR := 2850 } with
    | some s2 => (sched_run_internal s2).map Prod.snd
    | none => none
  | none => none

/-- The state of `periodic_second_job_boot`. -/
def periodic_second_job : State := periodic_second_job_boot.getD (State.init riotConfig)

/-! ## Tick conversion (`secure_mintimer.h`, `secure_mintimer_tick_conversion.h`) -/

/-- Modulus of `uint64_t`. -/
def U64 : Nat := 2 ^ 64

/-- The constant `SECURE_MINTIMER_HZ_BASE`. -/
def SECURE_MINTIMER_HZ_BASE : Nat := 1000000

/-- The macro `SECURE_MINTIMER_SHIFT` as `secure_mintimer.h` derives it from the frequency
`SECURE_MINTIMER_HZ`; `none` where the cascade ends in `#error`. -/
def SECURE_MINTIMER_SHIFT (hz : Nat) : Option Nat :=
  if hz = 32768 then some 0
  else if hz = SECURE_MINTIMER_HZ_BASE then some 0
  else if hz >>> 1 = SECURE_MINTIMER_HZ_BASE ∨ hz <<< 1 = SECURE_MINTIMER_HZ_BASE then some 1
  else if hz >>> 2 = SECURE_MINTIMER_HZ_BASE ∨ hz <<< 2 = SECURE_MINTIMER_HZ_BASE then some 2
  else if hz >>> 3 = SECURE_MINTIMER_HZ_BASE ∨ hz <<< 3 = SECURE_MINTIMER_HZ_BASE then some 3
  else if hz >>> 4 = SECURE_MINTIMER_HZ_BASE ∨ hz <<< 4 = SECURE_MINTIMER_HZ_BASE then some 4
  else if hz >>> 5 = SECURE_MINTIMER_HZ_BASE ∨ hz <<< 5 = SECURE_MINTIMER_HZ_BASE then some 5
  else if hz >>> 6 = SECURE_MINTIMER_HZ_BASE ∨ hz <<< 6 = SECURE_MINTIMER_HZ_BASE then some 6
  else none

/-- The branch of the conditional compilation in `secure_mintimer_tick_conversion.h` that
defines the conversion functions. -/
inductive tick_conversion_t where
  /-- `SECURE_MINTIMER_HZ` is `1 MHz << shift`. -/
  | above (shift : Nat)
  /-- `SECURE_MINTIMER_HZ << shift` is 1 MHz. -/
  | below (shift : Nat)
  /-- `SECURE_MINTIMER_HZ` is 1 MHz. -/
  | base
  /-- `SECURE_MINTIMER_HZ` is 32768 Hz. -/
  | rtc
  deriving DecidableEq, Repr

/-- The `#if` cascade of `secure_mintimer_tick_conversion.h`; `none` where it ends in
`#error`. -/
def tick_conversion_select (hz : Nat) : Option tick_conversion_t :=
  match SECURE_MINTIMER_SHIFT hz with
  | none => none
  | some shift =>
    if shift ≠ 0 then
      if hz % 15625 ≠ 0 then none
      else if hz > 1000000 then
        if hz ≠ 1000000 <<< shift then none else some (.above shift)
      else
        if hz <<< shift ≠ 1000000 then none else some (.below shift)
    else if hz = 1000000 then some .base
    else if hz = 32768 then some .rtc
    else none

/-- Modelled from the spec: `div_u32_by_15625div512` and `div_u64_by_15625div512` of `div.h`,
which is not part of the source tree: the division by the fraction 15625 / 512. -/
def div_by_15625div512 (val : Nat) : Nat := val * 512 / 15625

/-- The function `_secure_mintimer_ticks_from_usec`. -/
def _secure_mintimer_ticks_from_usec (v : tick_conversion_t) (usec : Nat) : Nat :=
  match v with
  | .above shift => (usec <<< shift) % U32
  | .below shift => usec >>> shift
  | .base => usec
  | .rtc => div_by_15625div512 usec % U32

/-- The function `_secure_mintimer_ticks_from_usec64`. -/
def _secure_mintimer_ticks_from_usec64 (v : tick_conversion_t) (usec : Nat) : Nat :=
  match v with
  | .above shift => (usec <<< shift) % U64
  | .below shift => usec >>> shift
  | .base => usec
  | .rtc => div_by_15625div512 usec % U64

/-- The function `_secure_mintimer_usec_from_ticks`. -/
def _secure_mintimer_usec_from_ticks (v : tick_conversion_t) (ticks : Nat) : Nat :=
  match v with
  | .above shift => ticks >>> shift
  | .below shift => (ticks <<< shift) % U32
  | .base => ticks
  | .rtc => ((ticks * 15625 % U64) >>> 9) % U32

/-- The function `_secure_mintimer_usec_from_ticks64`. -/
def _secure_mintimer_usec_from_ticks64 (v : tick_conversion_t) (ticks : Nat) : Nat :=
  match v with
  | .above shift => ticks >>> shift
  | .below shift => (ticks <<< shift) % U64
  | .base => ticks
  | .rtc => (ticks * 15625 % U64) >>> 9

/-- The loop shared by `_add_timer_to_list` and `_add_timer_to_long_list`, with the test on
the node `*list_head` as a parameter: the walk goes on while `keep` holds for it. -/
def insert_loop (keep : timer_ptr → Bool) (timer : timer_ptr) :
    Nat → timer_loc → State → Option State
  | 0, _, _ => none
  | fuel + 1, loc, s =>
    match s.readLoc loc with
    | some h =>
      if keep h then insert_loop keep timer fuel (.next h) s
      else some ((s.writeLoc (.next timer) (some h)).writeLoc loc (some timer))
    | none => some ((s.writeLoc (.next timer) none).writeLoc loc (some timer))

/-- The list with `timer` put in front of the first node for which `keep` fails. -/
def insert_before (keep : timer_ptr → Bool) (timer : timer_ptr) (L : List timer_ptr) :
    List timer_ptr :=
  L.takeWhile keep ++ timer :: L.dropWhile keep

/-- The pointer refers to one of the soft timers of the module: a slot of the pool of
`SECURE_MINTIMER_TIMER_LIST_LENGTH` timers, or `scheduler_timer`. -/
def timer_ptr.valid : timer_ptr → Prop
  | .pool i => i < SECURE_MINTIMER_TIMER_LIST_LENGTH
  | .sched => True

instance (t : timer_ptr) : Decidable t.valid := by
  cases t <;> unfold timer_ptr.valid <;> infer_instance

/-- The order of the short and the overflow list: by `target`. -/
def timer_le (s : State) (a b : timer_ptr) : Prop :=
  (s.getTimer a).target ≤ (s.getTimer b).target

instance (s : State) (a b : timer_ptr) : Decidable (timer_le s a b) := by
  unfold timer_le; infer_instance

/-- The order of the long list: lexicographic by `(long_target, target)`. -/
def timer_long_le (s : State) (a b : timer_ptr) : Prop :=
  (s.getTimer a).long_target < (s.getTimer b).long_target ∨
    ((s.getTimer a).long_target = (s.getTimer b).long_target ∧
      (s.getTimer a).target ≤ (s.getTimer b).target)

instance (s : State) (a b : timer_ptr) : Decidable (timer_long_le s a b) := by
  unfold timer_long_le; infer_instance

/-- Two timers in the short list: at time 1000 of the first hardware epoch `pool 0` is armed
for 5000 and `pool 1` for 9000. -/
def short_pair_boot : Option State :=
  match _secure_mintimer_set_absolute (some (.pool 0)) 5000 (booted_at 1000) with
  | none => none
  | some (_, s1) =>
    match _secure_mintimer_set_absolute (some (.pool 1)) 9000 s1 with
    | none => none
    | some (_, s2) => some s2

/-- The state of `short_pair_boot`. -/
def short_pair : State := short_pair_boot.getD (State.init riotConfig)

/-- The state `short_pair` with the fields of the unlinked timer `pool 2` set to
`target = v`, `long_target = w`. -/
def short_pair_new (v w : Nat) : State :=
  short_pair.setTimer (.pool 2) { short_pair.getTimer (.pool 2) with target := v, long_target := w }

/-- A timer armed for the absolute time 0: at time 1000 of the first hardware epoch
`_secure_mintimer_set` is called on `pool 0` with the offset `2 ^ 32 - 1000`, so that the
target is `(1000 + offset) mod 2 ^ 32 = 0`. -/
def armed_for_zero_boot : Option State :=
  _secure_mintimer_set (.pool 0) (U32 - 1000) (booted_at 1000)

/-- The state of `armed_for_zero_boot`. -/
def armed_for_zero : State := armed_for_zero_boot.getD (State.init riotConfig)

/-- The function `_secure_mintimer_now64`: `((uint64_t)long_term << 32) + short_term`. -/
def _secure_mintimer_now64 (s : State) : Nat :=
  ((((_secure_mintimer_now_internal s).2 % U64) <<< 32) % U64
    + (_secure_mintimer_now_internal s).1) % U64

/-- The two epoch counters `_secure_mintimer_high_cnt` and `_long_cnt` have the same values
in two states. -/
def same_epoch (s s' : State) : Prop :=
  s'.secure_mintimer_high_cnt = s.secure_mintimer_high_cnt ∧ s'.long_cnt = s.long_cnt

/-- The epoch counters are `uint32_t` values, and `_secure_mintimer_high_cnt` is a multiple
of `2 ^ SECURE_MINTIMER_WIDTH`. -/
def epoch_counters_inv (s : State) : Prop :=
  2 ^ SECURE_MINTIMER_WIDTH ∣ s.secure_mintimer_high_cnt ∧ s.secure_mintimer_high_cnt < U32 ∧
    s.long_cnt < U32

instance (s : State) : Decidable (epoch_counters_inv s) := by
  unfold epoch_counters_inv; infer_instance

/-- The timer `timer` is linked into the list `l` by the step from `s` to `s'`: the list
`l` gets it as one more node, all old nodes staying in their order, and the other two lists
are as before. -/
def linked_into (s s' : State) (timer : timer_ptr) (l : timer_list_id) : Prop :=
  (∃ A B, timer_list s l = some (A ++ B) ∧ timer_list s' l = some (A ++ timer :: B)) ∧
    ∀ l', l' ≠ l → timer_list s' l' = timer_list s l'

/-- The firing value that `_secure_mintimer_set_absolute_explicit` works with:
`target - SECURE_MINTIMER_OVERHEAD` as a `uint32_t`. -/
def corrected_target (target : Nat) : Nat :=
  (target + U32 - SECURE_MINTIMER_OVERHEAD) % U32

/-! # Theorems -/

/-! ## Bit lemmas -/

theorem shl1_u32_testBit : ∀ p < 16, ∀ q < 16, (shl1_u32 p).testBit q = decide (q = p) := by
  decide

theorem not_shl1_u32_testBit :
    ∀ p < 16, ∀ q < 16, (not_shl1_u32 p).testBit q = !decide (q = p) := by
  decide

/-! ## Run queues and bitmap under `sched_set_status` -/

theorem rpush_queues (p n : Nat) (s : State) :
    (sm_clist_rpush p n s).sched_runqueues = Function.update s.sched_runqueues p (some n) ∧
    (sm_clist_rpush p n s).runqueue_bitcache = s.runqueue_bitcache := by
  unfold sm_clist_rpush
  cases s.sched_runqueues p <;> simp [State.setQueue, State.setRqNext, State.setThread]

theorem lpop_queues (p : Nat) (s s1 : State) (r : Option Nat)
    (h : sm_clist_lpop p s = some (r, s1)) :
    s1.runqueue_bitcache = s.runqueue_bitcache ∧
    (s1.sched_runqueues = s.sched_runqueues ∨
      s1.sched_runqueues = Function.update s.sched_runqueues p none) := by
  unfold sm_clist_lpop at h
  cases hq : s.sched_runqueues p with
  | none =>
    simp [hq] at h
    obtain ⟨_, rfl⟩ := h
    exact ⟨rfl, Or.inl rfl⟩
  | some last =>
    simp only [hq] at h
    split at h
    · simp at h
      obtain ⟨_, rfl⟩ := h
      exact ⟨rfl, Or.inr rfl⟩
    · cases hf : (s.sched_threads last).rq_entry with
      | none => simp [hf] at h
      | some f =>
        simp [hf] at h
        obtain ⟨_, rfl⟩ := h
        exact ⟨rfl, Or.inl rfl⟩

theorem lpop_defined (p : Nat) (s : State) (hring : ring_closed s p) :
    ∃ r, sm_clist_lpop p s = some r := by
  unfold sm_clist_lpop
  unfold ring_closed at hring
  cases hq : s.sched_runqueues p with
  | none => exact ⟨_, rfl⟩
  | some last =>
    simp only [hq] at hring
    simp only []
    split
    · exact ⟨_, rfl⟩
    · cases hf : (s.sched_threads last).rq_entry with
      | none => exact absurd hf hring
      | some f => exact ⟨_, rfl⟩

theorem sched_set_status_bitmap (process : Nat) (status : thread_status_t) (s s' : State)
    (hinv : bitmap_inv s) (h : sched_set_status process status s = some s') :
    bitmap_inv s' := by
  unfold sched_set_status at h
  simp only [] at h
  split at h
  · split at h
    · split at h
      · rename_i hp
        simp at h
        subst h
        intro q hq
        have hr := rpush_queues (s.sched_threads process).priority process s
        simp only [State.setStatus, State.setThread, hr.1, hr.2, Nat.testBit_or,
          shl1_u32_testBit _ hp q hq]
        by_cases hqp : q = (s.sched_threads process).priority
        · subst hqp; simp
        · simp [hqp, Function.update_noteq hqp]
          exact hinv q hq
      · simp at h
    · simp at h
      subst h
      exact hinv
  · split at h
    · split at h
      · rename_i hp
        split at h
        · rename_i r s1 hl
          have hl' := lpop_queues _ _ _ _ hl
          simp at h
          subst h
          intro q hq
          split
          · rename_i hnone
            simp only [State.setStatus, State.setThread, Nat.testBit_and, hl'.1,
              not_shl1_u32_testBit _ hp q hq]
            by_cases hqp : q = (s.sched_threads process).priority
            · subst hqp
              simp
              simpa using hnone
            · rcases hl'.2 with h2 | h2
              · simp [hqp, h2]; exact hinv q hq
              · simp [hqp, h2, Function.update_noteq hqp]; exact hinv q hq
          · rename_i hsome
            simp only [State.setStatus, State.setThread, hl'.1]
            rcases hl'.2 with h2 | h2
            · rw [h2]; exact hinv q hq
            · exfalso; apply hsome; rw [h2]; simp
        · simp at h
      · simp at h
    · simp at h
      subst h
      exact hinv

theorem sched_set_status_defined (process : Nat) (status : thread_status_t) (s : State)
    (hp : (s.sched_threads process).priority < SCHED_PRIO_LEVELS)
    (hring : ring_closed s (s.sched_threads process).priority) :
    ∃ s', sched_set_status process status s = some s' := by
  unfold sched_set_status
  simp only [hp, if_true]
  obtain ⟨⟨r, s1⟩, hl⟩ := lpop_defined _ s hring
  simp only [hl]
  split
  · split
    · exact ⟨_, rfl⟩
    · exact ⟨_, rfl⟩
  · split
    · exact ⟨_, rfl⟩
    · exact ⟨_, rfl⟩

/-! ## C1: the run-queue membership invariant -/

set_option maxRecDepth 100000 in
/-- C1, the code at the failing input. Threads 1 and 2 have priority 5, thread 1 runs and
is the first node of the queue, thread 2 is pending behind it, and the membership invariant
holds. `sched_set_status` of thread 2 to `STATUS_SLEEPING` (the first statement of
`thread_change_to_periodical` for pid 2) pops the first node: afterwards thread 2 is sleeping
and still linked, thread 1 is running and linked nowhere, and the invariant is broken. -/
theorem sched_set_status_pops_first_node :
    ∃ s0 s1, two_threads_boot = some s0 ∧ rq_membership_inv 33 s0 ∧
      queue_nodes 33 s0 5 = [1, 2] ∧
      sched_set_status 2 STATUS_SLEEPING s0 = some s1 ∧
      (s1.sched_threads 2).status = STATUS_SLEEPING ∧ queue_nodes 33 s1 5 = [2] ∧
      (s1.sched_threads 1).status = STATUS_RUNNING ∧
      (∀ p < SCHED_PRIO_LEVELS, 1 ∉ queue_nodes 33 s1 p) ∧
      ¬ rq_membership_inv 33 s1 := by
  refine ⟨_, _, rfl, ?_, ?_, rfl, ?_, ?_, ?_, ?_, ?_⟩ <;> decide

/-! ## C3: one running thread -/

set_option maxRecDepth 100000 in
/-- C3, the code at the failing input. Thread 2 runs and thread 1 sleeps (it called
`thread_sleep`); exactly one thread is `STATUS_RUNNING` and it is the active one. After
`thread_wakeup(1)`, which returns 1, threads 1 and 2 both have status `STATUS_RUNNING` while
`sched_active_thread` still points to thread 2. -/
theorem thread_wakeup_second_running :
    ∃ s0 s1, one_asleep_boot = some s0 ∧ one_running_inv 33 s0 ∧
      (s0.sched_threads 1).status = STATUS_SLEEPING ∧ s0.sched_active_thread = some 2 ∧
      thread_wakeup riotConfig 1 s0 = some (1, s1) ∧
      (s1.sched_threads 1).status = STATUS_RUNNING ∧
      (s1.sched_threads 2).status = STATUS_RUNNING ∧
      s1.sched_active_thread = some 2 ∧ ¬ one_running_inv 33 s1 := by
  refine ⟨_, _, rfl, ?_, ?_, ?_, rfl, ?_, ?_, ?_, ?_⟩ <;> decide

/-! ## The lowest set bit -/

theorem bitarithm_lsb_loop_zero (fuel r : Nat) : bitarithm_lsb_loop fuel 0 r = none := by
  induction fuel generalizing r with
  | zero => rfl
  | succ n ih => simp [bitarithm_lsb_loop, ih]

theorem bitarithm_lsb_loop_spec (fuel : Nat) :
    ∀ v r, v ≠ 0 → v < 2 ^ fuel → r + fuel ≤ U16 →
      ∃ k, bitarithm_lsb_loop fuel v r = some (r + k) ∧ k < fuel ∧ v.testBit k = true ∧
        ∀ j < k, v.testBit j = false := by
  induction fuel with
  | zero =>
    intro v r hv hlt _
    simp at hlt
    exact absurd hlt hv
  | succ n ih =>
    intro v r hv hlt hr
    unfold bitarithm_lsb_loop
    by_cases hev : v &&& 0x01 = 0
    · simp only [hev, if_true]
      have hmod : v % 2 = 0 := by rw [← Nat.and_one_is_mod]; exact hev
      have hshift : v >>> 1 = v / 2 := by simp [Nat.shiftRight_eq_div_pow]
      have hv2 : v / 2 ≠ 0 := by omega
      have hlt2 : v / 2 < 2 ^ n := by
        rw [pow_succ] at hlt
        omega
      have hn : 1 ≤ n := by
        rcases Nat.eq_zero_or_pos n with h0 | h0
        · subst h0
          simp at hlt2
          exact absurd hlt2 hv2
        · exact h0
      have hr1 : (r + 1) % U16 = r + 1 := by
        apply Nat.mod_eq_of_lt
        omega
      rw [hshift, hr1]
      obtain ⟨k, hk, hkn, hbit, hlow⟩ := ih (v / 2) (r + 1) hv2 hlt2 (by omega)
      refine ⟨k + 1, ?_, by omega, ?_, ?_⟩
      · rw [hk]; congr 1; omega
      · rw [Nat.testBit_succ]; exact hbit
      · intro j hj
        cases j with
        | zero => simp [Nat.testBit_zero, hmod]
        | succ j => rw [Nat.testBit_succ]; exact hlow j (by omega)
    · simp only [hev, if_false]
      have hmod : v % 2 = 1 := by
        have := Nat.and_one_is_mod v
        have h2 : v % 2 < 2 := Nat.mod_lt _ (by decide)
        omega
      refine ⟨0, by simp, by omega, ?_, ?_⟩
      · simp [Nat.testBit_zero, hmod]
      · intro j hj; omega

/-- The function `bitarithm_lsb_sm_timer` returns the index of the lowest set bit of every
bitmap with a set bit among the 16 priority bits. -/
theorem bitarithm_lsb_sm_timer_spec (v : Nat) (hv : v % U16 ≠ 0) :
    ∃ p, bitarithm_lsb_sm_timer v = some p ∧ p < SCHED_PRIO_LEVELS ∧ v.testBit p = true ∧
      ∀ j < p, v.testBit j = false := by
  unfold bitarithm_lsb_sm_timer
  have hlt : v % U16 < 2 ^ 16 := Nat.mod_lt _ (by decide)
  obtain ⟨k, hk, hk16, hbit, hlow⟩ := bitarithm_lsb_loop_spec 16 (v % U16) 0 hv hlt (by decide)
  refine ⟨k, by simpa using hk, hk16, ?_, ?_⟩
  · have := Nat.testBit_mod_two_pow v 16 k
    simp only [U16] at hbit
    rw [this] at hbit
    simp at hbit
    exact hbit.2
  · intro j hj
    have h1 := hlow j hj
    have := Nat.testBit_mod_two_pow v 16 j
    simp only [U16] at h1
    rw [this] at h1
    have hj16 : j < 16 := by omega
    simpa [hj16] using h1

theorem bitarithm_lsb_sm_timer_zero (v : Nat) (hv : v % U16 = 0) :
    bitarithm_lsb_sm_timer v = none := by
  unfold bitarithm_lsb_sm_timer
  rw [hv]
  exact bitarithm_lsb_loop_zero _ _

/-! ## Frame lemmas: the timer functions leave the scheduler data alone -/

theorem same_sched_refl (s : State) : same_sched s s :=
  ⟨rfl, rfl, rfl, rfl, rfl, rfl, rfl⟩

theorem same_sched_trans {s1 s2 s3 : State} (h12 : same_sched s1 s2) (h23 : same_sched s2 s3) :
    same_sched s1 s3 := by
  obtain ⟨a1, a2, a3, a4, a5, a6, a7⟩ := h12
  obtain ⟨b1, b2, b3, b4, b5, b6, b7⟩ := h23
  exact ⟨b1.trans a1, b2.trans a2, b3.trans a3, b4.trans a4, b5.trans a5, b6.trans a6,
    b7.trans a7⟩

theorem same_sched_setTimer (s : State) (p : timer_ptr) (t : secure_mintimer_t) :
    same_sched s (s.setTimer p t) := by
  cases p <;> exact ⟨rfl, rfl, rfl, rfl, rfl, rfl, rfl⟩

theorem same_sched_writeLoc (s : State) (loc : timer_loc) (v : Option timer_ptr) :
    same_sched s (s.writeLoc loc v) := by
  cases loc with
  | head l => cases l <;> exact ⟨rfl, rfl, rfl, rfl, rfl, rfl, rfl⟩
  | next t => exact same_sched_setTimer _ _ _

theorem same_sched_lltimer_set (target : Nat) (s : State) :
    same_sched s (_lltimer_set target s) := by
  unfold _lltimer_set
  split
  · exact same_sched_refl s
  · exact ⟨rfl, rfl, rfl, rfl, rfl, rfl, rfl⟩

theorem same_sched_add_timer_to_list_loop (timer : timer_ptr) (fuel : Nat) :
    ∀ loc s s', add_timer_to_list_loop timer fuel loc s = some s' → same_sched s s' := by
  induction fuel with
  | zero => intro loc s s' h; simp [add_timer_to_list_loop] at h
  | succ n ih =>
    intro loc s s' h
    unfold add_timer_to_list_loop at h
    cases hr : s.readLoc loc with
    | none =>
      simp only [hr] at h
      simp at h
      subst h
      exact same_sched_trans (same_sched_setTimer _ _ _) (same_sched_writeLoc _ _ _)
    | some hd =>
      simp only [hr] at h
      split at h
      · exact ih _ _ _ h
      · simp at h
        subst h
        exact same_sched_trans (same_sched_setTimer _ _ _) (same_sched_writeLoc _ _ _)

theorem same_sched_add_timer_to_long_list_loop (timer : timer_ptr) (fuel : Nat) :
    ∀ loc s s', add_timer_to_long_list_loop timer fuel loc s = some s' → same_sched s s' := by
  induction fuel with
  | zero => intro loc s s' h; simp [add_timer_to_long_list_loop] at h
  | succ n ih =>
    intro loc s s' h
    unfold add_timer_to_long_list_loop at h
    cases hr : s.readLoc loc with
    | none =>
      simp only [hr] at h
      simp at h
      subst h
      exact same_sched_trans (same_sched_setTimer _ _ _) (same_sched_writeLoc _ _ _)
    | some hd =>
      simp only [hr] at h
      split at h
      · exact ih _ _ _ h
      · simp at h
        subst h
        exact same_sched_trans (same_sched_setTimer _ _ _) (same_sched_writeLoc _ _ _)

theorem same_sched_set_absolute_place (timer : timer_ptr) (target now : Nat) (s s' : State)
    (r : Int) (h : set_absolute_place timer target now s = some (r, s')) :
    r = 0 ∧ same_sched s s' := by
  unfold set_absolute_place at h
  split at h
  · cases ha : _add_timer_to_long_list timer_list_id.long timer s with
    | none => simp [ha] at h
    | some s2 =>
      simp [ha] at h
      obtain ⟨rfl, rfl⟩ := h
      exact ⟨rfl, same_sched_add_timer_to_long_list_loop _ _ _ _ _ ha⟩
  · split at h
    · cases ha : _add_timer_to_list timer_list_id.overflow timer s with
      | none => simp [ha] at h
      | some s2 =>
        simp [ha] at h
        obtain ⟨rfl, rfl⟩ := h
        exact ⟨rfl, same_sched_add_timer_to_list_loop _ _ _ _ _ ha⟩
    · cases ha : _add_timer_to_list timer_list_id.short timer s with
      | none => simp [ha] at h
      | some s2 =>
        simp only [ha] at h
        have h2 := same_sched_add_timer_to_list_loop _ _ _ _ _ ha
        split at h
        · simp at h
          obtain ⟨rfl, rfl⟩ := h
          exact ⟨rfl, same_sched_trans h2 (same_sched_lltimer_set _ _)⟩
        · simp at h
          obtain ⟨rfl, rfl⟩ := h
          exact ⟨rfl, h2⟩

theorem same_sched_set_absolute_bump (timer : timer_ptr) (target now : Nat) (s : State) :
    same_sched s (set_absolute_bump timer target now s) := by
  unfold set_absolute_bump
  split
  · exact same_sched_setTimer _ _ _
  · exact same_sched_refl s

theorem same_sched_set_absolute_explicit (timer : timer_ptr) (now : Nat) (s s' : State)
    (r : Int) (h : _secure_mintimer_set_absolute_explicit timer now s = some (r, s')) :
    r = 0 ∧ same_sched s s' := by
  unfold _secure_mintimer_set_absolute_explicit at h
  obtain ⟨hr, hs⟩ := same_sched_set_absolute_place _ _ _ _ _ _ h
  exact ⟨hr, same_sched_trans (same_sched_set_absolute_bump _ _ _ _) hs⟩

/-! ## Definedness of the timer insertion on lists that end -/

theorem getTimer_setTimer (s : State) (p q : timer_ptr) (t : secure_mintimer_t) :
    (s.setTimer p t).getTimer q = if q = p then t else s.getTimer q := by
  cases p with
  | pool i =>
    cases q with
    | pool j =>
      by_cases hij : j = i
      · subst hij; simp [State.setTimer, State.getTimer]
      · simp [State.setTimer, State.getTimer, Function.update_noteq hij, hij]
    | sched => simp [State.setTimer, State.getTimer]
  | sched =>
    cases q with
    | pool j => simp [State.setTimer, State.getTimer]
    | sched => simp [State.setTimer, State.getTimer]

theorem listHead_setTimer (s : State) (p : timer_ptr) (t : secure_mintimer_t)
    (l : timer_list_id) : (s.setTimer p t).listHead l = s.listHead l := by
  cases p <;> cases l <;> rfl

theorem timer_chain_congr (s s' : State)
    (h : ∀ t, (s'.getTimer t).next = (s.getTimer t).next) :
    ∀ fuel o, timer_chain s' fuel o = timer_chain s fuel o := by
  intro fuel
  induction fuel with
  | zero => intro o; cases o <;> rfl
  | succ n ih =>
    intro o
    cases o with
    | none => rfl
    | some hd => simp [timer_chain, h, ih]

theorem timer_lists_wf_congr (s s' : State)
    (hnext : ∀ t, (s'.getTimer t).next = (s.getTimer t).next)
    (hheads : ∀ l, s'.listHead l = s.listHead l) (hw : timer_lists_wf s) :
    timer_lists_wf s' := by
  intro l
  have := hw l
  unfold timer_list at *
  rw [timer_chain_congr s s' hnext, hheads]
  exact this

theorem add_timer_to_list_loop_defined (timer : timer_ptr) (n : Nat) :
    ∀ fuel loc s, (timer_chain s n (s.readLoc loc)).isSome = true → n < fuel →
      ∃ s', add_timer_to_list_loop timer fuel loc s = some s' := by
  induction n with
  | zero =>
    intro fuel loc s hc hlt
    obtain ⟨f, rfl⟩ : ∃ f, fuel = f + 1 := ⟨fuel - 1, by omega⟩
    unfold add_timer_to_list_loop
    cases hr : s.readLoc loc with
    | none => exact ⟨_, rfl⟩
    | some hd => rw [hr] at hc; simp [timer_chain] at hc
  | succ n ih =>
    intro fuel loc s hc hlt
    obtain ⟨f, rfl⟩ : ∃ f, fuel = f + 1 := ⟨fuel - 1, by omega⟩
    unfold add_timer_to_list_loop
    cases hr : s.readLoc loc with
    | none => exact ⟨_, rfl⟩
    | some hd =>
      rw [hr] at hc
      simp only [timer_chain, Option.isSome_map'] at hc
      simp only []
      split
      · exact ih f (.next hd) s (by simpa [State.readLoc] using hc) (by omega)
      · exact ⟨_, rfl⟩

theorem add_timer_to_long_list_loop_defined (timer : timer_ptr) (n : Nat) :
    ∀ fuel loc s, (timer_chain s n (s.readLoc loc)).isSome = true → n < fuel →
      ∃ s', add_timer_to_long_list_loop timer fuel loc s = some s' := by
  induction n with
  | zero =>
    intro fuel loc s hc hlt
    obtain ⟨f, rfl⟩ : ∃ f, fuel = f + 1 := ⟨fuel - 1, by omega⟩
    unfold add_timer_to_long_list_loop
    cases hr : s.readLoc loc with
    | none => exact ⟨_, rfl⟩
    | some hd => rw [hr] at hc; simp [timer_chain] at hc
  | succ n ih =>
    intro fuel loc s hc hlt
    obtain ⟨f, rfl⟩ : ∃ f, fuel = f + 1 := ⟨fuel - 1, by omega⟩
    unfold add_timer_to_long_list_loop
    cases hr : s.readLoc loc with
    | none => exact ⟨_, rfl⟩
    | some hd =>
      rw [hr] at hc
      simp only [timer_chain, Option.isSome_map'] at hc
      simp only []
      split
      · exact ih f (.next hd) s (by simpa [State.readLoc] using hc) (by omega)
      · exact ⟨_, rfl⟩

theorem set_absolute_place_defined (timer : timer_ptr) (target now : Nat) (s : State)
    (hw : timer_lists_wf s) : ∃ s', set_absolute_place timer target now s = some (0, s') := by
  unfold set_absolute_place
  split
  · obtain ⟨s2, h2⟩ := add_timer_to_long_list_loop_defined timer TIMER_NODES (TIMER_NODES + 1)
      (.head .long) s (hw .long) (by omega)
    unfold _add_timer_to_long_list
    rw [h2]
    exact ⟨_, rfl⟩
  · split
    · obtain ⟨s2, h2⟩ := add_timer_to_list_loop_defined timer TIMER_NODES (TIMER_NODES + 1)
        (.head .overflow) s (hw .overflow) (by omega)
      unfold _add_timer_to_list
      rw [h2]
      exact ⟨_, rfl⟩
    · obtain ⟨s2, h2⟩ := add_timer_to_list_loop_defined timer TIMER_NODES (TIMER_NODES + 1)
        (.head .short) s (hw .short) (by omega)
      unfold _add_timer_to_list
      rw [h2]
      simp only []
      split
      · exact ⟨_, rfl⟩
      · exact ⟨_, rfl⟩

theorem timer_lists_wf_set_absolute_bump (timer : timer_ptr) (target now : Nat) (s : State)
    (hw : timer_lists_wf s) : timer_lists_wf (set_absolute_bump timer target now s) := by
  unfold set_absolute_bump
  split
  · refine timer_lists_wf_congr s _ ?_ ?_ hw
    · intro t
      rw [getTimer_setTimer]
      split
      · rename_i h; subst h; rfl
      · rfl
    · intro l; exact listHead_setTimer _ _ _ _
  · exact hw

theorem set_absolute_explicit_defined (timer : timer_ptr) (now : Nat) (s : State)
    (hw : timer_lists_wf s) :
    ∃ s', _secure_mintimer_set_absolute_explicit timer now s = some (0, s') := by
  unfold _secure_mintimer_set_absolute_explicit
  exact set_absolute_place_defined _ _ _ _ (timer_lists_wf_set_absolute_bump _ _ _ _ hw)

/-! ## The end of `sched_run_internal` -/

theorem lpoprpush_fields (p : Nat) (s : State) :
    (sm_clist_lpoprpush p s).sched_threads = s.sched_threads ∧
    (sm_clist_lpoprpush p s).sched_active_thread = s.sched_active_thread ∧
    (sm_clist_lpoprpush p s).sched_active_pid = s.sched_active_pid ∧
    (sm_clist_lpoprpush p s).runqueue_bitcache = s.runqueue_bitcache ∧
    (sm_clist_lpoprpush p s).sched_context_switch_request = s.sched_context_switch_request ∧
    (sm_clist_lpoprpush p s).sched_num_threads = s.sched_num_threads ∧
    (∀ q, q ≠ p → (sm_clist_lpoprpush p s).sched_runqueues q = s.sched_runqueues q) ∧
    (s.sched_runqueues p = none → (sm_clist_lpoprpush p s).sched_runqueues p = none) ∧
    (∀ t, ((sm_clist_lpoprpush p s).getTimer t) = s.getTimer t) ∧
    (∀ l, (sm_clist_lpoprpush p s).listHead l = s.listHead l) := by
  unfold sm_clist_lpoprpush
  cases hq : s.sched_runqueues p with
  | none =>
    refine ⟨rfl, rfl, rfl, rfl, rfl, rfl, fun _ _ => rfl, fun _ => hq, fun _ => rfl,
      fun _ => rfl⟩
  | some last =>
    refine ⟨rfl, rfl, rfl, rfl, rfl, rfl, ?_, ?_, ?_, ?_⟩
    · intro q hqp
      simp [State.setQueue, Function.update_noteq hqp]
    · intro h; simp at h
    · intro t; cases t <;> rfl
    · intro l; cases l <;> rfl

theorem sched_run_end_outcome (c : Int) (s s' : State) (r : Int)
    (h : sched_run_end c s = some (r, s')) :
    r = c ∧ s'.sched_threads = s.sched_threads ∧
    s'.sched_active_thread = s.sched_active_thread ∧
    s'.sched_active_pid = s.sched_active_pid ∧
    s'.runqueue_bitcache = s.runqueue_bitcache ∧
    s'.sched_context_switch_request = s.sched_context_switch_request ∧
    s'.sched_num_threads = s.sched_num_threads ∧
    (∀ q, q ≠ SCHED_PERIODIC_PRIO_LEVEL → s'.sched_runqueues q = s.sched_runqueues q) ∧
    (s.sched_runqueues SCHED_PERIODIC_PRIO_LEVEL = none →
      s'.sched_runqueues SCHED_PERIODIC_PRIO_LEVEL = none) ∧
    (∀ a, s.sched_active_thread = some a →
      (s.sched_threads a).priority ≠ SCHED_PERIODIC_PRIO_LEVEL → s' = s) := by
  unfold sched_run_end at h
  cases ha : s.sched_active_thread with
  | none => simp [ha] at h
  | some a =>
    simp only [ha] at h
    split at h
    · rename_i hper
      simp only [_secure_mintimer_now_internal] at h
      split at h
      · simp at h
      · rename_i r1 s3 h3
        simp at h
        obtain ⟨rfl, rfl⟩ := h
        obtain ⟨_, hs⟩ := same_sched_set_absolute_explicit _ _ _ _ _ h3
        obtain ⟨b1, b2, b3, b4, b5, b6, b7⟩ := hs
        have hl := lpoprpush_fields SCHED_PERIODIC_PRIO_LEVEL s
        refine ⟨rfl, ?_, ?_, ?_, ?_, ?_, ?_, ?_, ?_, ?_⟩
        · rw [b3]; exact hl.1
        · rw [b4]; exact hl.2.1.trans ha
        · rw [b5]; exact hl.2.2.1
        · rw [b7]; exact hl.2.2.2.1
        · rw [b2]; exact hl.2.2.2.2.1
        · rw [b1]; exact hl.2.2.2.2.2.1
        · intro q hq; rw [b6]; exact hl.2.2.2.2.2.2.1 q hq
        · intro hn; rw [b6]; exact hl.2.2.2.2.2.2.2.1 hn
        · intro a' ha' hne
          injection ha' with ha'
          subst ha'
          exact absurd hper hne
    · simp at h
      obtain ⟨rfl, rfl⟩ := h
      exact ⟨rfl, rfl, ha, rfl, rfl, rfl, rfl, fun _ _ => rfl, fun hn => hn, fun _ _ _ => rfl⟩

theorem sched_run_end_defined (c : Int) (s : State) (a : Nat)
    (ha : s.sched_active_thread = some a) (hw : timer_lists_wf s) :
    ∃ s', sched_run_end c s = some (c, s') := by
  unfold sched_run_end
  simp only [ha]
  split
  · simp only [_secure_mintimer_now_internal]
    have hl := lpoprpush_fields SCHED_PERIODIC_PRIO_LEVEL s
    have key : ∀ now s2, timer_lists_wf s2 →
        ∃ s', (match _secure_mintimer_set_absolute_explicit timer_ptr.sched now s2 with
          | none => none
          | some (_, s3) => some (c, s3)) = some (c, s') := by
      intro now s2 h2
      obtain ⟨s3, h3⟩ := set_absolute_explicit_defined timer_ptr.sched now s2 h2
      rw [h3]
      exact ⟨_, rfl⟩
    apply key
    refine timer_lists_wf_congr s _ ?_ ?_ hw
    · intro t
      cases t with
      | pool i => exact congrArg secure_mintimer_t.next (hl.2.2.2.2.2.2.2.2.1 (.pool i))
      | sched =>
        show ((sm_clist_lpoprpush SCHED_PERIODIC_PRIO_LEVEL s).getTimer .sched).next
          = (s.getTimer .sched).next
        exact congrArg secure_mintimer_t.next (hl.2.2.2.2.2.2.2.2.1 .sched)
    · intro l
      cases l with
      | short => exact hl.2.2.2.2.2.2.2.2.2 .short
      | overflow => exact hl.2.2.2.2.2.2.2.2.2 .overflow
      | long => exact hl.2.2.2.2.2.2.2.2.2 .long
  · exact ⟨_, rfl⟩

/-! ## C4: strict priority selection -/

theorem timer_lists_wf_of_timers_eq (s s' : State)
    (h1 : s'.scheduler_timer = s.scheduler_timer)
    (h2 : s'.secure_mintimer_timer_list = s.secure_mintimer_timer_list)
    (h3 : s'.timer_list_head = s.timer_list_head)
    (h4 : s'.overflow_list_head = s.overflow_list_head)
    (h5 : s'.long_list_head = s.long_list_head) (hw : timer_lists_wf s) :
    timer_lists_wf s' := by
  refine timer_lists_wf_congr s s' ?_ ?_ hw
  · intro t
    cases t with
    | pool i => simp [State.getTimer, h2]
    | sched => simp [State.getTimer, h1]
  · intro l
    cases l with
    | short => exact h3
    | overflow => exact h4
    | long => exact h5

theorem queue_nodes_first (n : Nat) (s : State) (p last first : Nat) (hn : 0 < n)
    (hq : s.sched_runqueues p = some last) (hf : (s.sched_threads last).rq_entry = some first) :
    first ∈ queue_nodes n s p := by
  unfold queue_nodes
  rw [hq]
  obtain ⟨m, rfl⟩ : ∃ m, n = m + 1 := ⟨n - 1, by omega⟩
  simp only [clist_walk, hf]
  split <;> simp

theorem sched_run_select_spec (s : State) (active_thread : Option Nat)
    (hact : s.sched_active_thread = active_thread) (p last first : Nat)
    (hlsb : bitarithm_lsb_sm_timer s.runqueue_bitcache = some p) (hp : p < SCHED_PRIO_LEVELS)
    (hq : s.sched_runqueues p = some last)
    (hf : (s.sched_threads last).rq_entry = some first)
    (hw : timer_lists_wf s) :
    ∃ r s', sched_run_select active_thread s = some (r, s') ∧
      s'.sched_active_thread = some first ∧
      (r = if active_thread = some first then 0 else 1) ∧
      s'.runqueue_bitcache = s.runqueue_bitcache ∧
      (∀ i, (s'.sched_threads i).rq_entry = (s.sched_threads i).rq_entry ∧
        (s'.sched_threads i).priority = (s.sched_threads i).priority) ∧
      (∀ q, q ≠ SCHED_PERIODIC_PRIO_LEVEL → s'.sched_runqueues q = s.sched_runqueues q) ∧
      (s.sched_runqueues SCHED_PERIODIC_PRIO_LEVEL = none →
        s'.sched_runqueues SCHED_PERIODIC_PRIO_LEVEL = none) ∧
      ((s.sched_threads first).priority ≠ SCHED_PERIODIC_PRIO_LEVEL →
        s'.sched_runqueues = s.sched_runqueues) := by
  unfold sched_run_select
  simp only [hlsb, hp, if_true, hq, hf]
  by_cases hsame : active_thread = some first
  · simp only [hsame, if_true]
    have hact1 : ({ s with sched_context_switch_request := 0 } : State).sched_active_thread
        = some first := by rw [← hsame, ← hact]
    obtain ⟨s', hs'⟩ := sched_run_end_defined 0 { s with sched_context_switch_request := 0 }
      first hact1
      (timer_lists_wf_of_timers_eq s _ rfl rfl rfl rfl rfl hw)
    obtain ⟨_, o1, o2, o3, o4, o5, o6, o7, o8, o9⟩ := sched_run_end_outcome _ _ _ _ hs'
    refine ⟨0, s', hs', o2.trans hact1, rfl, o4, ?_, o7, o8, ?_⟩
    · intro i; rw [o1]; exact ⟨rfl, rfl⟩
    · intro hne
      have := o9 first hact1 hne
      rw [this]
  · simp only [hsame, if_false]
    generalize hs2 : (match active_thread with
      | some a =>
        if (({ s with sched_context_switch_request := 0 } : State).sched_threads a).status
            = STATUS_RUNNING then
          ({ s with sched_context_switch_request := 0 } : State).setStatus a STATUS_PENDING
        else ({ s with sched_context_switch_request := 0 } : State)
      | none => ({ s with sched_context_switch_request := 0 } : State)) = s2
    have h2 : s2.sched_runqueues = s.sched_runqueues ∧
        s2.runqueue_bitcache = s.runqueue_bitcache ∧
        (∀ i, (s2.sched_threads i).rq_entry = (s.sched_threads i).rq_entry ∧
          (s2.sched_threads i).priority = (s.sched_threads i).priority) ∧
        s2.scheduler_timer = s.scheduler_timer ∧
        s2.secure_mintimer_timer_list = s.secure_mintimer_timer_list ∧
        s2.timer_list_head = s.timer_list_head ∧
        s2.overflow_list_head = s.overflow_list_head ∧
        s2.long_list_head = s.long_list_head := by
      subst hs2
      cases active_thread with
      | none => exact ⟨rfl, rfl, fun _ => ⟨rfl, rfl⟩, rfl, rfl, rfl, rfl, rfl⟩
      | some a =>
        simp only []
        split
        · refine ⟨rfl, rfl, ?_, rfl, rfl, rfl, rfl, rfl⟩
          intro i
          by_cases hia : i = a
          · subst hia; simp [State.setStatus, State.setThread]
          · simp [State.setStatus, State.setThread, Function.update_noteq hia]
        · exact ⟨rfl, rfl, fun _ => ⟨rfl, rfl⟩, rfl, rfl, rfl, rfl, rfl⟩
    obtain ⟨a1, a2, a3, a4, a5, a6, a7, a8⟩ := h2
    have hthr : ∀ i, ((s2.setStatus first STATUS_RUNNING).sched_threads i).rq_entry
          = (s.sched_threads i).rq_entry ∧
        ((s2.setStatus first STATUS_RUNNING).sched_threads i).priority
          = (s.sched_threads i).priority := by
      intro i
      by_cases hif : i = first
      · subst hif; simpa [State.setStatus, State.setThread] using a3 i
      · simpa [State.setStatus, State.setThread, Function.update_noteq hif] using a3 i
    obtain ⟨s', hs'⟩ := sched_run_end_defined 1
      { s2.setStatus first STATUS_RUNNING with
        sched_active_pid := ((s2.setStatus first STATUS_RUNNING).sched_threads first).pid,
        sched_active_thread := some first } first rfl
      (timer_lists_wf_of_timers_eq s _ a4 a5 a6 a7 a8 hw)
    obtain ⟨_, o1, o2, o3, o4, o5, o6, o7, o8, o9⟩ := sched_run_end_outcome _ _ _ _ hs'
    refine ⟨1, s', hs', o2, rfl, o4.trans a2, ?_, ?_, ?_, ?_⟩
    · intro i; rw [o1]; exact hthr i
    · intro q hq1; rw [o7 q hq1]; exact congrFun a1 q
    · intro hn; apply o8; exact (congrFun a1 _).trans hn
    · intro hne
      have := o9 first rfl (by rw [(hthr first).2]; exact hne)
      rw [this]
      exact a1

/-- C4. For every bitmap with a set bit among the 16 priority bits `bitarithm_lsb_sm_timer`
returns the index of the lowest set bit. When the selection path of `sched_run_internal` is
taken in a state where the bitmap invariant holds, some priority bit is set, the rings are
closed and the timer lists end, it returns, and the thread it leaves active is the first
node of `sched_runqueues[p]` for the lowest set bit `p`: the node `next` of the last node,
as the queue stands when the selection is made. Every queue of a smaller index is empty
before and after; the queue `p` itself is changed only by the rotation of the periodic
queue. Under the membership invariant the active thread has priority `p` and no thread
linked in a run queue has a smaller priority value. -/
theorem strict_priority_selection (n : Nat) (s : State) (active_thread : Option Nat)
    (hact : s.sched_active_thread = active_thread) (hinv : bitmap_inv s)
    (hne : ∃ p, p < SCHED_PRIO_LEVELS ∧ s.runqueue_bitcache.testBit p = true)
    (hring : ∀ p < SCHED_PRIO_LEVELS, ring_closed s p) (hw : timer_lists_wf s) :
    (∀ v, v % U16 ≠ 0 →
      ∃ p, bitarithm_lsb_sm_timer v = some p ∧ p < SCHED_PRIO_LEVELS ∧ v.testBit p = true ∧
        ∀ j < p, v.testBit j = false) ∧
    ∃ p last first r s',
      bitarithm_lsb_sm_timer s.runqueue_bitcache = some p ∧ p < SCHED_PRIO_LEVELS ∧
      s.runqueue_bitcache.testBit p = true ∧
      (∀ j < p, s.runqueue_bitcache.testBit j = false) ∧
      s.sched_runqueues p = some last ∧ (s.sched_threads last).rq_entry = some first ∧
      sched_run_select active_thread s = some (r, s') ∧
      s'.sched_active_thread = some first ∧
      (∀ q < p, s.sched_runqueues q = none ∧ s'.sched_runqueues q = none) ∧
      (p ≠ SCHED_PERIODIC_PRIO_LEVEL →
        s'.sched_runqueues p = some last ∧ (s'.sched_threads last).rq_entry = some first) ∧
      (rq_membership_inv n s → first < n →
        (s'.sched_threads first).priority = p ∧
        ∀ t < n, ∀ q < SCHED_PRIO_LEVELS, t ∈ queue_nodes n s q →
          (s'.sched_threads first).priority ≤ (s'.sched_threads t).priority) := by
  refine ⟨fun v hv => bitarithm_lsb_sm_timer_spec v hv, ?_⟩
  obtain ⟨p0, hp0, hbit0⟩ := hne
  have hv : s.runqueue_bitcache % U16 ≠ 0 := by
    intro h0
    have := Nat.testBit_mod_two_pow s.runqueue_bitcache 16 p0
    simp only [U16] at h0
    rw [h0] at this
    simp [hbit0] at this
    unfold SCHED_PRIO_LEVELS at hp0
    omega
  obtain ⟨p, hlsb, hp, hbit, hlow⟩ := bitarithm_lsb_sm_timer_spec _ hv
  have hqne : s.sched_runqueues p ≠ none := (hinv p hp).1 hbit
  obtain ⟨last, hq⟩ := Option.ne_none_iff_exists'.1 hqne
  have hrc := hring p hp
  unfold ring_closed at hrc
  rw [hq] at hrc
  obtain ⟨first, hf⟩ := Option.ne_none_iff_exists'.1 hrc
  obtain ⟨r, s', hsel, hactive, _, hbc, hthr, hqs, hq1, _⟩ :=
    sched_run_select_spec s active_thread hact p last first hlsb hp hq hf hw
  have hempty : ∀ q < p, s.sched_runqueues q = none := by
    intro q hqp
    by_contra hcon
    have := (hinv q (by omega)).2 hcon
    rw [hlow q hqp] at this
    exact absurd this (by simp)
  refine ⟨p, last, first, r, s', hlsb, hp, hbit, hlow, hq, hf, hsel, hactive, ?_, ?_, ?_⟩
  · intro q hqp
    refine ⟨hempty q hqp, ?_⟩
    by_cases hq1' : q = SCHED_PERIODIC_PRIO_LEVEL
    · subst hq1'; exact hq1 (hempty _ hqp)
    · rw [hqs q hq1']; exact hempty q hqp
  · intro hpne
    exact ⟨(hqs p hpne).trans hq, ((hthr last).1).trans hf⟩
  · intro hmem hfn
    have hfirst_mem : first ∈ queue_nodes n s p :=
      queue_nodes_first n s p last first (by omega) hq hf
    have hprio : (s.sched_threads first).priority = p := by
      by_contra hcon
      exact (hmem first hfn).2 p hp (fun h => hcon h.symm) hfirst_mem
    refine ⟨((hthr first).2).trans hprio, ?_⟩
    intro t ht q hq16 htq
    rw [(hthr first).2, (hthr t).2, hprio]
    have hqt : q = (s.sched_threads t).priority := by
      by_contra hcon
      exact (hmem t ht).2 q hq16 hcon htq
    rw [← hqt]
    by_contra hlt
    have hqe := hempty q (by omega)
    unfold queue_nodes at htq
    rw [hqe] at htq
    simp at htq

set_option maxRecDepth 100000 in
/-- C4, witness: with threads 1 and 2 on the queue of priority 5 the selection path leaves
thread 1, the first node, active. -/
theorem strict_priority_selection_witness :
    bitmap_inv two_threads ∧
      ∃ p last first r s',
        bitarithm_lsb_sm_timer two_threads.runqueue_bitcache = some p ∧
        two_threads.sched_runqueues p = some last ∧
        (two_threads.sched_threads last).rq_entry = some first ∧
        sched_run_select (some 1) two_threads = some (r, s') ∧
        s'.sched_active_thread = some first := by
  refine ⟨by decide, ?_⟩
  obtain ⟨_, p, last, first, r, s', h1, _, _, _, h5, h6, h7, h8, _⟩ :=
    strict_priority_selection 33 two_threads (some 1) (by decide) (by decide)
      ⟨5, by decide, by decide⟩ (by decide) (by decide)
  exact ⟨p, last, first, r, s', h1, h5, h6, h7, h8⟩

/-! ## More frame lemmas -/

theorem same_sched_remove_timer_from_list_loop (timer : timer_ptr) (fuel : Nat) :
    ∀ loc s r s', remove_timer_from_list_loop timer fuel loc s = some (r, s') →
      same_sched s s' := by
  induction fuel with
  | zero => intro loc s r s' h; simp [remove_timer_from_list_loop] at h
  | succ n ih =>
    intro loc s r s' h
    unfold remove_timer_from_list_loop at h
    cases hr : s.readLoc loc with
    | none =>
      simp only [hr] at h
      simp at h
      obtain ⟨_, rfl⟩ := h
      exact same_sched_refl s
    | some hd =>
      simp only [hr] at h
      split at h
      · simp at h
        obtain ⟨_, rfl⟩ := h
        exact same_sched_writeLoc _ _ _
      · exact ih _ _ _ _ h

theorem same_sched_remove (timer : timer_ptr) (s s' : State) (h : _remove timer s = some s') :
    same_sched s s' := by
  unfold _remove at h
  split at h
  · simp at h
    subst h
    have e1 : same_sched s { s with timer_list_head := (s.getTimer timer).next } :=
      ⟨rfl, rfl, rfl, rfl, rfl, rfl, rfl⟩
    exact same_sched_trans e1 (same_sched_lltimer_set _ _)
  · cases h1 : _remove_timer_from_list timer_list_id.short timer s with
    | none => simp [h1] at h
    | some p1 =>
      obtain ⟨r1, s1⟩ := p1
      have e1 := same_sched_remove_timer_from_list_loop _ _ _ _ _ _ h1
      simp only [h1] at h
      split at h
      · cases h2 : _remove_timer_from_list timer_list_id.overflow timer s1 with
        | none => simp [h2] at h
        | some p2 =>
          obtain ⟨r2, s2⟩ := p2
          have e2 := same_sched_remove_timer_from_list_loop _ _ _ _ _ _ h2
          simp only [h2] at h
          split at h
          · cases h3 : _remove_timer_from_list timer_list_id.long timer s2 with
            | none => simp [h3] at h
            | some p3 =>
              obtain ⟨r3, s3⟩ := p3
              have e3 := same_sched_remove_timer_from_list_loop _ _ _ _ _ _ h3
              simp [h3] at h
              subst h
              exact same_sched_trans e1 (same_sched_trans e2 e3)
          · simp at h
            subst h
            exact same_sched_trans e1 e2
      · simp at h
        subst h
        exact e1

theorem same_sched_secure_mintimer_remove (timer : timer_ptr) (s s' : State)
    (h : secure_mintimer_remove timer s = some s') : same_sched s s' := by
  unfold secure_mintimer_remove at h
  split at h
  · cases h1 : _remove timer s with
    | none => simp [h1] at h
    | some s1 =>
      simp [h1] at h
      subst h
      exact same_sched_trans (same_sched_remove _ _ _ h1) (same_sched_setTimer _ _ _)
  · simp at h
    subst h
    exact same_sched_refl s

theorem same_sched_get_available_timer (pid : Int) (s s' : State) (t : Option timer_ptr)
    (h : get_available_timer pid s = some (t, s')) : same_sched s s' := by
  unfold get_available_timer at h
  split at h
  · split at h
    · cases h1 : secure_mintimer_remove (timer_ptr.pool pid.toNat) s with
      | none => simp [h1] at h
      | some s1 =>
        simp [h1] at h
        obtain ⟨_, rfl⟩ := h
        exact same_sched_secure_mintimer_remove _ _ _ h1
    · simp at h
  · simp at h
    obtain ⟨_, rfl⟩ := h
    exact same_sched_refl s

theorem yield_run_step (s : State) (p a l u : Nat)
    (hact : s.sched_active_thread = some a)
    (hon : on_runqueue (s.sched_threads a).status = true)
    (hpa : (s.sched_threads a).priority = p) (hp : p < SCHED_PRIO_LEVELS)
    (hp1 : p ≠ SCHED_PERIODIC_PRIO_LEVEL)
    (hlsb : bitarithm_lsb_sm_timer s.runqueue_bitcache = some p)
    (hq : s.sched_runqueues p = some l)
    (hl : (s.sched_threads l).rq_entry = some a)
    (ha : (s.sched_threads a).rq_entry = some u) (hua : u ≠ a)
    (hpu : (s.sched_threads u).priority ≠ SCHED_PERIODIC_PRIO_LEVEL) :
    ∃ s', yield_run s = some (1, s') ∧
      s'.sched_active_thread = some u ∧
      s'.sched_active_pid = (s.sched_threads u).pid ∧
      s'.sched_runqueues = Function.update s.sched_runqueues p (some a) ∧
      s'.runqueue_bitcache = s.runqueue_bitcache ∧
      (s'.sched_threads a).status = STATUS_PENDING ∧
      (s'.sched_threads u).status = STATUS_RUNNING ∧
      (∀ i, (s'.sched_threads i).rq_entry = (s.sched_threads i).rq_entry ∧
        (s'.sched_threads i).priority = (s.sched_threads i).priority ∧
        (s'.sched_threads i).pid = (s.sched_threads i).pid) ∧
      (∀ i, i ≠ a → i ≠ u → s'.sched_threads i = s.sched_threads i) := by
  have hpa1 : (s.sched_threads a).priority ≠ SCHED_PERIODIC_PRIO_LEVEL := by rw [hpa]; exact hp1
  have hpa16 : (s.sched_threads a).priority < SCHED_PRIO_LEVELS := by rw [hpa]; exact hp
  have hy : sched_yield s = some (s.setQueue p (some a)) := by
    unfold sched_yield
    simp only [hact, hon, if_true, hpa16]
    simp only [sm_clist_lpoprpush, hpa, hq, hl]
    simp [State.setQueue, hpa, hp1]
  unfold yield_run
  rw [hy]
  have hau : ¬ (some a = some u) := fun e => hua (Option.some.inj e).symm
  have hst : (s.sched_threads a).status = STATUS_RUNNING ∨
      (s.sched_threads a).status = STATUS_PENDING := by
    revert hon
    cases (s.sched_threads a).status <;> simp [on_runqueue, STATUS_ON_RUNQUEUE, thread_status_t.toNat]
  unfold sched_run_internal
  simp only [State.setQueue, hact, hpa1, false_and, and_false, if_false]
  unfold sched_run_select
  simp only [hlsb, hp, if_true, Function.update_same, ha, hact, hau, if_false]
  rcases hst with hst | hst
  · simp only [hst, if_true]
    unfold sched_run_end
    simp only [State.setStatus, State.setThread, Function.update_same,
      Function.update_noteq hua, hpu, if_false]
    refine ⟨_, rfl, rfl, ?_, rfl, rfl, ?_, ?_, ?_, ?_⟩
    · simp [Function.update_noteq hua]
    · simp [Function.update_noteq hua.symm]
    · simp
    · intro i
      by_cases hiu : i = u
      · subst hiu; simp [Function.update_noteq hua]
      · by_cases hia : i = a
        · subst hia; simp [Function.update_noteq hiu]
        · simp [Function.update_noteq hiu, Function.update_noteq hia]
    · intro i hia hiu
      simp [Function.update_noteq hiu, Function.update_noteq hia]
  · have hpr : ¬ (STATUS_PENDING = STATUS_RUNNING) := by decide
    simp only [hst, hpr, if_false]
    unfold sched_run_end
    simp only [State.setStatus, State.setThread, Function.update_same, hpu, if_false]
    refine ⟨_, rfl, rfl, ?_, rfl, rfl, ?_, ?_, ?_, ?_⟩
    · simp
    · simp [Function.update_noteq hua.symm, hst]
    · simp
    · intro i
      by_cases hiu : i = u
      · subst hiu; simp
      · simp [Function.update_noteq hiu]
    · intro i hia hiu
      simp [Function.update_noteq hiu]

theorem ring_succ_mod (k n : Nat) : (k % n + 1) % n = (k + 1) % n := by
  rw [Nat.mod_add_mod]

theorem ring_pred_succ_mod (k n : Nat) (hn : 2 ≤ n) : ((k + n - 1) % n + 1) % n = k % n := by
  rw [Nat.mod_add_mod]
  have : k + n - 1 + 1 = k + n := by omega
  rw [this, Nat.add_mod_right]

theorem ring_succ_ne (k n : Nat) (hn : 2 ≤ n) : (k + 1) % n ≠ k % n := by
  rw [← ring_succ_mod k n]
  have hr : k % n < n := Nat.mod_lt _ (by omega)
  generalize k % n = r at hr
  by_cases h : r + 1 < n
  · rw [Nat.mod_eq_of_lt h]; omega
  · have : r + 1 = n := by omega
    rw [this, Nat.mod_self]; omega

theorem rr_inv_step (s0 : State) (node : Nat → Nat) (n p k : Nat) (s : State)
    (hn : 2 ≤ n) (hinj : ∀ i < n, ∀ j < n, node i = node j → i = j)
    (hnext : ∀ i < n, (s0.sched_threads (node i)).rq_entry = some (node ((i + 1) % n)))
    (hprio : ∀ i < n, (s0.sched_threads (node i)).priority = p)
    (hp : p < SCHED_PRIO_LEVELS) (hp1 : p ≠ SCHED_PERIODIC_PRIO_LEVEL)
    (hlsb : bitarithm_lsb_sm_timer s0.runqueue_bitcache = some p)
    (hinv : rr_inv s0 node n p k s) :
    ∃ s', yield_run s = some (1, s') ∧ rr_inv s0 node n p (k + 1) s' ∧
      (s'.sched_threads (node (k % n))).status = STATUS_PENDING ∧
      (s'.sched_threads (node ((k + 1) % n))).status = STATUS_RUNNING ∧
      s'.sched_active_pid = (s0.sched_threads (node ((k + 1) % n))).pid := by
  obtain ⟨iq, ia, ib, ion, ith⟩ := hinv
  have hn0 : 0 < n := by omega
  have hk : k % n < n := Nat.mod_lt _ hn0
  have hk1 : (k + 1) % n < n := Nat.mod_lt _ hn0
  have hkp : (k + n - 1) % n < n := Nat.mod_lt _ hn0
  have hne : node ((k + 1) % n) ≠ node (k % n) := fun e =>
    ring_succ_ne k n hn (hinj _ hk1 _ hk e)
  obtain ⟨s', hs', o1, o2, o3, o4, o5, o6, o7, _⟩ :=
    yield_run_step s p (node (k % n)) (node ((k + n - 1) % n)) (node ((k + 1) % n)) ia ion
      (by rw [(ith _).2.1]; exact hprio _ hk) hp hp1 (by rw [ib]; exact hlsb)
      (by rw [iq]; simp)
      (by rw [(ith _).1, hnext _ hkp, ring_pred_succ_mod k n hn])
      (by rw [(ith _).1, hnext _ hk, ring_succ_mod k n]) hne
      (by rw [(ith _).2.1, hprio _ hk1]; exact hp1)
  refine ⟨s', hs', ⟨?_, o1, o4.trans ib, ?_, ?_⟩, o5, o6, ?_⟩
  · rw [o3, iq]
    have : (k + 1 + n - 1) % n = k % n := by
      have : k + 1 + n - 1 = k + n := by omega
      rw [this, Nat.add_mod_right]
    rw [this]
    simp
  · rw [o6]; decide
  · intro i
    exact ⟨(o7 i).1.trans (ith i).1, (o7 i).2.1.trans (ith i).2.1, (o7 i).2.2.trans (ith i).2.2⟩
  · rw [o2]; exact (ith _).2.2

theorem rr_inv_iter (s0 : State) (node : Nat → Nat) (n p : Nat)
    (hn : 2 ≤ n) (hinj : ∀ i < n, ∀ j < n, node i = node j → i = j)
    (hnext : ∀ i < n, (s0.sched_threads (node i)).rq_entry = some (node ((i + 1) % n)))
    (hprio : ∀ i < n, (s0.sched_threads (node i)).priority = p)
    (hp : p < SCHED_PRIO_LEVELS) (hp1 : p ≠ SCHED_PERIODIC_PRIO_LEVEL)
    (hlsb : bitarithm_lsb_sm_timer s0.runqueue_bitcache = some p) :
    ∀ k j s, rr_inv s0 node n p j s →
      ∃ sk, yield_run_iter k s = some sk ∧ rr_inv s0 node n p (j + k) sk := by
  intro k
  induction k with
  | zero => intro j s h; exact ⟨s, rfl, h⟩
  | succ k ih =>
    intro j s h
    obtain ⟨s', hs', hinv', _⟩ := rr_inv_step s0 node n p j s hn hinj hnext hprio hp hp1 hlsb h
    obtain ⟨sk, hsk, hk⟩ := ih (j + 1) s' hinv'
    refine ⟨sk, ?_, ?_⟩
    · simp only [yield_run_iter, hs']; exact hsk
    · have : j + (k + 1) = j + 1 + k := by omega
      rw [this]; exact hk

theorem queue_nodes_congr (m : Nat) (s s' : State)
    (hq : s'.sched_runqueues = s.sched_runqueues)
    (hr : ∀ i, (s'.sched_threads i).rq_entry = (s.sched_threads i).rq_entry) (q : Nat) :
    queue_nodes m s' q = queue_nodes m s q := by
  have hw : ∀ fuel last cur, clist_walk s' last fuel cur = clist_walk s last fuel cur := by
    intro fuel
    induction fuel with
    | zero => intro last cur; rfl
    | succ f ih =>
      intro last cur
      simp only [clist_walk, hr, ih]
  unfold queue_nodes
  rw [hq]
  cases s.sched_runqueues q with
  | none => rfl
  | some last => exact hw _ _ _

/-- C6. Let the run queue of the highest runnable priority `p`, not the periodic level, be
the ring of `n ≥ 2` distinct threads `node 0, …, node (n - 1)` of priority `p` (so the list
is `[T, U, …]` with `T = node 0` and `U = node 1`), and let `T` be the active thread with
status `STATUS_RUNNING`. Then `sched_yield` followed by `sched_run_internal` returns 1,
makes `U` the active and running thread and leaves `T` pending as the last node of the
queue, with all links unchanged. After `k` such yields, one by each thread as it becomes
active, the active thread is `node (k % n)`; after `n` of them `T` is active again and the
queue is as at the start. -/
theorem round_robin_equal_priority (s : State) (node : Nat → Nat) (n p : Nat)
    (hn : 2 ≤ n) (hinj : ∀ i < n, ∀ j < n, node i = node j → i = j)
    (hnext : ∀ i < n, (s.sched_threads (node i)).rq_entry = some (node ((i + 1) % n)))
    (hprio : ∀ i < n, (s.sched_threads (node i)).priority = p)
    (hp : p < SCHED_PRIO_LEVELS) (hp1 : p ≠ SCHED_PERIODIC_PRIO_LEVEL)
    (hq : s.sched_runqueues p = some (node (n - 1)))
    (hbit : s.runqueue_bitcache.testBit p = true)
    (hhigh : ∀ q < p, s.runqueue_bitcache.testBit q = false)
    (hact : s.sched_active_thread = some (node 0))
    (hrun : (s.sched_threads (node 0)).status = STATUS_RUNNING) :
    (∃ s1, yield_run s = some (1, s1) ∧ s1.sched_active_thread = some (node 1) ∧
      s1.sched_active_pid = (s.sched_threads (node 1)).pid ∧
      (s1.sched_threads (node 1)).status = STATUS_RUNNING ∧
      (s1.sched_threads (node 0)).status = STATUS_PENDING ∧
      s1.sched_runqueues p = some (node 0) ∧
      (s1.sched_threads (node 0)).rq_entry = some (node 1) ∧
      ∀ i, (s1.sched_threads i).rq_entry = (s.sched_threads i).rq_entry) ∧
    (∀ k, ∃ sk, yield_run_iter k s = some sk ∧ sk.sched_active_thread = some (node (k % n))) ∧
    (∃ sn, yield_run_iter n s = some sn ∧ sn.sched_active_thread = some (node 0) ∧
      sn.sched_runqueues = s.sched_runqueues ∧
      (∀ i, (sn.sched_threads i).rq_entry = (s.sched_threads i).rq_entry) ∧
      ∀ m q, queue_nodes m sn q = queue_nodes m s q) := by
  have hn0 : 0 < n := by omega
  have hlsb : bitarithm_lsb_sm_timer s.runqueue_bitcache = some p := by
    have hv : s.runqueue_bitcache % U16 ≠ 0 := by
      intro h0
      have := Nat.testBit_mod_two_pow s.runqueue_bitcache 16 p
      simp only [U16] at h0
      rw [h0] at this
      simp [hbit] at this
      unfold SCHED_PRIO_LEVELS at hp
      omega
    obtain ⟨p', h1, _, h3, h4⟩ := bitarithm_lsb_sm_timer_spec _ hv
    have : p' = p := by
      rcases Nat.lt_trichotomy p' p with h | h | h
      · rw [hhigh p' h] at h3; exact absurd h3 (by simp)
      · exact h
      · rw [h4 p h] at hbit; exact absurd hbit (by simp)
    rw [← this]; exact h1
  have h0 : rr_inv s node n p 0 s := by
    refine ⟨?_, ?_, rfl, ?_, fun _ => ⟨rfl, rfl, rfl⟩⟩
    · have : (0 + n - 1) % n = n - 1 := by
        rw [Nat.zero_add]; exact Nat.mod_eq_of_lt (by omega)
      rw [this, ← hq, Function.update_eq_self]
    · rw [Nat.zero_mod]; exact hact
    · rw [Nat.zero_mod, hrun]; decide
  have h1n : 1 % n = 1 := Nat.mod_eq_of_lt (by omega)
  refine ⟨?_, ?_, ?_⟩
  · obtain ⟨s1, hs1, hinv1, hpend, hrun1, hpid⟩ :=
      rr_inv_step s node n p 0 s hn hinj hnext hprio hp hp1 hlsb h0
    obtain ⟨iq, ia, _, _, ith⟩ := hinv1
    simp only [Nat.zero_add, Nat.zero_mod, h1n] at hpend hrun1 hpid ia
    refine ⟨s1, hs1, ia, hpid, hrun1, hpend, ?_, ?_, fun i => (ith i).1⟩
    · rw [iq]
      have : (0 + 1 + n - 1) % n = 0 := by
        have : 0 + 1 + n - 1 = n := by omega
        rw [this, Nat.mod_self]
      rw [this]; simp
    · rw [(ith _).1, hnext 0 hn0, Nat.zero_add, h1n]
  · intro k
    obtain ⟨sk, hsk, hinv⟩ :=
      rr_inv_iter s node n p hn hinj hnext hprio hp hp1 hlsb k 0 s h0
    rw [Nat.zero_add] at hinv
    exact ⟨sk, hsk, hinv.2.1⟩
  · obtain ⟨sn, hsn, hinv⟩ :=
      rr_inv_iter s node n p hn hinj hnext hprio hp hp1 hlsb n 0 s h0
    rw [Nat.zero_add] at hinv
    obtain ⟨iq, ia, _, _, ith⟩ := hinv
    have hqs : sn.sched_runqueues = s.sched_runqueues := by
      rw [iq]
      have : (n + n - 1) % n = n - 1 := by
        have : n + n - 1 = (n - 1) + n := by omega
        rw [this, Nat.add_mod_right]; exact Nat.mod_eq_of_lt (by omega)
      rw [this, ← hq, Function.update_eq_self]
    refine ⟨sn, hsn, ?_, hqs, fun i => (ith i).1, ?_⟩
    · rw [ia, Nat.mod_self]
    · intro m q
      exact queue_nodes_congr m s sn hqs (fun i => (ith i).1) q

set_option maxRecDepth 100000 in
/-- C6, witness: with the two threads 1 and 2 at priority 5, thread 1 running, the schedule
under repeated yields is 1 2 1 2 …, and the first yield returns 1 and leaves thread 1
pending as the last node. -/
theorem round_robin_equal_priority_witness :
    two_threads.sched_active_thread = some 1 ∧ queue_nodes 33 two_threads 5 = [1, 2] ∧
    (∃ s1, yield_run two_threads = some (1, s1) ∧ s1.sched_active_thread = some 2 ∧
      (s1.sched_threads 1).status = STATUS_PENDING ∧ s1.sched_runqueues 5 = some 1) ∧
    (∀ k, ∃ sk, yield_run_iter k two_threads = some sk ∧
      sk.sched_active_thread = some (if k % 2 = 0 then 1 else 2)) := by
  have h := round_robin_equal_priority two_threads (fun i => if i = 0 then 1 else 2) 2 5
    (by decide) (by decide) (by decide) (by decide) (by decide) (by decide) (by decide)
    (by decide) (by decide) (by decide) (by decide)
  refine ⟨by decide, by decide, ?_, ?_⟩
  · obtain ⟨s1, a1, a2, _, _, a5, a6, _⟩ := h.1
    exact ⟨s1, a1, a2, a5, a6⟩
  · intro k
    obtain ⟨sk, b1, b2⟩ := h.2.1 k
    exact ⟨sk, b1, b2⟩

/-! ## C7: `thread_yield_higher` -/

set_option maxRecDepth 100000 in
/-- C7, the code at the failing input. Threads 1 and 2 have priority 5, thread 1 runs, no
queue of a higher priority holds a thread and no timer interrupt is pending.
`thread_yield_higher` (the entry stub with opcode YIELD) ends in
`thread_yield_higher_internal` with argument 1, which calls `sched_yield`: afterwards
thread 2 is the active thread and the queue order is `[2, 1]`. -/
theorem thread_yield_higher_rotates :
    two_threads.sched_active_thread = some 1 ∧ queue_nodes 33 two_threads 5 = [1, 2] ∧
    (∀ q < 5, two_threads.sched_runqueues q = none) ∧
    ∃ s1, thread_yield_higher riotConfig 0 0x2f0 true two_threads = some s1 ∧
      s1.sched_active_thread = some 2 ∧ queue_nodes 33 s1 5 = [2, 1] ∧
      (s1.sched_threads 1).status = STATUS_PENDING ∧
      (s1.sched_threads 2).status = STATUS_RUNNING := by
  refine ⟨by decide, by decide, by decide, _, rfl, ?_, ?_, ?_, ?_⟩ <;> decide

/-! ## Thread creation -/

theorem same_thread_data_refl (t : thread_t) : same_thread_data t t := rfl

theorem same_thread_data_trans {t1 t2 t3 : thread_t} (h12 : same_thread_data t1 t2)
    (h23 : same_thread_data t2 t3) : same_thread_data t1 t3 := by
  unfold same_thread_data at *
  rw [h23, h12]

theorem setRqNext_thread_data (s : State) (i : Nat) (v : Option Nat) (j : Nat) :
    same_thread_data (s.sched_threads j) ((s.setRqNext i v).sched_threads j) := by
  unfold same_thread_data State.setRqNext State.setThread
  by_cases h : j = i
  · subst h; simp
  · simp [Function.update_noteq h]

theorem setStatus_thread_data (s : State) (i : Nat) (v : thread_status_t) (j : Nat) :
    same_thread_data (s.sched_threads j) ((s.setStatus i v).sched_threads j) := by
  unfold same_thread_data State.setStatus State.setThread
  by_cases h : j = i
  · subst h; simp
  · simp [Function.update_noteq h]

theorem rpush_thread_data (p n : Nat) (s : State) (j : Nat) :
    same_thread_data (s.sched_threads j) ((sm_clist_rpush p n s).sched_threads j) := by
  unfold sm_clist_rpush
  cases s.sched_runqueues p with
  | none => exact setRqNext_thread_data _ _ _ _
  | some last =>
    exact same_thread_data_trans (setRqNext_thread_data _ _ _ _)
      (setRqNext_thread_data (s.setRqNext n (s.sched_threads last).rq_entry) last (some n) j)

theorem lpop_thread_data (p : Nat) (s s1 : State) (r : Option Nat)
    (h : sm_clist_lpop p s = some (r, s1)) (j : Nat) :
    same_thread_data (s.sched_threads j) (s1.sched_threads j) := by
  unfold sm_clist_lpop at h
  cases hq : s.sched_runqueues p with
  | none =>
    simp [hq] at h
    obtain ⟨_, rfl⟩ := h
    exact same_thread_data_refl _
  | some last =>
    simp only [hq] at h
    split at h
    · simp at h
      obtain ⟨_, rfl⟩ := h
      exact same_thread_data_refl _
    · cases hf : (s.sched_threads last).rq_entry with
      | none => simp [hf] at h
      | some f =>
        simp [hf] at h
        obtain ⟨_, rfl⟩ := h
        exact setRqNext_thread_data _ _ _ _

theorem sched_set_status_thread_data (process : Nat) (status : thread_status_t) (s s' : State)
    (h : sched_set_status process status s = some s') (j : Nat) :
    same_thread_data (s.sched_threads j) (s'.sched_threads j) ∧
    s'.sched_num_threads = s.sched_num_threads := by
  unfold sched_set_status at h
  simp only [] at h
  split at h
  · split at h
    · split at h
      · simp at h
        subst h
        refine ⟨same_thread_data_trans (rpush_thread_data _ _ s j)
          (setStatus_thread_data _ _ _ _), ?_⟩
        unfold sm_clist_rpush
        cases s.sched_runqueues (s.sched_threads process).priority <;> rfl
      · simp at h
    · simp at h
      subst h
      exact ⟨setStatus_thread_data _ _ _ _, rfl⟩
  · split at h
    · split at h
      · split at h
        · rename_i r s1 hl
          simp at h
          subst h
          have h1 := lpop_thread_data _ _ _ _ hl j
          have hnum : s1.sched_num_threads = s.sched_num_threads := by
            unfold sm_clist_lpop at hl
            cases hq : s.sched_runqueues (s.sched_threads process).priority with
            | none =>
              simp [hq] at hl
              obtain ⟨_, rfl⟩ := hl
              rfl
            | some last =>
              simp only [hq] at hl
              split at hl
              · simp at hl
                obtain ⟨_, rfl⟩ := hl
                rfl
              · cases hf : (s.sched_threads last).rq_entry with
                | none => simp [hf] at hl
                | some f =>
                  simp [hf] at hl
                  obtain ⟨_, rfl⟩ := hl
                  rfl
          split
          · exact ⟨same_thread_data_trans h1 (setStatus_thread_data _ _ _ _), hnum⟩
          · exact ⟨same_thread_data_trans h1 (setStatus_thread_data _ _ _ _), hnum⟩
        · simp at h
      · simp at h
    · simp at h
      subst h
      exact ⟨setStatus_thread_data _ _ _ _, rfl⟩

theorem sched_set_status_pending_defined (process : Nat) (s : State)
    (hp : (s.sched_threads process).priority < SCHED_PRIO_LEVELS) :
    ∃ s', sched_set_status process STATUS_PENDING s = some s' := by
  unfold sched_set_status
  have h1 : on_runqueue STATUS_PENDING = true := by decide
  simp only [h1, if_true, hp]
  split
  · exact ⟨_, rfl⟩
  · exact ⟨_, rfl⟩

theorem find_unused_pid_full (cfg : Config) (s : State)
    (hfull : ∀ i : Nat, cfg.KERNEL_PID_FIRST ≤ (i : Int) → (i : Int) ≤ cfg.KERNEL_PID_LAST →
      (s.sched_threads i).in_use = true) (h0 : 0 ≤ cfg.KERNEL_PID_FIRST) :
    ∀ n i, cfg.KERNEL_PID_FIRST ≤ i → find_unused_pid cfg s n i = cfg.KERNEL_PID_UNDEF := by
  intro n
  induction n with
  | zero => intro i _; rfl
  | succ n ih =>
    intro i hi
    unfold find_unused_pid
    split
    · rename_i hle
      have hnn : 0 ≤ i := le_trans h0 hi
      have hu := hfull i.toNat (by rw [Int.toNat_of_nonneg hnn]; exact hi)
        (by rw [Int.toNat_of_nonneg hnn]; exact hle)
      simp only [hu]
      simp
      exact ih (i + 1) (by omega)
    · rfl

theorem find_unused_pid_spec (cfg : Config) (s : State) :
    ∀ n i, find_unused_pid cfg s n i = cfg.KERNEL_PID_UNDEF ∨
      (i ≤ find_unused_pid cfg s n i ∧ find_unused_pid cfg s n i ≤ cfg.KERNEL_PID_LAST ∧
        (s.sched_threads (find_unused_pid cfg s n i).toNat).in_use = false) := by
  intro n
  induction n with
  | zero => intro i; exact Or.inl rfl
  | succ n ih =>
    intro i
    unfold find_unused_pid
    split
    · rename_i hle
      split
      · rename_i hfree
        exact Or.inr ⟨le_refl _, hle, hfree⟩
      · rcases ih (i + 1) with h | ⟨h1, h2, h3⟩
        · exact Or.inl h
        · exact Or.inr ⟨by omega, h2, h3⟩
    · exact Or.inl rfl

theorem find_unused_pid_found (cfg : Config) (s : State) :
    ∀ (n : Nat) (i j : Int), 0 ≤ i → i ≤ j → j < i + (n : Int) → j ≤ cfg.KERNEL_PID_LAST →
      (s.sched_threads j.toNat).in_use = false →
      i ≤ find_unused_pid cfg s n i ∧ find_unused_pid cfg s n i ≤ cfg.KERNEL_PID_LAST ∧
        (s.sched_threads (find_unused_pid cfg s n i).toNat).in_use = false := by
  intro n
  induction n with
  | zero => intro i j _ h1 h2 _ _; omega
  | succ n ih =>
    intro i j h0 h1 h2 h3 h4
    unfold find_unused_pid
    have hle : i ≤ cfg.KERNEL_PID_LAST := le_trans h1 h3
    simp only [hle, if_true]
    split
    · rename_i hfree
      exact ⟨le_refl _, hle, hfree⟩
    · rename_i hused
      have hij : i ≠ j := by
        intro e
        subst e
        exact hused h4
      obtain ⟨a, b, c⟩ := ih (i + 1) j (by omega) (by omega) (by push_cast at h2 ⊢; omega) h3 h4
      exact ⟨by omega, b, c⟩

theorem create_internal_full (cfg : Config) (hwf : cfg.wf) (priority : Nat) (is_sm : Bool)
    (sp : Nat) (s : State)
    (hfull : ∀ i : Nat, cfg.KERNEL_PID_FIRST ≤ (i : Int) → (i : Int) ≤ cfg.KERNEL_PID_LAST →
      (s.sched_threads i).in_use = true) :
    _thread_create_scheduler_internal cfg priority is_sm sp s = some (-cfg.EOVERFLOW, s) := by
  unfold _thread_create_scheduler_internal
  simp only [find_unused_pid_full cfg s hfull hwf.1 _ _ (le_refl _), if_true]

theorem create_protected_full (cfg : Config) (hwf : cfg.wf) (priority sp entry idx : Nat)
    (s : State)
    (hfull : ∀ i : Nat, cfg.KERNEL_PID_FIRST ≤ (i : Int) → (i : Int) ≤ cfg.KERNEL_PID_LAST →
      (s.sched_threads i).in_use = true) :
    thread_create_protected_in_scheduler cfg priority sp entry idx s = none := by
  unfold thread_create_protected_in_scheduler
  rw [create_internal_full cfg hwf priority true sp s hfull]
  obtain ⟨_, _, h3, _, _, h6⟩ := hwf
  have h1 : ¬ (-cfg.EOVERFLOW = cfg.KERNEL_PID_UNDEF) := by omega
  have h2 : ¬ (0 ≤ -cfg.EOVERFLOW ∧ -cfg.EOVERFLOW ≤ cfg.KERNEL_PID_LAST) := by omega
  simp only [h1, h2, if_false]

theorem create_internal_free (cfg : Config) (hwf : cfg.wf) (priority : Nat) (is_sm : Bool)
    (sp : Nat) (s : State) (hp : priority < SCHED_PRIO_LEVELS)
    (hfree : ∃ j : Int, cfg.KERNEL_PID_FIRST ≤ j ∧ j ≤ cfg.KERNEL_PID_LAST ∧
      (s.sched_threads j.toNat).in_use = false) :
    ∃ pid s', _thread_create_scheduler_internal cfg priority is_sm sp s = some (pid, s') ∧
      cfg.KERNEL_PID_FIRST ≤ pid ∧ pid ≤ cfg.KERNEL_PID_LAST ∧
      pid ≠ cfg.KERNEL_PID_UNDEF ∧
      (s.sched_threads pid.toNat).in_use = false ∧
      (s'.sched_threads pid.toNat).in_use = true ∧
      (s'.sched_threads pid.toNat).priority = priority ∧
      (s'.sched_threads pid.toNat).is_sm = is_sm ∧
      (s'.sched_threads pid.toNat).pid = pid ∧
      s'.sched_num_threads = s.sched_num_threads + 1 := by
  obtain ⟨j, hj1, hj2, hj3⟩ := hfree
  obtain ⟨w1, w2, w3, w4, w5, w6⟩ := hwf
  obtain ⟨f1, f2, f3⟩ := find_unused_pid_found cfg s
    (cfg.KERNEL_PID_LAST - cfg.KERNEL_PID_FIRST + 1).toNat cfg.KERNEL_PID_FIRST j w1 hj1
    (by rw [Int.toNat_of_nonneg (by omega)]; omega) hj2 hj3
  have hne : find_unused_pid cfg s (cfg.KERNEL_PID_LAST - cfg.KERNEL_PID_FIRST + 1).toNat
      cfg.KERNEL_PID_FIRST ≠ cfg.KERNEL_PID_UNDEF := by
    rcases w4 with h | h <;> omega
  unfold _thread_create_scheduler_internal
  simp only [hne, if_false]
  generalize find_unused_pid cfg s (cfg.KERNEL_PID_LAST - cfg.KERNEL_PID_FIRST + 1).toNat
    cfg.KERNEL_PID_FIRST = pid at *
  obtain ⟨s3, hs3⟩ := sched_set_status_pending_defined pid.toNat
    { s.setThread pid.toNat
        { s.sched_threads pid.toNat with
          in_use := true, pid := pid, priority := priority, is_sm := is_sm, sp := sp,
          rq_entry := none } with
      sched_num_threads := (s.setThread pid.toNat
        { s.sched_threads pid.toNat with
          in_use := true, pid := pid, priority := priority, is_sm := is_sm, sp := sp,
          rq_entry := none }).sched_num_threads + 1 }
    (by simp [State.setThread]; exact hp)
  obtain ⟨hd, hnum⟩ := sched_set_status_thread_data _ _ _ _ hs3 pid.toNat
  rw [hs3]
  refine ⟨pid, s3, rfl, f1, f2, hne, f3, ?_, ?_, ?_, ?_, ?_⟩
  · have := congrArg thread_t.in_use hd
    simpa [State.setThread] using this
  · have := congrArg thread_t.priority hd
    simpa [State.setThread] using this
  · have := congrArg thread_t.is_sm hd
    simpa [State.setThread] using this
  · have := congrArg thread_t.pid hd
    simpa [State.setThread] using this
  · rw [hnum]; rfl

/-! ## C8: creation with a full thread table -/

set_option maxRecDepth 100000 in
theorem full_table_in_use :
    full_table_boot.isSome = true ∧ full_table.sched_num_threads = 32 ∧
      ∀ i < 33, 1 ≤ i → (full_table.sched_threads i).in_use = true := by
  decide!

/-- C8, the code at the failing input. The table is filled by 32 calls of
`thread_create_unprotected_in_scheduler` from the initial state. Then
`thread_create_unprotected_in_scheduler` returns `-EOVERFLOW` and leaves the state as it
is, but `thread_create_protected_in_scheduler` has no defined result: the internal function
returns `-EOVERFLOW`, which is not `KERNEL_PID_UNDEF`, so the caller goes on to write
`sched_threads[-EOVERFLOW].sm_idx`, outside the table. -/
theorem create_protected_full_table_out_of_bounds :
    full_table_boot.isSome = true ∧ full_table.sched_num_threads = 32 ∧
      (∀ i < 33, 1 ≤ i → (full_table.sched_threads i).in_use = true) ∧
      thread_create_unprotected_in_scheduler riotConfig 5 0x300 full_table
        = some (-riotConfig.EOVERFLOW, full_table) ∧
      _thread_create_scheduler_internal riotConfig 5 true 0x300 full_table
        = some (-riotConfig.EOVERFLOW, full_table) ∧
      -riotConfig.EOVERFLOW ≠ riotConfig.KERNEL_PID_UNDEF ∧
      thread_create_protected_in_scheduler riotConfig 5 0x300 0x8000 0 full_table = none := by
  have hfull : ∀ i : Nat, riotConfig.KERNEL_PID_FIRST ≤ (i : Int) →
      (i : Int) ≤ riotConfig.KERNEL_PID_LAST → (full_table.sched_threads i).in_use = true := by
    intro i h1 h2
    simp only [riotConfig] at h1 h2
    exact full_table_in_use.2.2 i (by omega) (by omega)
  have hwf : riotConfig.wf := by decide
  refine ⟨full_table_in_use.1, full_table_in_use.2.1, full_table_in_use.2.2, ?_, ?_, by decide,
    create_protected_full riotConfig hwf 5 0x300 0x8000 0 full_table hfull⟩
  · unfold thread_create_unprotected_in_scheduler
    have : ¬ (5 < SCHED_MAX_PRIO_LEVEL_UNPROTECTED) := by decide
    simp only [this, if_false]
    exact create_internal_full riotConfig hwf 5 false 0x300 full_table hfull
  · exact create_internal_full riotConfig hwf 5 true 0x300 full_table hfull

/-! ## C9: creation with a priority of 16 or more -/

set_option maxRecDepth 100000 in
/-- C9, the code at the failing input. `thread_create` and `thread_create_protected` with
priority 16 do not return `-EINVAL`: no statement compares the priority with
`SCHED_PRIO_LEVELS`. The slot with pid 1 is taken and `sched_set_status` then indexes
`sched_runqueues[16]`, outside the array, so the call has no defined result; with priority
15 the same call returns pid 1. -/
theorem create_priority_out_of_range :
    thread_create riotConfig 0 0x2f0 0x200 0x100 16 THREAD_CREATE_WOUT_YIELD
      (State.init riotConfig) = none ∧
    thread_create_protected riotConfig 0 0x2f0 0x200 0x100 16 THREAD_CREATE_WOUT_YIELD 0x8000 0
      (State.init riotConfig) = none ∧
    find_unused_pid riotConfig (State.init riotConfig) 32 1 = 1 ∧
    sched_set_status 1 STATUS_PENDING
      ((State.init riotConfig).setThread 1
        { thread_t.zero with in_use := true, pid := 1, priority := 16 }) = none ∧
    (thread_create riotConfig 0 0x2f0 0x200 0x100 15 THREAD_CREATE_WOUT_YIELD
      (State.init riotConfig)).map Prod.fst = some 1 := by
  refine ⟨rfl, rfl, by decide, rfl, by decide⟩

/-! ## C10: the priority check for unprotected threads -/

/-- C10. `SCHED_MAX_PRIO_LEVEL_UNPROTECTED` is 3, the protected levels plus the periodic
level plus 1. With a priority below it, `thread_create` and
`thread_create_unprotected_in_scheduler` return `-EINVAL` and leave the whole state as it
is. With a priority in `[SCHED_MAX_PRIO_LEVEL_UNPROTECTED, SCHED_PRIO_LEVELS)` the check is
passed: the scheduler entry does what `_thread_create_scheduler_internal` does, which with a
free slot returns its pid, and `thread_create` with `THREAD_CREATE_WOUT_YIELD` returns the
result of the scheduler entry. The check applies to ordinary threads only:
`thread_create_protected_in_scheduler` with a priority below the bound and a free slot
creates the thread. -/
theorem unprotected_priority_check (cfg : Config) (hwf : cfg.wf) (s : State) :
    SCHED_MAX_PRIO_LEVEL_UNPROTECTED = 3 ∧
    SCHED_MAX_PRIO_LEVEL_UNPROTECTED
      = SCHED_PROTECTED_PRIO_LEVELS + SCHED_PERIODIC_PRIO_LEVEL + 1 ∧
    (∀ passes r1 stack stacksize priority flags,
      priority < SCHED_MAX_PRIO_LEVEL_UNPROTECTED →
      thread_create cfg passes r1 stack stacksize priority flags s = some (-cfg.EINVAL, s)) ∧
    (∀ priority sp, priority < SCHED_MAX_PRIO_LEVEL_UNPROTECTED →
      thread_create_unprotected_in_scheduler cfg priority sp s = some (-cfg.EINVAL, s)) ∧
    (∀ priority sp, SCHED_MAX_PRIO_LEVEL_UNPROTECTED ≤ priority →
      priority < SCHED_PRIO_LEVELS →
      thread_create_unprotected_in_scheduler cfg priority sp s
        = _thread_create_scheduler_internal cfg priority false sp s ∧
      ((∃ j : Int, cfg.KERNEL_PID_FIRST ≤ j ∧ j ≤ cfg.KERNEL_PID_LAST ∧
          (s.sched_threads j.toNat).in_use = false) →
        ∃ pid s', thread_create_unprotected_in_scheduler cfg priority sp s = some (pid, s') ∧
          cfg.KERNEL_PID_FIRST ≤ pid ∧ pid ≤ cfg.KERNEL_PID_LAST ∧ pid ≠ -cfg.EINVAL ∧
          (s'.sched_threads pid.toNat).in_use = true ∧
          (s'.sched_threads pid.toNat).priority = priority ∧
          (s'.sched_threads pid.toNat).is_sm = false)) ∧
    (∀ passes r1 stack stacksize priority flags,
      SCHED_MAX_PRIO_LEVEL_UNPROTECTED ≤ priority → flags &&& THREAD_CREATE_WOUT_YIELD ≠ 0 →
      thread_create cfg passes r1 stack stacksize priority flags s
        = thread_create_unprotected_in_scheduler cfg priority
            (thread_stack_init (align_stack stack stacksize).1 (align_stack stack stacksize).2)
            s) ∧
    (∀ priority sp entry idx, priority < SCHED_MAX_PRIO_LEVEL_UNPROTECTED →
      (∃ j : Int, cfg.KERNEL_PID_FIRST ≤ j ∧ j ≤ cfg.KERNEL_PID_LAST ∧
          (s.sched_threads j.toNat).in_use = false) →
      ∃ pid s', thread_create_protected_in_scheduler cfg priority sp entry idx s
          = some (pid, s') ∧
        cfg.KERNEL_PID_FIRST ≤ pid ∧ pid ≤ cfg.KERNEL_PID_LAST ∧ pid ≠ -cfg.EINVAL ∧
        (s'.sched_threads pid.toNat).in_use = true ∧
        (s'.sched_threads pid.toNat).priority = priority ∧
        (s'.sched_threads pid.toNat).is_sm = true) := by
  refine ⟨rfl, rfl, ?_, ?_, ?_, ?_, ?_⟩
  · intro passes r1 stack stacksize priority flags h
    unfold thread_create
    simp only [h, if_true]
  · intro priority sp h
    unfold thread_create_unprotected_in_scheduler
    simp only [h, if_true]
  · intro priority sp h1 h2
    have hn : ¬ priority < SCHED_MAX_PRIO_LEVEL_UNPROTECTED := by omega
    have heq : thread_create_unprotected_in_scheduler cfg priority sp s
        = _thread_create_scheduler_internal cfg priority false sp s := by
      unfold thread_create_unprotected_in_scheduler
      simp only [hn, if_false]
    refine ⟨heq, ?_⟩
    intro hfree
    obtain ⟨pid, s', a1, a2, a3, _, _, a6, a7, a8, _⟩ :=
      create_internal_free cfg hwf priority false sp s h2 hfree
    refine ⟨pid, s', heq.trans a1, a2, a3, ?_, a6, a7, a8⟩
    obtain ⟨w1, _, _, _, w5, _⟩ := hwf
    omega
  · intro passes r1 stack stacksize priority flags h1 h2
    have hn : ¬ priority < SCHED_MAX_PRIO_LEVEL_UNPROTECTED := by omega
    unfold thread_create
    simp only [hn, if_false, h2]
    cases thread_create_unprotected_in_scheduler cfg priority
        (thread_stack_init (align_stack stack stacksize).1 (align_stack stack stacksize).2)
        s with
    | none => rfl
    | some r => rfl
  · intro priority sp entry idx h hfree
    have hp : priority < SCHED_PRIO_LEVELS := by
      unfold SCHED_MAX_PRIO_LEVEL_UNPROTECTED SCHED_PROTECTED_PRIO_LEVELS
        SCHED_PERIODIC_PRIO_LEVEL at h
      unfold SCHED_PRIO_LEVELS
      omega
    obtain ⟨pid, s', a1, a2, a3, a4, _, a6, a7, a8, _⟩ :=
      create_internal_free cfg hwf priority true sp s hp hfree
    obtain ⟨w1, _, _, _, w5, _⟩ := hwf
    have hin : 0 ≤ pid ∧ pid ≤ cfg.KERNEL_PID_LAST := ⟨by omega, a3⟩
    unfold thread_create_protected_in_scheduler
    simp only [a1, a4, if_false, hin, and_self, if_true]
    refine ⟨pid, _, rfl, a2, a3, by omega, ?_, ?_, ?_⟩
    · simpa [State.setThread] using a6
    · simpa [State.setThread] using a7
    · simpa [State.setThread] using a8

/-- C10, witness: in the initial state `thread_create` with priority 2 returns `-EINVAL`
and changes nothing, and the scheduler entry accepts priority 3 and returns pid 1. -/
theorem unprotected_priority_check_witness :
    riotConfig.wf ∧
    thread_create riotConfig 0 0x2f0 0x200 0x100 2 0 (State.init riotConfig)
      = some (-riotConfig.EINVAL, State.init riotConfig) ∧
    ∃ pid s', thread_create_unprotected_in_scheduler riotConfig 3 0x300 (State.init riotConfig)
        = some (pid, s') ∧ riotConfig.KERNEL_PID_FIRST ≤ pid ∧ pid ≠ -riotConfig.EINVAL := by
  have h := unprotected_priority_check riotConfig (by decide) (State.init riotConfig)
  refine ⟨by decide, h.2.2.1 0 0x2f0 0x200 0x100 2 0 (by decide), ?_⟩
  obtain ⟨pid, s', a1, a2, _, a4, _⟩ :=
    (h.2.2.2.2.1 3 0x300 (by decide) (by decide)).2 ⟨1, by decide, by decide, by decide⟩
  exact ⟨pid, s', a1, a2, a4⟩

/-! ## C2: the bitmap invariant -/

theorem bitmap_inv_same_sched (s s' : State) (h : same_sched s s') (hinv : bitmap_inv s) :
    bitmap_inv s' := by
  obtain ⟨_, _, _, _, _, h6, h7⟩ := h
  intro q hq
  rw [h6, h7]
  exact hinv q hq

theorem shoot_timer_bitmap (timer : timer_ptr) (s s' : State) (hinv : bitmap_inv s)
    (h : _shoot_timer timer s = some s') : bitmap_inv s' := by
  unfold _shoot_timer at h
  simp only [] at h
  cases ht : (s.getTimer timer).thread with
  | none =>
    simp [ht] at h
    subst h
    exact fun q hq => hinv q hq
  | some t =>
    simp only [ht] at h
    cases h1 : sched_set_status t STATUS_PENDING s with
    | none => simp [h1] at h
    | some s1 =>
      simp [h1] at h
      subst h
      have := sched_set_status_bitmap _ _ _ _ hinv h1
      exact fun q hq => this q hq

theorem set_absolute_bitmap (timer : Option timer_ptr) (target : Nat) (s s' : State) (r : Int)
    (hinv : bitmap_inv s) (h : _secure_mintimer_set_absolute timer target s = some (r, s')) :
    bitmap_inv s' := by
  unfold _secure_mintimer_set_absolute at h
  cases timer with
  | none => simp at h
  | some tm =>
    simp only [] at h
    have e0 := same_sched_setTimer s tm { s.getTimer tm with next := none }
    split at h
    · cases h1 : _shoot_timer tm (secure_mintimer_spin_until target
          (s.setTimer tm { s.getTimer tm with next := none })) with
      | none => simp [h1] at h
      | some s2 =>
        simp [h1] at h
        obtain ⟨_, rfl⟩ := h
        refine shoot_timer_bitmap _ _ _ ?_ h1
        have := bitmap_inv_same_sched _ _ e0 hinv
        exact fun q hq => this q hq
    · cases h1 : (if _is_set (s.setTimer tm { s.getTimer tm with next := none }) tm = true then
          _remove tm (s.setTimer tm { s.getTimer tm with next := none })
        else some (s.setTimer tm { s.getTimer tm with next := none })) with
      | none => simp [h1] at h
      | some s2 =>
        simp only [h1] at h
        have e1 : same_sched (s.setTimer tm { s.getTimer tm with next := none }) s2 := by
          split at h1
          · exact same_sched_remove _ _ _ h1
          · simp at h1
            subst h1
            exact same_sched_refl _
        obtain ⟨_, e3⟩ := same_sched_set_absolute_explicit _ _ _ _ _ h
        have e2 := same_sched_setTimer s2 tm
          { s2.getTimer tm with target := target, long_target := s2.long_cnt }
        exact bitmap_inv_same_sched _ _
          (same_sched_trans e0 (same_sched_trans e1 (same_sched_trans e2 e3))) hinv

theorem tsleep_specific_pid_bitmap (cfg : Config) (offset : Nat) (pid : Int) (s s' : State)
    (hinv : bitmap_inv s)
    (h : _secure_mintimer_tsleep_specific_pid cfg offset pid s = some s') : bitmap_inv s' := by
  unfold _secure_mintimer_tsleep_specific_pid at h
  cases hg : get_available_timer pid s with
  | none => simp [hg] at h
  | some g =>
    obtain ⟨t, s1⟩ := g
    have e1 := same_sched_get_available_timer _ _ _ _ hg
    have i1 := bitmap_inv_same_sched _ _ e1 hinv
    cases t with
    | none =>
      simp [hg] at h
      subst h
      exact i1
    | some timer =>
      simp only [hg] at h
      split at h
      · have i2 : bitmap_inv (s1.setTimer timer
            { s1.getTimer timer with target := 0, long_target := 0, thread := some pid.toNat }) :=
          bitmap_inv_same_sched _ _ (same_sched_setTimer _ _ _) i1
        cases h3 : sched_set_status pid.toNat STATUS_SLEEPING (s1.setTimer timer
            { s1.getTimer timer with target := 0, long_target := 0, thread := some pid.toNat }) with
        | none => simp [h3] at h
        | some s3 =>
          simp only [h3] at h
          have i3 := sched_set_status_bitmap _ _ _ _ i2 h3
          unfold _secure_mintimer_set at h
          cases h4 : secure_mintimer_remove timer s3 with
          | none => simp [h4] at h
          | some s4 =>
            simp only [h4] at h
            have i4 := bitmap_inv_same_sched _ _ (same_sched_secure_mintimer_remove _ _ _ h4) i3
            cases h5 : _secure_mintimer_set_absolute (some timer)
                ((_secure_mintimer_now s4 + offset) % U32) s4 with
            | none => simp [h5] at h
            | some r5 =>
              obtain ⟨r, s5⟩ := r5
              simp [h5] at h
              subst h
              exact set_absolute_bitmap _ _ _ _ _ i4 h5
      · simp at h


/-- C2. If bit `p` of `runqueue_bitcache` is set exactly when `sched_runqueues[p]` is not
empty, for every priority `p`, then: a call `sched_set_status(t, s)` with
`t.priority < SCHED_PRIO_LEVELS` on a closed ring returns and the same holds afterwards; and
the same holds after every defined run of `sched_set_status`, of thread creation, of
`sched_task_exit_internal`, of `sched_set_own_status` (sleep), of `thread_wakeup`, of
`_shoot_timer` (a timer firing) and of `_secure_mintimer_tsleep_specific_pid` (the timed
sleep). -/
theorem bitmap_inv_preserved (s : State) (hinv : bitmap_inv s) :
    (∀ process status, (s.sched_threads process).priority < SCHED_PRIO_LEVELS →
      ring_closed s (s.sched_threads process).priority →
      ∃ s', sched_set_status process status s = some s' ∧ bitmap_inv s') ∧
    (∀ process status s', sched_set_status process status s = some s' → bitmap_inv s') ∧
    (∀ cfg priority is_sm sp r s',
      _thread_create_scheduler_internal cfg priority is_sm sp s = some (r, s') →
      bitmap_inv s') ∧
    (∀ cfg s', sched_task_exit_internal cfg s = some s' → bitmap_inv s') ∧
    (∀ status s', sched_set_own_status status s = some s' → bitmap_inv s') ∧
    (∀ cfg pid r s', thread_wakeup cfg pid s = some (r, s') → bitmap_inv s') ∧
    (∀ timer s', _shoot_timer timer s = some s' → bitmap_inv s') ∧
    (∀ cfg offset pid s',
      _secure_mintimer_tsleep_specific_pid cfg offset pid s = some s' → bitmap_inv s') := by
  refine ⟨?_, ?_, ?_, ?_, ?_, ?_, ?_, ?_⟩
  · intro process status hp hring
    obtain ⟨s', hs'⟩ := sched_set_status_defined process status s hp hring
    exact ⟨s', hs', sched_set_status_bitmap _ _ _ _ hinv hs'⟩
  · intro process status s' h
    exact sched_set_status_bitmap _ _ _ _ hinv h
  · intro cfg priority is_sm sp r s' h
    unfold _thread_create_scheduler_internal at h
    simp only [] at h
    split at h
    · simp at h
      obtain ⟨_, rfl⟩ := h
      exact hinv
    · split at h
      · simp at h
      · rename_i s3 hs3
        simp at h
        obtain ⟨_, rfl⟩ := h
        refine sched_set_status_bitmap _ _ _ _ ?_ hs3
        exact fun q hq => hinv q hq
  · intro cfg s' h
    unfold sched_task_exit_internal at h
    split at h
    · split at h
      · simp only [] at h
        cases ha : s.sched_active_thread with
        | none => simp [State.setThread, ha] at h
        | some a =>
          simp only [State.setThread, ha] at h
          split at h
          · simp at h
          · rename_i s3 hs3
            simp at h
            subst h
            have h3 : bitmap_inv s3 := by
              refine sched_set_status_bitmap _ _ _ _ ?_ hs3
              exact fun q hq => hinv q hq
            exact fun q hq => h3 q hq
      · simp at h
    · simp at h
      subst h
      exact hinv
  · intro status s' h
    unfold sched_set_own_status at h
    split at h
    · simp at h
    · exact sched_set_status_bitmap _ _ _ _ hinv h
  · intro cfg pid r s' h
    unfold thread_wakeup at h
    split at h
    · simp at h
      obtain ⟨_, rfl⟩ := h
      exact hinv
    · split at h
      · split at h
        · simp at h
        · rename_i s1 hs1
          simp at h
          obtain ⟨_, rfl⟩ := h
          exact sched_set_status_bitmap _ _ _ _ hinv hs1
      · simp at h
        obtain ⟨_, rfl⟩ := h
        exact hinv
  · intro timer s' h
    exact shoot_timer_bitmap _ _ _ hinv h
  · intro cfg offset pid s' h
    exact tsleep_specific_pid_bitmap _ _ _ _ _ hinv h

/-- C2, witness: in the state with two threads at priority 5 the invariant holds, and putting
the running thread 1 to sleep returns a state in which it holds. -/
theorem bitmap_inv_preserved_witness :
    bitmap_inv two_threads ∧
      ∃ s', sched_set_status 1 STATUS_SLEEPING two_threads = some s' ∧ bitmap_inv s' :=
  ⟨by decide,
    (bitmap_inv_preserved two_threads (by decide)).1 1 STATUS_SLEEPING (by decide) (by decide)⟩

/-! ## C11: successful creation -/

theorem find_unused_pid_least (cfg : Config) (s : State) :
    ∀ (n : Nat) (i k : Int), i ≤ k → k < find_unused_pid cfg s n i →
      find_unused_pid cfg s n i ≠ cfg.KERNEL_PID_UNDEF →
      (s.sched_threads k.toNat).in_use = true := by
  intro n
  induction n with
  | zero => intro i k _ _ h; exact absurd rfl h
  | succ n ih =>
    intro i k h1 h2 h3
    unfold find_unused_pid at h2 h3
    split at h2
    · split at h2
      · omega
      · rename_i hle hused
        simp only [hle, if_true, hused, if_false] at h3
        by_cases hk : k = i
        · subst hk
          simpa using hused
        · exact ih (i + 1) k (by omega) h2 h3
    · rename_i hle
      simp only [hle, if_false] at h3
      exact absurd rfl h3

/-- C11, amended. With a priority below `SCHED_PRIO_LEVELS`, a free slot in
`KERNEL_PID_FIRST..KERNEL_PID_LAST` and no free slot marked as being on a run queue,
`_thread_create_scheduler_internal` returns the smallest pid of that range whose slot is not
in use. Afterwards the slot has `in_use = true`, its index as pid, the given priority,
`is_sm` flag and stack pointer and status `STATUS_PENDING`; `sched_runqueues[priority]`
points to it as its last node, the bit of the priority is set in the bitmap and
`sched_num_threads` has grown by one. The node that was the last one of that queue before
has the new node as its successor and is unchanged otherwise; every other control block,
every other run queue and every other bit of the bitmap is unchanged. -/
theorem create_internal_success (cfg : Config) (hwf : cfg.wf) (priority : Nat) (is_sm : Bool)
    (sp : Nat) (s : State) (hp : priority < SCHED_PRIO_LEVELS)
    (hfree : ∃ j : Int, cfg.KERNEL_PID_FIRST ≤ j ∧ j ≤ cfg.KERNEL_PID_LAST ∧
      (s.sched_threads j.toNat).in_use = false)
    (hstop : ∀ j : Nat, (s.sched_threads j).in_use = false →
      on_runqueue (s.sched_threads j).status = false) :
    ∃ pid s', _thread_create_scheduler_internal cfg priority is_sm sp s = some (pid, s') ∧
      cfg.KERNEL_PID_FIRST ≤ pid ∧ pid ≤ cfg.KERNEL_PID_LAST ∧
      (s.sched_threads pid.toNat).in_use = false ∧
      (∀ k : Int, cfg.KERNEL_PID_FIRST ≤ k → k < pid →
        (s.sched_threads k.toNat).in_use = true) ∧
      s'.sched_threads pid.toNat =
        { s.sched_threads pid.toNat with
          in_use := true, pid := pid, priority := priority, is_sm := is_sm, sp := sp,
          status := STATUS_PENDING, rq_entry := (s'.sched_threads pid.toNat).rq_entry } ∧
      s'.sched_runqueues priority = some pid.toNat ∧
      (s.sched_runqueues priority = none →
        (s'.sched_threads pid.toNat).rq_entry = some pid.toNat) ∧
      (∀ last, s.sched_runqueues priority = some last → last ≠ pid.toNat →
        (s'.sched_threads pid.toNat).rq_entry = (s.sched_threads last).rq_entry ∧
        s'.sched_threads last = { s.sched_threads last with rq_entry := some pid.toNat }) ∧
      s'.runqueue_bitcache.testBit priority = true ∧
      s'.sched_num_threads = s.sched_num_threads + 1 ∧
      (∀ j, j ≠ pid.toNat → s.sched_runqueues priority ≠ some j →
        s'.sched_threads j = s.sched_threads j) ∧
      (∀ q, q ≠ priority → s'.sched_runqueues q = s.sched_runqueues q) ∧
      (∀ q < SCHED_PRIO_LEVELS, q ≠ priority →
        s'.runqueue_bitcache.testBit q = s.runqueue_bitcache.testBit q) := by
  obtain ⟨j, hj1, hj2, hj3⟩ := hfree
  obtain ⟨w1, w2, w3, w4, w5, w6⟩ := hwf
  obtain ⟨f1, f2, f3⟩ := find_unused_pid_found cfg s
    (cfg.KERNEL_PID_LAST - cfg.KERNEL_PID_FIRST + 1).toNat cfg.KERNEL_PID_FIRST j w1 hj1
    (by rw [Int.toNat_of_nonneg (by omega)]; omega) hj2 hj3
  have hne : find_unused_pid cfg s (cfg.KERNEL_PID_LAST - cfg.KERNEL_PID_FIRST + 1).toNat
      cfg.KERNEL_PID_FIRST ≠ cfg.KERNEL_PID_UNDEF := by
    rcases w4 with h | h <;> omega
  have hleast := fun k hk1 hk2 => find_unused_pid_least cfg s
    (cfg.KERNEL_PID_LAST - cfg.KERNEL_PID_FIRST + 1).toNat cfg.KERNEL_PID_FIRST k hk1 hk2 hne
  unfold _thread_create_scheduler_internal
  simp only [hne, if_false]
  generalize find_unused_pid cfg s (cfg.KERNEL_PID_LAST - cfg.KERNEL_PID_FIRST + 1).toNat
    cfg.KERNEL_PID_FIRST = pid at *
  have hoff := hstop pid.toNat f3
  have hpend : on_runqueue STATUS_PENDING = true := by decide
  unfold sched_set_status
  simp only [hpend, if_true, State.setThread, Function.update_same, hoff, Bool.not_false, hp]
  have hbit := shl1_u32_testBit priority hp
  cases hq : s.sched_runqueues priority with
  | none =>
    refine ⟨pid, _, rfl, f1, f2, f3, hleast, ?_, ?_, ?_, ?_, ?_, ?_, ?_, ?_, ?_⟩
    · simp [State.setStatus, State.setThread, sm_clist_rpush, hq, State.setRqNext,
        State.setQueue]
    · simp [State.setStatus, State.setThread, sm_clist_rpush, hq, State.setRqNext,
        State.setQueue]
    · intro _
      simp [State.setStatus, State.setThread, sm_clist_rpush, hq, State.setRqNext,
        State.setQueue]
    · intro last hl
      simp at hl
    · simp [State.setStatus, State.setThread, sm_clist_rpush, hq, State.setRqNext,
        State.setQueue, Nat.testBit_lor, hbit priority hp]
    · simp [State.setStatus, State.setThread, sm_clist_rpush, hq, State.setRqNext,
        State.setQueue]
    · intro j hj _
      simp [State.setStatus, State.setThread, sm_clist_rpush, hq, State.setRqNext,
        State.setQueue, Function.update_noteq hj]
    · intro q hqp
      simp [State.setStatus, State.setThread, sm_clist_rpush, hq, State.setRqNext,
        State.setQueue, Function.update_noteq hqp]
    · intro q hq16 hqp
      simp [State.setStatus, State.setThread, sm_clist_rpush, hq, State.setRqNext,
        State.setQueue, Nat.testBit_lor, hbit q hq16, hqp]
  | some last =>
    refine ⟨pid, _, rfl, f1, f2, f3, hleast, ?_, ?_, ?_, ?_, ?_, ?_, ?_, ?_, ?_⟩
    · by_cases hlp : last = pid.toNat
      · subst hlp
        simp [State.setStatus, State.setThread, sm_clist_rpush, hq, State.setRqNext,
          State.setQueue]
      · have hlp2 : pid.toNat ≠ last := fun e => hlp e.symm
        simp [State.setStatus, State.setThread, sm_clist_rpush, hq, State.setRqNext,
          State.setQueue, Function.update_noteq hlp, Function.update_noteq hlp2]
    · simp [State.setStatus, State.setThread, sm_clist_rpush, hq, State.setRqNext,
        State.setQueue]
    · intro h; simp at h
    · intro l hl hne2
      simp at hl
      subst hl
      have hne3 : pid.toNat ≠ last := fun e => hne2 e.symm
      constructor
      · simp [State.setStatus, State.setThread, sm_clist_rpush, hq, State.setRqNext,
          State.setQueue, Function.update_noteq hne2, Function.update_noteq hne3]
      · simp [State.setStatus, State.setThread, sm_clist_rpush, hq, State.setRqNext,
          State.setQueue, Function.update_noteq hne2, Function.update_noteq hne3]
    · simp [State.setStatus, State.setThread, sm_clist_rpush, hq, State.setRqNext,
        State.setQueue, Nat.testBit_lor, hbit priority hp]
    · simp [State.setStatus, State.setThread, sm_clist_rpush, hq, State.setRqNext,
        State.setQueue]
    · intro j hj hjl
      have hjl2 : j ≠ last := fun e => hjl (by rw [e])
      simp [State.setStatus, State.setThread, sm_clist_rpush, hq, State.setRqNext,
        State.setQueue, Function.update_noteq hj, Function.update_noteq hjl2]
    · intro q hqp
      simp [State.setStatus, State.setThread, sm_clist_rpush, hq, State.setRqNext,
        State.setQueue, Function.update_noteq hqp]
    · intro q hq16 hqp
      simp [State.setStatus, State.setThread, sm_clist_rpush, hq, State.setRqNext,
        State.setQueue, Nat.testBit_lor, hbit q hq16, hqp]

set_option maxRecDepth 100000 in
/-- C11, counterexample. From the initial state a first thread is created at priority 5 and
gets pid 1; its node is alone on the ring and points to itself. The creation of a second
thread at priority 5 returns pid 2 and links the new node behind thread 1: the control block
of thread 1, which is not the created one, has changed in its field `rq_entry.next`. -/
theorem create_changes_last_node :
    ∃ s1 s2,
      _thread_create_scheduler_internal riotConfig 5 false 0x300 (State.init riotConfig)
        = some (1, s1) ∧
      _thread_create_scheduler_internal riotConfig 5 false 0x400 s1 = some (2, s2) ∧
      (s1.sched_threads 1).rq_entry = some 1 ∧ (s2.sched_threads 1).rq_entry = some 2 ∧
      s2.sched_threads 1 ≠ s1.sched_threads 1 := by
  refine ⟨_, _, rfl, rfl, ?_, ?_, ?_⟩ <;> decide

/-- C11, witness: the first creation from the initial state, at priority 5. -/
theorem create_internal_success_witness :
    riotConfig.wf ∧ 5 < SCHED_PRIO_LEVELS ∧
    ∃ pid s', _thread_create_scheduler_internal riotConfig 5 false 0x300
        (State.init riotConfig) = some (pid, s') ∧
      s'.sched_runqueues 5 = some pid.toNat ∧
      s'.sched_num_threads = (State.init riotConfig).sched_num_threads + 1 := by
  refine ⟨by decide, by decide, ?_⟩
  obtain ⟨pid, s', h1, _, _, _, _, _, h7, _, _, _, h11, _⟩ :=
    create_internal_success riotConfig (by decide) 5 false 0x300 (State.init riotConfig)
      (by decide) ⟨1, by decide, by decide, rfl⟩ (fun _ _ => rfl)
  exact ⟨pid, s', h1, h7, h11⟩

/-! ## C12: creation with `THREAD_CREATE_SLEEPING` -/

set_option maxRecDepth 100000 in
/-- C12, the code at the failing input. `thread_create` reads its argument `flags` only in
the test of `THREAD_CREATE_WOUT_YIELD`, so a call with `THREAD_CREATE_SLEEPING` set has the
result of the call without it. From the initial state, a thread created with
`THREAD_CREATE_SLEEPING | THREAD_CREATE_WOUT_YIELD` at priority 3 is `STATUS_PENDING` and
linked in `sched_runqueues[3]`, and `sched_run_internal` selects it. With threads 1 and 2 at
priority 5 and thread 1 running, a thread created with `THREAD_CREATE_SLEEPING` at
priority 3 gets pid 3 and is the running thread when `thread_create` returns; no call of
`thread_wakeup` was made. -/
theorem thread_create_sleeping_flag_ignored :
    (∀ cfg passes r1 stack stacksize priority flags s,
      thread_create cfg passes r1 stack stacksize priority (flags ||| THREAD_CREATE_SLEEPING) s
        = thread_create cfg passes r1 stack stacksize priority flags s) ∧
    (∃ s1 s2, thread_create riotConfig 0 0x2f0 0x500 0x100 3
        (THREAD_CREATE_SLEEPING ||| THREAD_CREATE_WOUT_YIELD) (State.init riotConfig)
          = some (1, s1) ∧
      (s1.sched_threads 1).status = STATUS_PENDING ∧ queue_nodes 33 s1 3 = [1] ∧
      sched_run_internal s1 = some (1, s2) ∧ s2.sched_active_thread = some 1 ∧
      (s2.sched_threads 1).status = STATUS_RUNNING) ∧
    (∃ s1, thread_create riotConfig 0 0x2f0 0x500 0x100 3 THREAD_CREATE_SLEEPING two_threads
        = some (3, s1) ∧
      (s1.sched_threads 3).status = STATUS_RUNNING ∧ s1.sched_active_thread = some 3 ∧
      queue_nodes 33 s1 3 = [3]) := by
  refine ⟨?_, ⟨_, _, rfl, ?_, ?_, rfl, ?_, ?_⟩, ⟨_, rfl, ?_, ?_, ?_⟩⟩
  · intro cfg passes r1 stack stacksize priority flags s
    have h : (flags ||| THREAD_CREATE_SLEEPING) &&& THREAD_CREATE_WOUT_YIELD
        = flags &&& THREAD_CREATE_WOUT_YIELD := by
      unfold THREAD_CREATE_SLEEPING THREAD_CREATE_WOUT_YIELD
      apply Nat.eq_of_testBit_eq
      intro i
      simp only [Nat.testBit_and, Nat.testBit_or]
      by_cases hi : i = 2
      · subst hi
        have h1 : Nat.testBit 1 2 = false := by decide
        rw [h1, Bool.or_false]
      · have h4 : Nat.testBit 4 i = false := by
          have : (4 : Nat) = 2 ^ 2 := rfl
          rw [this, Nat.testBit_two_pow]
          simpa using fun e => hi e.symm
        simp [h4]
    unfold thread_create
    rw [h]
  all_goals decide

/-! ## C13: `thread_wakeup` -/

theorem lpop_frame (p : Nat) (s s1 : State) (r : Option Nat)
    (hl : sm_clist_lpop p s = some (r, s1)) :
    s1 = { s with sched_threads := s1.sched_threads, sched_runqueues := s1.sched_runqueues } := by
  unfold sm_clist_lpop at hl
  cases hq : s.sched_runqueues p with
  | none =>
    simp [hq] at hl
    obtain ⟨_, rfl⟩ := hl
    rfl
  | some last =>
    simp only [hq] at hl
    split at hl
    · simp at hl
      obtain ⟨_, rfl⟩ := hl
      rfl
    · cases hf : (s.sched_threads last).rq_entry with
      | none => simp [hf] at hl
      | some f =>
        simp [hf] at hl
        obtain ⟨_, rfl⟩ := hl
        rfl

theorem lpop_some (p : Nat) (s : State) (last first : Nat)
    (hq : s.sched_runqueues p = some last) (hf : (s.sched_threads last).rq_entry = some first) :
    sm_clist_lpop p s = some (some first,
      if last = first then s.setQueue p none
      else s.setRqNext last (s.sched_threads first).rq_entry) := by
  unfold sm_clist_lpop
  simp only [hq, hf]
  by_cases h : last = first
  · simp [h]
  · simp [h]

theorem lpop_none (p : Nat) (s : State) (hq : s.sched_runqueues p = none) :
    sm_clist_lpop p s = some (none, s) := by
  unfold sm_clist_lpop
  simp only [hq]

theorem sched_set_status_frame (process : Nat) (status : thread_status_t) (s s' : State)
    (h : sched_set_status process status s = some s') :
    s' = { s with sched_threads := s'.sched_threads, sched_runqueues := s'.sched_runqueues,
                  runqueue_bitcache := s'.runqueue_bitcache } := by
  unfold sched_set_status at h
  simp only [] at h
  split at h
  · split at h
    · split at h
      · simp at h
        subst h
        unfold sm_clist_rpush
        cases s.sched_runqueues (s.sched_threads process).priority <;> rfl
      · simp at h
    · simp at h
      subst h
      rfl
  · split at h
    · split at h
      · split at h
        · rename_i r s1 hl
          simp at h
          subst h
          have hs1 := lpop_frame _ _ _ _ hl
          split
          · rw [hs1]; rfl
          · rw [hs1]; rfl
        · simp at h
      · simp at h
    · simp at h
      subst h
      rfl

/-- What `sched_set_status` does when the new status is not an on-runqueue status. -/
theorem sched_set_status_off (process : Nat) (st : thread_status_t) (s : State)
    (hst : on_runqueue st = false)
    (hp : (s.sched_threads process).priority < SCHED_PRIO_LEVELS)
    (hring : ring_closed s (s.sched_threads process).priority) :
    ∃ s', sched_set_status process st s = some s' ∧
      (s'.sched_threads process).status = st ∧
      (∀ j, j ≠ process → (s'.sched_threads j).status = (s.sched_threads j).status) ∧
      (∀ j, s.sched_runqueues (s.sched_threads process).priority ≠ some j →
        (s'.sched_threads j).rq_entry = (s.sched_threads j).rq_entry) ∧
      (∀ q, q ≠ (s.sched_threads process).priority →
        s'.sched_runqueues q = s.sched_runqueues q) ∧
      (∀ q < SCHED_PRIO_LEVELS, q ≠ (s.sched_threads process).priority →
        s'.runqueue_bitcache.testBit q = s.runqueue_bitcache.testBit q) ∧
      (on_runqueue (s.sched_threads process).status = false →
        s'.sched_runqueues = s.sched_runqueues ∧
        s'.runqueue_bitcache = s.runqueue_bitcache ∧
        ∀ j, (s'.sched_threads j).rq_entry = (s.sched_threads j).rq_entry) ∧
      (on_runqueue (s.sched_threads process).status = true →
        ∀ last first, s.sched_runqueues (s.sched_threads process).priority = some last →
          (s.sched_threads last).rq_entry = some first →
          (last = first →
            s'.sched_runqueues (s.sched_threads process).priority = none ∧
            s'.runqueue_bitcache.testBit (s.sched_threads process).priority = false ∧
            ∀ j, (s'.sched_threads j).rq_entry = (s.sched_threads j).rq_entry) ∧
          (last ≠ first →
            s'.sched_runqueues (s.sched_threads process).priority = some last ∧
            (s'.sched_threads last).rq_entry = (s.sched_threads first).rq_entry ∧
            s'.runqueue_bitcache = s.runqueue_bitcache)) := by
  have hbit := not_shl1_u32_testBit _ hp
  unfold sched_set_status
  simp only [hst]
  cases hon : on_runqueue (s.sched_threads process).status with
  | false =>
    refine ⟨_, rfl, ?_, ?_, ?_, ?_, ?_, ?_, ?_⟩
    · simp [State.setStatus, State.setThread]
    · intro j hj; simp [State.setStatus, State.setThread, Function.update_noteq hj]
    · intro j _
      by_cases hj : j = process
      · subst hj; simp [State.setStatus, State.setThread]
      · simp [State.setStatus, State.setThread, Function.update_noteq hj]
    · intro q _; rfl
    · intro q _ _; rfl
    · intro _
      refine ⟨rfl, rfl, fun j => ?_⟩
      by_cases hj : j = process
      · subst hj; simp [State.setStatus, State.setThread]
      · simp [State.setStatus, State.setThread, Function.update_noteq hj]
    · intro h; simp at h
  | true =>
    have hft : ¬ (false = true) := by decide
    simp only [if_true, hp, hft, if_false]
    cases hq : s.sched_runqueues (s.sched_threads process).priority with
    | none =>
      rw [lpop_none _ _ hq]
      simp only [hq, Option.isNone_none, if_true]
      refine ⟨_, rfl, ?_, ?_, ?_, ?_, ?_, ?_, ?_⟩
      · simp [State.setStatus, State.setThread]
      · intro j hj; simp [State.setStatus, State.setThread, Function.update_noteq hj]
      · intro j _
        by_cases hj : j = process
        · subst hj; simp [State.setStatus, State.setThread]
        · simp [State.setStatus, State.setThread, Function.update_noteq hj]
      · intro q _; rfl
      · intro q hq16 hqp
        simp [State.setStatus, State.setThread, Nat.testBit_land, hbit q hq16, hqp]
      · intro h; simp at h
      · intro _ last first hl; simp at hl
    | some last =>
      unfold ring_closed at hring
      simp only [hq] at hring
      cases hf : (s.sched_threads last).rq_entry with
      | none => exact absurd hf hring
      | some first =>
        rw [lpop_some _ _ _ _ hq hf]
        by_cases hlf : last = first
        · subst hlf
          simp only [if_true, State.setQueue, Function.update_same, Option.isNone_none]
          refine ⟨_, rfl, ?_, ?_, ?_, ?_, ?_, ?_, ?_⟩
          · simp [State.setStatus, State.setThread]
          · intro j hj; simp [State.setStatus, State.setThread, Function.update_noteq hj]
          · intro j _
            by_cases hj : j = process
            · subst hj; simp [State.setStatus, State.setThread]
            · simp [State.setStatus, State.setThread, Function.update_noteq hj]
          · intro q hqp
            simp [State.setStatus, State.setThread, Function.update_noteq hqp]
          · intro q hq16 hqp
            simp [State.setStatus, State.setThread, Nat.testBit_land, hbit q hq16, hqp]
          · intro h; simp at h
          · intro _ l f hl hfl
            simp at hl
            subst hl
            rw [hf] at hfl
            simp at hfl
            subst hfl
            refine ⟨fun _ => ⟨?_, ?_, ?_⟩, fun h => absurd rfl h⟩
            · simp [State.setStatus, State.setThread]
            · simp [State.setStatus, State.setThread, Nat.testBit_land, hbit _ hp]
            · intro j
              by_cases hj : j = process
              · subst hj; simp [State.setStatus, State.setThread]
              · simp [State.setStatus, State.setThread, Function.update_noteq hj]
        · simp only [hlf, if_false]
          have hisn : ((s.setRqNext last (s.sched_threads first).rq_entry).sched_runqueues
              (s.sched_threads process).priority).isNone = false := by
            simp [State.setRqNext, State.setThread, hq]
          simp only [hisn]
          refine ⟨_, rfl, ?_, ?_, ?_, ?_, ?_, ?_, ?_⟩
          · simp [State.setStatus, State.setThread]
          · intro j hj
            by_cases hjl : j = last
            · subst hjl
              simp [State.setStatus, State.setThread, State.setRqNext, Function.update_noteq hj]
            · simp [State.setStatus, State.setThread, State.setRqNext, Function.update_noteq hj,
                Function.update_noteq hjl]
          · intro j hjl
            have hjl2 : j ≠ last := fun e => hjl (by rw [e])
            by_cases hj : j = process
            · subst hj
              simp [State.setStatus, State.setThread, State.setRqNext,
                Function.update_noteq hjl2]
            · simp [State.setStatus, State.setThread, State.setRqNext,
                Function.update_noteq hj, Function.update_noteq hjl2]
          · intro q _; rfl
          · intro q _ _; rfl
          · intro h; simp at h
          · intro _ l f hl hfl
            simp at hl
            subst hl
            rw [hf] at hfl
            simp at hfl
            subst hfl
            refine ⟨fun h => absurd h hlf, fun _ => ⟨?_, ?_, rfl⟩⟩
            · simp [State.setStatus, State.setThread, State.setRqNext, hq]
            · by_cases hj : last = process
              · subst hj
                simp [State.setStatus, State.setThread, State.setRqNext]
              · simp [State.setStatus, State.setThread, State.setRqNext,
                  Function.update_noteq hj]

/-- C14, amended. Called when `sched_active_pid` is `KERNEL_PID_UNDEF`,
`sched_task_exit_internal` changes nothing. Called while thread `a` is active, with
`sched_active_pid` its index, its priority below `SCHED_PRIO_LEVELS` and the ring of its run
queue closed, it sets `in_use` of `a` to false and its status to `STATUS_STOPPED`, leaving
the other fields of `a` apart from `rq_entry.next`; it decrements `sched_num_threads` by one
and sets `sched_active_thread` to `NULL`. Every other control block keeps all its fields but
`rq_entry.next`, and is unchanged altogether unless it is the last node of the run queue of
`a`; the other run queues and the other bits of the bitmap are unchanged. If `a` was on the
run queue as its first node, it is unlinked: when it was the only node the queue is empty
and the bit of its priority is cleared, otherwise the last node now points to the successor
of `a` and the bitmap is unchanged. -/
theorem sched_task_exit_internal_contract (cfg : Config) (s : State) :
    (s.sched_active_pid = cfg.KERNEL_PID_UNDEF → sched_task_exit_internal cfg s = some s) ∧
    ∀ a, s.sched_active_thread = some a → s.sched_active_pid = (a : Int) →
      s.sched_active_pid ≠ cfg.KERNEL_PID_UNDEF → (a : Int) ≤ cfg.KERNEL_PID_LAST →
      (s.sched_threads a).priority < SCHED_PRIO_LEVELS →
      ring_closed s (s.sched_threads a).priority →
      ∃ s', sched_task_exit_internal cfg s = some s' ∧
        s'.sched_threads a =
          { s.sched_threads a with
            in_use := false, status := STATUS_STOPPED,
            rq_entry := (s'.sched_threads a).rq_entry } ∧
        s'.sched_num_threads = s.sched_num_threads - 1 ∧
        s'.sched_active_thread = none ∧
        (∀ j, j ≠ a → s.sched_runqueues (s.sched_threads a).priority ≠ some j →
          s'.sched_threads j = s.sched_threads j) ∧
        (∀ j, j ≠ a → s'.sched_threads j =
          { s.sched_threads j with rq_entry := (s'.sched_threads j).rq_entry }) ∧
        (∀ q, q ≠ (s.sched_threads a).priority → s'.sched_runqueues q = s.sched_runqueues q) ∧
        (∀ q < SCHED_PRIO_LEVELS, q ≠ (s.sched_threads a).priority →
          s'.runqueue_bitcache.testBit q = s.runqueue_bitcache.testBit q) ∧
        (on_runqueue (s.sched_threads a).status = true →
          ∀ last, s.sched_runqueues (s.sched_threads a).priority = some last →
            (s.sched_threads last).rq_entry = some a →
            (last = a →
              s'.sched_runqueues (s.sched_threads a).priority = none ∧
              s'.runqueue_bitcache.testBit (s.sched_threads a).priority = false) ∧
            (last ≠ a →
              s'.sched_runqueues (s.sched_threads a).priority = some last ∧
              (s'.sched_threads last).rq_entry = (s.sched_threads a).rq_entry ∧
              s'.runqueue_bitcache = s.runqueue_bitcache)) := by
  constructor
  · intro h
    unfold sched_task_exit_internal
    simp [h]
  · intro a hact hpid hne hlast hp hring
    have hstop : on_runqueue STATUS_STOPPED = false := by decide
    have hrange : 0 ≤ s.sched_active_pid ∧ s.sched_active_pid ≤ cfg.KERNEL_PID_LAST := by
      rw [hpid]; exact ⟨Int.natCast_nonneg a, hlast⟩
    have hidx : s.sched_active_pid.toNat = a := by rw [hpid]; exact Int.toNat_natCast a
    unfold sched_task_exit_internal
    simp only [hne, ne_eq, not_false_eq_true, if_true, hrange, and_self, hidx]
    -- the state in which `sched_set_status` is called
    have key : ∀ s2 : State,
        s2.sched_threads = Function.update s.sched_threads a
          { s.sched_threads a with in_use := false } →
        s2.sched_runqueues = s.sched_runqueues →
        s2.runqueue_bitcache = s.runqueue_bitcache →
        ∃ s3, sched_set_status a STATUS_STOPPED s2 = some s3 ∧
          s3.sched_threads a =
            { s.sched_threads a with
              in_use := false, status := STATUS_STOPPED,
              rq_entry := (s3.sched_threads a).rq_entry } ∧
          s3.sched_num_threads = s2.sched_num_threads ∧
          (∀ j, j ≠ a → s.sched_runqueues (s.sched_threads a).priority ≠ some j →
            s3.sched_threads j = s.sched_threads j) ∧
          (∀ j, j ≠ a → s3.sched_threads j =
            { s.sched_threads j with rq_entry := (s3.sched_threads j).rq_entry }) ∧
          (∀ q, q ≠ (s.sched_threads a).priority →
            s3.sched_runqueues q = s.sched_runqueues q) ∧
          (∀ q < SCHED_PRIO_LEVELS, q ≠ (s.sched_threads a).priority →
            s3.runqueue_bitcache.testBit q = s.runqueue_bitcache.testBit q) ∧
          (on_runqueue (s.sched_threads a).status = true →
            ∀ last, s.sched_runqueues (s.sched_threads a).priority = some last →
              (s.sched_threads last).rq_entry = some a →
              (last = a →
                s3.sched_runqueues (s.sched_threads a).priority = none ∧
                s3.runqueue_bitcache.testBit (s.sched_threads a).priority = false) ∧
              (last ≠ a →
                s3.sched_runqueues (s.sched_threads a).priority = some last ∧
                (s3.sched_threads last).rq_entry = (s.sched_threads a).rq_entry ∧
                s3.runqueue_bitcache = s.runqueue_bitcache)) := by
      intro s2 h2t h2q h2b
      have h2a : s2.sched_threads a = { s.sched_threads a with in_use := false } := by
        rw [h2t]; simp
      have h2o : ∀ j, j ≠ a → s2.sched_threads j = s.sched_threads j := by
        intro j hj; rw [h2t]; simp [Function.update_noteq hj]
      have h2rq : ∀ j, (s2.sched_threads j).rq_entry = (s.sched_threads j).rq_entry := by
        intro j
        by_cases hj : j = a
        · subst hj; rw [h2a]
        · rw [h2o j hj]
      have hp2 : (s2.sched_threads a).priority = (s.sched_threads a).priority := by rw [h2a]
      have hst2 : (s2.sched_threads a).status = (s.sched_threads a).status := by rw [h2a]
      have hring2 : ring_closed s2 (s2.sched_threads a).priority := by
        unfold ring_closed at hring ⊢
        rw [hp2, h2q]
        cases hq : s.sched_runqueues (s.sched_threads a).priority with
        | none => trivial
        | some last =>
          simp only [hq] at hring ⊢
          rw [h2rq]; exact hring
      obtain ⟨s3, e1, e2, e3, e4, e5, e6, e7, e8⟩ :=
        sched_set_status_off a STATUS_STOPPED s2 hstop (by rw [hp2]; exact hp) hring2
      rw [hp2, h2q] at e4 e5 e8
      rw [hp2] at e6
      rw [hst2] at e7 e8
      have hd := fun j => (sched_set_status_thread_data _ _ _ _ e1 j).1
      have hnum := (sched_set_status_thread_data _ _ _ _ e1 a).2
      refine ⟨s3, e1, ?_, hnum, ?_, ?_, e5, ?_, ?_⟩
      · have := hd a
        unfold same_thread_data at this
        rw [this, h2a, e2]
      · intro j hj hjl
        have h1 := hd j
        unfold same_thread_data at h1
        rw [h1, e3 j hj, e4 j hjl, h2o j hj]
      · intro j hj
        have h1 := hd j
        unfold same_thread_data at h1
        rw [h1, e3 j hj, h2o j hj]
      · intro q hq16 hqp
        rw [e6 q hq16 hqp, h2b]
      · intro hon last hl hf
        have hf2 : (s2.sched_threads last).rq_entry = some a := by rw [h2rq]; exact hf
        obtain ⟨c1, c2⟩ := e8 hon last a hl hf2
        refine ⟨fun h => ⟨(c1 h).1, (c1 h).2.1⟩, fun h => ?_⟩
        obtain ⟨d1, d2, d3⟩ := c2 h
        exact ⟨d1, by rw [d2, h2rq], by rw [d3, h2b]⟩
    simp only [State.setThread, hact]
    obtain ⟨s3, e1, e2, e3, e4, e5, e6, e7, e8⟩ := key
      { s with sched_threads := Function.update s.sched_threads a
                 { s.sched_threads a with in_use := false },
               sched_num_threads := s.sched_num_threads - 1,
               sched_active_thread := some a } rfl rfl rfl
    split
    · rename_i heq
      exact absurd (e1.symm.trans heq) (by simp)
    · rename_i s3' heq
      have h33 : s3 = s3' := Option.some.inj (e1.symm.trans heq)
      subst h33
      exact ⟨_, rfl, e2, e3, rfl, e4, e5, e6, e7, e8⟩

set_option maxRecDepth 100000 in
/-- C14, counterexample. Threads 1 and 2 have priority 5, thread 1 is active and the first
node of the queue, thread 2 the last. `sched_task_exit_internal` unlinks thread 1 by
storing the successor of thread 1 in the node of thread 2: the control block of thread 2,
which is not the exiting thread, has changed in its field `rq_entry.next`. -/
theorem sched_task_exit_changes_last_node :
    two_threads.sched_active_thread = some 1 ∧ two_threads.sched_active_pid = 1 ∧
    queue_nodes 33 two_threads 5 = [1, 2] ∧
    ∃ s1, sched_task_exit_internal riotConfig two_threads = some s1 ∧
      (two_threads.sched_threads 2).rq_entry = some 1 ∧
      (s1.sched_threads 2).rq_entry = some 2 ∧
      s1.sched_threads 2 ≠ two_threads.sched_threads 2 ∧
      queue_nodes 33 s1 5 = [2] := by
  refine ⟨by decide, by decide, by decide, _, rfl, ?_, ?_, ?_, ?_⟩ <;> decide

set_option maxRecDepth 100000 in
/-- C14, witness: the exit of thread 1 in the state with threads 1 and 2 at priority 5. -/
theorem sched_task_exit_internal_contract_witness :
    two_threads.sched_active_thread = some 1 ∧
    ∃ s', sched_task_exit_internal riotConfig two_threads = some s' ∧
      s'.sched_num_threads = two_threads.sched_num_threads - 1 ∧
      s'.sched_active_thread = none := by
  obtain ⟨s', h1, _, h3, h4, _⟩ :=
    (sched_task_exit_internal_contract riotConfig two_threads).2 1 (by decide) (by decide)
      (by decide) (by decide) (by decide) (by decide)
  exact ⟨by decide, s', h1, h3, h4⟩

set_option maxRecDepth 100000 in
/-- The exit of an active thread that is not the first node of its run queue. Threads 1 and
2 are at the periodic level, thread 1 is active and the last node of the queue, thread 2 is
pending and the first node. `sched_task_exit_internal` marks thread 1 stopped and not in
use, but the node popped by `sched_set_status` is that of thread 2: thread 1 stays linked in
`sched_runqueues[1]` and thread 2, still `STATUS_PENDING`, is linked nowhere. -/
theorem sched_task_exit_periodic_pair :
    periodic_pair.sched_active_thread = some 1 ∧ queue_nodes 33 periodic_pair 1 = [2, 1] ∧
    ∃ s1, sched_task_exit_internal riotConfig periodic_pair = some s1 ∧
      (s1.sched_threads 1).status = STATUS_STOPPED ∧ (s1.sched_threads 1).in_use = false ∧
      queue_nodes 33 s1 1 = [1] ∧ (s1.sched_threads 2).status = STATUS_PENDING := by
  refine ⟨by decide, by decide, _, rfl, ?_, ?_, ?_, ?_⟩ <;> decide

/-! ## C15: `mutex_unlock` -/

set_option maxRecDepth 100000 in
/-- C16, the code at the failing input. On an unlocked mutex `_mutex_lock` returns 1, makes
the mutex `mutex_LOCKED` and leaves the state as it is; on a locked mutex with
`blocking = 0` it returns 0 and changes nothing; with `blocking != 0` it runs
`mutex_lock_block` and then `thread_yield_higher`. The failing input: threads 1 and 2 are
at the periodic level, thread 1 is active and the last node of the run queue, thread 2 is the
first node, and the mutex is locked without waiters. The caller, thread 1, becomes
`STATUS_MUTEX_BLOCKED` and the only waiter, but it does not leave its run queue:
`sched_set_status` pops the first node, thread 2, so `sched_runqueues[1]` still points to
thread 1, whose `rq_entry.next` is now `NULL`, the bit of the queue stays set, thread 2 is
`STATUS_PENDING` and linked in no queue, and the next `sched_run_internal` reads the first
node through `NULL`. For comparison, callers that are the first node of their run queue
(threads 4, 1, 2 with priorities 3, 5, 5, blocking in the order 4, 1, 2) leave the queue and
wait in the order 4, 1, 2. -/
theorem mutex_lock_caller_stays_linked :
    (∀ cfg passes r1 uc (mutex : mutex_t) blocking s, mutex.queue = list_ptr.null →
      _mutex_lock cfg passes r1 uc mutex blocking s
        = some (1, { mutex with queue := list_ptr.LOCKED }, s)) ∧
    (∀ cfg passes r1 uc (mutex : mutex_t) s, mutex.queue ≠ list_ptr.null →
      _mutex_lock cfg passes r1 uc mutex 0 s = some (0, mutex, s)) ∧
    (∀ cfg passes r1 uc (mutex : mutex_t) blocking s, mutex.queue ≠ list_ptr.null →
      blocking ≠ 0 →
      _mutex_lock cfg passes r1 uc mutex blocking s
        = (mutex_lock_block cfg mutex s).bind (fun r =>
            (thread_yield_higher cfg passes r1 uc r.2).map (fun s2 => (1, r.1, s2)))) ∧
    (periodic_pair.sched_active_thread = some 1 ∧
      (periodic_pair.sched_threads 1).status = STATUS_RUNNING ∧
      queue_nodes 33 periodic_pair 1 = [2, 1] ∧
      ∃ m1 s1, mutex_lock_block riotConfig mutex_INIT_LOCKED periodic_pair = some (m1, s1) ∧
        m1.queue = list_ptr.node 1 ∧
        (s1.sched_threads 1).status = STATUS_MUTEX_BLOCKED ∧
        s1.sched_runqueues 1 = some 1 ∧ (s1.sched_threads 1).rq_entry = none ∧
        s1.runqueue_bitcache.testBit 1 = true ∧
        (s1.sched_threads 2).status = STATUS_PENDING ∧
        (∀ p < SCHED_PRIO_LEVELS, 2 ∉ queue_nodes 33 s1 p) ∧
        sched_run_internal s1 = none ∧
        _mutex_lock riotConfig 0 0x2f0 false mutex_INIT_LOCKED 1 periodic_pair = none) ∧
    (mutex_waiters 33 three_blocked.1 three_blocked.2 = some [4, 1, 2] ∧
      [4, 1, 2].map (fun i => (three_blocked.2.sched_threads i).priority) = [3, 5, 5] ∧
      (∀ i ∈ [4, 1, 2],
        (three_blocked.2.sched_threads i).status = STATUS_MUTEX_BLOCKED ∧
        ∀ p < SCHED_PRIO_LEVELS, i ∉ queue_nodes 33 three_blocked.2 p)) := by
  refine ⟨?_, ?_, ?_, ⟨by decide, by decide, by decide, _, _, rfl, by decide, by decide,
    by decide, by decide, by decide, by decide, by decide, rfl, rfl⟩,
    ⟨by decide, by decide, by decide⟩⟩
  · intro cfg passes r1 uc mutex blocking s h
    unfold _mutex_lock
    simp [h]
  · intro cfg passes r1 uc mutex s h
    unfold _mutex_lock
    simp [h]
  · intro cfg passes r1 uc mutex blocking s h hb
    unfold _mutex_lock
    simp only [h, hb, if_false, ne_eq, not_false_eq_true, if_true]
    cases mutex_lock_block cfg mutex s with
    | none => rfl
    | some r =>
      obtain ⟨m1, s1⟩ := r
      simp only [Option.bind]
      cases thread_yield_higher cfg passes r1 uc s1 <;> rfl

/-! ## C17: the overhead correction of an absolute target -/

set_option maxRecDepth 100000 in
/-- C17, the code at the failing input. `SECURE_MINTIMER_BACKOFF` is 200 and
`SECURE_MINTIMER_OVERHEAD` is 300. At time 1000 of the first 32-bit period a timer is armed
with the target 1250: the offset 250 is greater than the backoff, so the timer is queued.
The corrected value `target - SECURE_MINTIMER_OVERHEAD` is 950, which is earlier than `now`,
and `_secure_mintimer_set_absolute_explicit` takes this for a wrap of the 32-bit clock: the
timer gets `long_target = long_count + 1` and is linked in the long list, although its
target lies in the current 32-bit period. -/
theorem set_absolute_overhead_below_now :
    SECURE_MINTIMER_BACKOFF = 200 ∧ SECURE_MINTIMER_OVERHEAD = 300 ∧
    _secure_mintimer_now (booted_at 1000) = 1000 ∧
    (1250 + U32 - _secure_mintimer_now (booted_at 1000)) % U32 = 250 ∧
    (1250 + U32 - SECURE_MINTIMER_OVERHEAD) % U32 = 950 ∧
    ∃ s1, _secure_mintimer_set_absolute (some (.pool 0)) 1250 (booted_at 1000) = some (0, s1) ∧
      s1.long_cnt = 0 ∧ (s1.getTimer (.pool 0)).target = 1250 ∧
      (s1.getTimer (.pool 0)).long_target = 1 ∧
      timer_list s1 .long = some [.pool 0] ∧ timer_list s1 .short = some [] ∧
      timer_list s1 .overflow = some [] := by
  refine ⟨rfl, rfl, by decide, by decide, by decide, _, rfl, ?_, ?_, ?_, ?_, ?_, ?_⟩ <;> decide

/-! ## C19: the overflow tick -/

set_option maxRecDepth 100000 in
/-- C19, the code at the failing input. The overflow list holds the timer `pool 0` (target
1300) and the long list the timer `pool 1` (target `0x10000 + 1000`, `long_target = 0`),
both ascending. `_merge_lists` on these two one-node lists returns the list that holds
`pool 0` only: the loop advances both heads before it looks at them, so the node that lost
the first comparison is never linked. `_next_period` sets `high_count` to `0x10000`, empties
the overflow list and selects `pool 1` from the long list, and the short list it leaves is
`[pool 0]`: `pool 1` is in no list any more. -/
theorem merge_lists_drops_node :
    timer_list overflow_and_long .short = some [] ∧
    timer_list overflow_and_long .overflow = some [.pool 0] ∧
    timer_list overflow_and_long .long = some [.pool 1] ∧
    (overflow_and_long.getTimer (.pool 1)).long_target ≤ overflow_and_long.long_cnt ∧
    (overflow_and_long.getTimer (.pool 1)).target &&& SECURE_MINTIMER_MASK = 0x10000 ∧
    (∃ r s1, _merge_lists (.pool 0) (.pool 1) overflow_and_long = some (r, s1) ∧
      timer_chain s1 TIMER_NODES (some r) = some [.pool 0]) ∧
    ∃ s', _next_period overflow_and_long = some s' ∧
      s'.secure_mintimer_high_cnt = 0x10000 ∧
      timer_list s' .short = some [.pool 0] ∧ timer_list s' .overflow = some [] ∧
      timer_list s' .long = some [] := by
  refine ⟨by decide, by decide, by decide, by decide, by decide, ⟨_, _, rfl, by decide⟩,
    _, rfl, by decide, by decide, by decide, by decide⟩

/-! ## C28: termination of the loop on `last_reference` -/

theorem periodic_reference_loop_cycle (fuel : Nat) :
    periodic_reference_loop (2 ^ 31) (2 ^ 31 + 5) fuel 1 = none ∧
    periodic_reference_loop (2 ^ 31) (2 ^ 31 + 5) fuel (2 ^ 31 + 1) = none := by
  induction fuel with
  | zero => exact ⟨rfl, rfl⟩
  | succ n ih =>
    constructor
    · unfold periodic_reference_loop
      have hc : (1 < 2 ^ 31 + 5 ∧ (2 ^ 31 + 5 + U32 - 1) % U32 < 2 ^ 31 + 5) := by
        unfold U32; decide
      have hn : (1 + 2 ^ 31) % U32 = 2 ^ 31 + 1 := by unfold U32; decide
      rw [if_pos hc, hn]
      exact ih.2
    · unfold periodic_reference_loop
      have hc : (2 ^ 31 + 1 < 2 ^ 31 + 5 ∧
          (2 ^ 31 + 5 + U32 - (2 ^ 31 + 1)) % U32 < 2 ^ 31 + 5) := by
        unfold U32; decide
      have hn : (2 ^ 31 + 1 + 2 ^ 31) % U32 = 1 := by unfold U32; decide
      rw [if_pos hc, hn]
      exact ih.1

/-- C28, the code at the failing input. A thread has `period = 2^31` and
`last_reference = 1`, and `current_time` is `2^31 + 5`. Both tests of the loop condition
hold for `last_reference = 1` and for `last_reference = 2^31 + 1`, and adding the period
modulo `2^32` maps each of the two values to the other: the loop condition holds in every
iteration, whatever the number of iterations allowed, and
`periodic_thread_schedule_next_timer` does not come back for such a thread. -/
theorem periodic_loop_does_not_terminate :
    (0 < 2 ^ 31 ∧ 2 ^ 31 < U32 ∧ 2 ^ 31 + 5 < U32) ∧
    (1 + 2 ^ 31) % U32 = 2 ^ 31 + 1 ∧ (2 ^ 31 + 1 + 2 ^ 31) % U32 = 1 ∧
    (∀ fuel, periodic_reference_loop (2 ^ 31) (2 ^ 31 + 5) fuel 1 = none) ∧
    ∀ s : State, ∀ t, (s.sched_threads t).period = 2 ^ 31 →
      (s.sched_threads t).last_reference = 1 →
      periodic_thread_schedule_next_timer t (2 ^ 31 + 5) s = none := by
  refine ⟨by unfold U32; decide, by unfold U32; decide, by unfold U32; decide,
    fun fuel => (periodic_reference_loop_cycle fuel).1, ?_⟩
  intro s t hp hl
  unfold periodic_thread_schedule_next_timer
  simp only [hp, hl, (periodic_reference_loop_cycle (U32 + 1)).1]

/-! ## C30: `sched_yield` without an active thread -/

set_option maxRecDepth 100000 in
/-- C30, the code at the failing input. The first `if` of `sched_yield` tests `me != NULL`,
the second one reads `me->priority` without such a test. With `sched_active_thread = NULL`
the call therefore reads a field of the control block through the null pointer and has no
defined result, in every state. This is the path of the entry stub on BOOT before any thread
runs (one thread created, none active) and on EXIT, after `sched_task_exit_internal` has set
`sched_active_thread` to `NULL`. -/
theorem sched_yield_reads_null :
    (∀ s : State, s.sched_active_thread = none → sched_yield s = none) ∧
    (∃ s1, thread_create_unprotected_in_scheduler riotConfig 5 0x300 (State.init riotConfig)
        = some (1, s1) ∧ s1.sched_active_thread = none ∧
      exitless_entry riotConfig 0 EXITLESS_FUNCTION_TYPE_BOOT 0x2f0 0 0 true s1 = none) ∧
    (∃ s1, sched_task_exit_internal riotConfig two_threads = some s1 ∧
      s1.sched_active_thread = none ∧ sched_yield s1 = none ∧
      exitless_entry riotConfig 0 EXITLESS_FUNCTION_TYPE_EXIT 0x2f0 0 0 true two_threads
        = none) := by
  refine ⟨?_, ⟨_, rfl, by decide, rfl⟩, ⟨_, rfl, by decide, rfl, rfl⟩⟩
  intro s h
  unfold sched_yield
  simp only [h]

/-! ## C29: ownership of the soft timers -/

set_option maxRecDepth 100000 in
/-- C29, the code at the failing input. Thread 1 is the running periodic thread in its
second job; `sched_run_internal` armed `scheduler_timer` for it when it selected it, the
timer is the only node of the short list and the ownership invariant holds. At time 3400,
before that timer has fired, `sched_run_internal` runs again (no switch requested), finds the
job within its budget and keeps the thread; at its end it re-arms `scheduler_timer` through
`_secure_mintimer_set_absolute_explicit` without removing it first. The timer is inserted
behind itself: its `next` field points to itself, the short list does not end any more and
the invariant is broken. The same happens when the run switches between two threads of the
periodic level (threads 1 and 2, a switch requested), there in the long list. -/
theorem sched_run_rearms_linked_timer :
    (timer_ownership_inv periodic_second_job ∧
      timer_list periodic_second_job .short = some [.sched] ∧
      periodic_second_job.sched_active_thread = some 1 ∧
      (sched_run_internal { periodic_second_job with TAR := 3400 }).map
          (fun r => (r.1, r.2.sched_active_thread, r.2.timer_list_head,
            r.2.scheduler_timer.next))
        = some (0, some 1, some .sched, some .sched) ∧
      (sched_run_internal { periodic_second_job with TAR := 3400 }).map
          (fun r => (timer_list r.2 .short, decide (timer_lists_wf r.2),
            decide (timer_ownership_inv r.2)))
        = some (none, false, false)) ∧
    (timer_ownership_inv periodic_pair ∧
      timer_list periodic_pair .long = some [.sched] ∧
      periodic_pair.sched_active_thread = some 1 ∧
      ∃ s', sched_run_internal { periodic_pair with sched_context_switch_request := 1 }
          = some (1, s') ∧
        s'.sched_active_thread = some 2 ∧
        s'.long_list_head = some .sched ∧ s'.scheduler_timer.next = some .sched ∧
        timer_list s' .long = none ∧ ¬ timer_lists_wf s' ∧ ¬ timer_ownership_inv s') := by
  refine ⟨⟨by decide!, by decide!, by decide!, by decide!, by decide!⟩,
    ⟨by decide, by decide, by decide, _, rfl, by decide, by decide, by decide, by decide,
      by decide, by decide⟩⟩

/-! ## C24: the next reference point of a periodic thread -/

set_option maxRecDepth 100000 in
/-- C24, the code at the failing input. Thread 1 is periodic with `period = 1000` and
`last_reference = 1000` and is running; no 32-bit wrap is near. At `now = 3000`
`periodic_thread_schedule_next_timer` leaves the loop as soon as `last_reference` is not
below `now`: the new value is `1000 + 2 * 1000 = 3000`, equal to `now`, where the least
multiple that is strictly greater gives 4000. The wake-up timer is then armed with offset
0 and fires at once, so the thread is `STATUS_PENDING` again when the function returns.
`last_runtime` is 0 and `sm_idx` is `original_idx` afterwards. A thread with
`last_reference = 0` is not advanced at all: the second test of the loop fails at the first
iteration for every period and every `current_time`. -/
theorem periodic_next_reference_equals_now :
    periodic_running.sched_active_thread = some 1 ∧
    (periodic_running.sched_threads 1).period = 1000 ∧
    (periodic_running.sched_threads 1).last_reference = 1000 ∧
    periodic_reference_loop 1000 3000 (U32 + 1) 1000 = some 3000 ∧
    (∃ s', periodic_thread_schedule_next_timer 1 3000 { periodic_running with TAR := 3000 }
        = some s' ∧
      (s'.sched_threads 1).last_reference = 3000 ∧
      ¬ (3000 < (s'.sched_threads 1).last_reference) ∧
      (s'.sched_threads 1).last_runtime = 0 ∧
      (s'.sched_threads 1).sm_idx = (s'.sched_threads 1).original_idx ∧
      (s'.sched_threads 1).status = STATUS_PENDING) ∧
    (∀ period current_time fuel, current_time < U32 →
      periodic_reference_loop period current_time (fuel + 1) 0 = some 0) := by
  refine ⟨by decide!, by decide!, by decide!, by decide!, ⟨_, rfl, by decide!, by decide!,
    by decide!, by decide!, by decide!⟩, ?_⟩
  intro period current_time fuel hc
  unfold periodic_reference_loop
  have h : ¬ (0 < current_time ∧ (current_time + U32 - 0) % U32 < current_time) := by
    rintro ⟨h1, h2⟩
    have hU : U32 = 2 ^ 32 := rfl
    rw [hU] at h2
    rw [hU] at hc
    have : (current_time + 2 ^ 32 - 0) % 2 ^ 32 = current_time := by
      rw [Nat.sub_zero, Nat.add_mod_right, Nat.mod_eq_of_lt hc]
    omega
  simp only [h, if_false]

/-! ## C25: the budget of a periodic job -/

set_option maxRecDepth 100000 in
/-- C25, the code at the failing input. Thread 1 is the running periodic thread in its
second job: `last_reference = 3000`, `last_runtime = 0`, `runtime = 500`, and no switch is
requested. At `now = 3100` the job has used 100 ticks, so over the integers the consumed
value `0 + 100 - 300` is negative and below the runtime of 500. The code computes
`last_runtime - SCHEDULER_OVERHEAD_RUN` in `uint32_t`, which wraps to `2^32 - 300`; the sum
`2^32 - 200` is not below 500, and `sched_run_internal` puts thread 1 to sleep until the
next period and switches to thread 2. At `now = 3400`, where the consumed value is 100
and no wrap occurs, the thread keeps running with `last_runtime = 100` and the result is
0. -/
theorem periodic_budget_wraps :
    periodic_second_job.sched_active_thread = some 1 ∧
    (periodic_second_job.sched_threads 1).status = STATUS_RUNNING ∧
    (periodic_second_job.sched_threads 1).priority = SCHED_PERIODIC_PRIO_LEVEL ∧
    periodic_second_job.sched_context_switch_request = 0 ∧
    (periodic_second_job.sched_threads 1).last_reference = 3000 ∧
    (periodic_second_job.sched_threads 1).last_runtime = 0 ∧
    (periodic_second_job.sched_threads 1).runtime = 500 ∧
    ((0 : Int) + (3100 - 3000) - SCHEDULER_OVERHEAD_RUN < 500) ∧
    ((0 + U32 - SCHEDULER_OVERHEAD_RUN) % U32 + (3100 + U32 - 3000) % U32) % U32
      = 2 ^ 32 - 200 ∧
    (sched_run_internal { periodic_second_job with TAR := 3100 }).map
        (fun r => (r.1, (r.2.sched_threads 1).status, r.2.sched_active_thread,
          (r.2.sched_threads 1).last_reference))
      = some (1, STATUS_SLEEPING, some 2, 4000) ∧
    (sched_run_internal { periodic_second_job with TAR := 3400 }).map
        (fun r => (r.1, (r.2.sched_threads 1).status, r.2.sched_active_thread,
          (r.2.sched_threads 1).last_runtime))
      = some (0, STATUS_RUNNING, some 1, 100) := by
  refine ⟨by decide!, by decide!, by decide!, by decide!, by decide!, by decide!, by decide!,
    by decide, by decide, by decide!, by decide!⟩

/-! ## C27: the round trip between ticks and microseconds -/

theorem shift_round_trip_up (m t k : Nat) (h : t * 2 ^ k < m) :
    ((t <<< k) % m) >>> k = t := by
  rw [Nat.shiftLeft_eq, Nat.mod_eq_of_lt h, Nat.shiftRight_eq_div_pow,
    Nat.mul_div_cancel _ (Nat.two_pow_pos k)]

theorem shift_round_trip_down (m t k : Nat) (h : t < m) :
    ((t >>> k) <<< k) % m = t - t % 2 ^ k := by
  rw [Nat.shiftLeft_eq, Nat.shiftRight_eq_div_pow]
  have h1 : t / 2 ^ k * 2 ^ k = t - t % 2 ^ k := by
    have := Nat.div_add_mod t (2 ^ k)
    rw [Nat.mul_comm] at this
    omega
  rw [h1]
  exact Nat.mod_eq_of_lt (by omega)

theorem tick_conversion_select_cases (hz : Nat) (v : tick_conversion_t)
    (hv : tick_conversion_select hz = some v) :
    (∀ k, v = .below k → hz <<< k = 1000000 ∧ 0 < k) ∧
    (∀ k, v = .above k → hz = 1000000 <<< k ∧ 0 < k) := by
  unfold tick_conversion_select at hv
  cases hs : SECURE_MINTIMER_SHIFT hz with
  | none => simp [hs] at hv
  | some shift =>
    simp only [hs] at hv
    by_cases h0 : shift = 0
    · simp only [h0, ne_eq, not_true_eq_false, if_false] at hv
      split at hv
      · cases hv
        exact ⟨fun k hk => (by cases hk), fun k hk => (by cases hk)⟩
      · split at hv
        · cases hv
          exact ⟨fun k hk => (by cases hk), fun k hk => (by cases hk)⟩
        · cases hv
    · simp only [ne_eq, h0, not_false_eq_true, if_true] at hv
      split at hv
      · cases hv
      · split at hv
        · split at hv
          · cases hv
          · rename_i hne
            cases hv
            refine ⟨fun k hk => (by cases hk), fun k hk => ?_⟩
            cases hk
            exact ⟨by simpa using hne, Nat.pos_of_ne_zero h0⟩
        · split at hv
          · cases hv
          · rename_i hne
            cases hv
            refine ⟨fun k hk => ?_, fun k hk => (by cases hk)⟩
            cases hk
            exact ⟨by simpa using hne, Nat.pos_of_ne_zero h0⟩

/-- C27, amended. The tick conversion selected for a frequency is one of four variants. For
1 MHz the conversions are the identity and the round trip returns `t`. For a frequency below
1 MHz (`HZ << SHIFT = 1 MHz`) the round trip returns `t` for every tick count whose
conversion `t << SHIFT` does not overflow, in 32 and in 64 bits. For a frequency above 1 MHz
(`HZ = 1 MHz << SHIFT`) the conversion to microseconds shifts right, and the round trip
returns `t` with its low `SHIFT` bits cleared: it is `t` exactly for the multiples of
`2 ^ SHIFT`. -/
theorem tick_round_trip (hz : Nat) (v : tick_conversion_t)
    (hv : tick_conversion_select hz = some v) :
    (hz = 1000000 → v = .base) ∧
    (v = .base → ∀ t,
      _secure_mintimer_ticks_from_usec v (_secure_mintimer_usec_from_ticks v t) = t ∧
      _secure_mintimer_ticks_from_usec64 v (_secure_mintimer_usec_from_ticks64 v t) = t) ∧
    (∀ shift, v = .below shift → hz <<< shift = 1000000 ∧ 0 < shift ∧
      (∀ t, t * 2 ^ shift < U32 →
        _secure_mintimer_ticks_from_usec v (_secure_mintimer_usec_from_ticks v t) = t) ∧
      (∀ t, t * 2 ^ shift < U64 →
        _secure_mintimer_ticks_from_usec64 v (_secure_mintimer_usec_from_ticks64 v t) = t)) ∧
    (∀ shift, v = .above shift → hz = 1000000 <<< shift ∧ 0 < shift ∧
      (∀ t, t < U32 →
        _secure_mintimer_ticks_from_usec v (_secure_mintimer_usec_from_ticks v t)
          = t - t % 2 ^ shift ∧
        (_secure_mintimer_ticks_from_usec v (_secure_mintimer_usec_from_ticks v t) = t ↔
          2 ^ shift ∣ t)) ∧
      (∀ t, t < U64 →
        _secure_mintimer_ticks_from_usec64 v (_secure_mintimer_usec_from_ticks64 v t)
          = t - t % 2 ^ shift ∧
        (_secure_mintimer_ticks_from_usec64 v (_secure_mintimer_usec_from_ticks64 v t) = t ↔
          2 ^ shift ∣ t))) := by
  obtain ⟨hb, ha⟩ := tick_conversion_select_cases hz v hv
  refine ⟨?_, ?_, ?_, ?_⟩
  · intro h
    subst h
    have h1 : tick_conversion_select 1000000 = some .base := by decide
    rw [h1] at hv
    exact (Option.some.inj hv).symm
  · intro h t
    subst h
    exact ⟨rfl, rfl⟩
  · intro shift h
    obtain ⟨h1, h2⟩ := hb shift h
    subst h
    refine ⟨h1, h2, fun t ht => ?_, fun t ht => ?_⟩
    · exact shift_round_trip_up U32 t shift ht
    · exact shift_round_trip_up U64 t shift ht
  · intro shift h
    obtain ⟨h1, h2⟩ := ha shift h
    subst h
    have key : ∀ m t, t < m → ((t >>> shift) <<< shift) % m = t - t % 2 ^ shift ∧
        (((t >>> shift) <<< shift) % m = t ↔ 2 ^ shift ∣ t) := by
      intro m t ht
      have e := shift_round_trip_down m t shift ht
      refine ⟨e, ?_⟩
      rw [e, Nat.dvd_iff_mod_eq_zero]
      have := Nat.mod_le t (2 ^ shift)
      omega
    exact ⟨h1, h2, fun t ht => key U32 t ht, fun t ht => key U64 t ht⟩

/-- C27, counterexample. With a 2 MHz timer (`SECURE_MINTIMER_SHIFT = 1`, a power-of-two
configuration the header handles) the tick count 1 converts to 0 microseconds without any
overflow, and 0 microseconds convert back to 0 ticks: the round trip of `t = 1` is not
`t`, in 32 and in 64 bits. -/
theorem tick_round_trip_loses_low_bits :
    SECURE_MINTIMER_SHIFT 2000000 = some 1 ∧
    tick_conversion_select 2000000 = some (.above 1) ∧
    _secure_mintimer_usec_from_ticks (.above 1) 1 = 0 ∧
    _secure_mintimer_ticks_from_usec (.above 1)
      (_secure_mintimer_usec_from_ticks (.above 1) 1) = 0 ∧
    _secure_mintimer_ticks_from_usec (.above 1)
      (_secure_mintimer_usec_from_ticks (.above 1) 1) ≠ 1 ∧
    _secure_mintimer_ticks_from_usec64 (.above 1)
      (_secure_mintimer_usec_from_ticks64 (.above 1) 1) ≠ 1 := by
  refine ⟨by decide, by decide, by decide, by decide, by decide, by decide⟩

/-- C27, witness: a 250 kHz timer, for which the round trip is exact. -/
theorem tick_round_trip_witness :
    tick_conversion_select 250000 = some (.below 2) ∧
    ∀ t, t * 2 ^ 2 < U32 →
      _secure_mintimer_ticks_from_usec (.below 2)
        (_secure_mintimer_usec_from_ticks (.below 2) t) = t :=
  ⟨by decide, ((tick_round_trip 250000 (.below 2) (by decide)).2.2.1 2 rfl).2.2.1⟩

/-! ## C26: `get_available_timer` -/

/-- C26, amended. For a pid above 15 `get_available_timer` returns `NULL` and changes
nothing, and `_secure_mintimer_tsleep_specific_pid` then returns without any effect. For a
pid in `0..14` it returns the pool slot with that index, which lies inside the pool of 15
timers, after `secure_mintimer_remove` of that slot: a slot that is not armed is returned
with the state unchanged, and an armed slot is not refused either, the result is never
`NULL`. -/
theorem get_available_timer_contract (pid : Int) (s : State) :
    (15 < pid → get_available_timer pid s = some (none, s) ∧
      ∀ cfg offset, _secure_mintimer_tsleep_specific_pid cfg offset pid s = some s) ∧
    (0 ≤ pid → pid < 15 →
      pid.toNat < SECURE_MINTIMER_TIMER_LIST_LENGTH ∧
      get_available_timer pid s
        = (secure_mintimer_remove (.pool pid.toNat) s).map
            (fun s1 => (some (.pool pid.toNat), s1)) ∧
      (∀ r s1, get_available_timer pid s = some (r, s1) → r = some (.pool pid.toNat)) ∧
      (_is_set s (.pool pid.toNat) = false →
        get_available_timer pid s = some (some (.pool pid.toNat), s))) := by
  have hL : (SECURE_MINTIMER_TIMER_LIST_LENGTH : Int) = 15 := rfl
  constructor
  · intro h
    have h1 : get_available_timer pid s = some (none, s) := by
      unfold get_available_timer
      have : ¬ (pid ≤ (SECURE_MINTIMER_TIMER_LIST_LENGTH : Int)) := by rw [hL]; omega
      simp only [this, if_false]
    refine ⟨h1, fun cfg offset => ?_⟩
    unfold _secure_mintimer_tsleep_specific_pid
    rw [h1]
  · intro h0 h15
    have hle : pid ≤ (SECURE_MINTIMER_TIMER_LIST_LENGTH : Int) := by rw [hL]; omega
    have hin : 0 ≤ pid ∧ pid < (SECURE_MINTIMER_TIMER_LIST_LENGTH : Int) := by
      rw [hL]; exact ⟨h0, h15⟩
    have hg : get_available_timer pid s
        = (secure_mintimer_remove (.pool pid.toNat) s).map
            (fun s1 => (some (.pool pid.toNat), s1)) := by
      unfold get_available_timer
      simp only [hle, hin, and_self, if_true]
      cases secure_mintimer_remove (.pool pid.toNat) s <;> rfl
    refine ⟨?_, hg, ?_, ?_⟩
    · have : SECURE_MINTIMER_TIMER_LIST_LENGTH = 15 := rfl
      omega
    · intro r s1 h
      rw [hg] at h
      cases hr : secure_mintimer_remove (.pool pid.toNat) s with
      | none => rw [hr] at h; simp at h
      | some s2 =>
        rw [hr] at h
        simp at h
        exact h.1.symm
    · intro hset
      rw [hg]
      unfold secure_mintimer_remove
      simp [hset]

set_option maxRecDepth 100000 in
/-- C26, counterexample. The slot of pid 1 is armed (target `0x10000 + 1000`) and linked in
the long list. `get_available_timer(1)` does not return `NULL`: it removes the timer from the
long list, clears its target and returns the slot, so the state has changed. -/
theorem get_available_timer_reuses_armed_slot :
    _is_set overflow_and_long (.pool 1) = true ∧
    timer_list overflow_and_long .long = some [.pool 1] ∧
    ∃ s', get_available_timer 1 overflow_and_long = some (some (.pool 1), s') ∧
      timer_list s' .long = some [] ∧ (s'.getTimer (.pool 1)).target = 0 ∧
      _is_set s' (.pool 1) = false := by
  refine ⟨by decide, by decide, _, rfl, by decide, by decide, by decide⟩

/-- C26, witness: pid 20 has no slot, pid 3 has one. -/
theorem get_available_timer_contract_witness :
    get_available_timer 20 (State.init riotConfig) = some (none, State.init riotConfig) ∧
    get_available_timer 3 (State.init riotConfig)
      = some (some (.pool 3), State.init riotConfig) :=
  ⟨((get_available_timer_contract 20 (State.init riotConfig)).1 (by decide)).1,
   ((get_available_timer_contract 3 (State.init riotConfig)).2 (by decide) (by decide)).2.2.2
      (by decide)⟩

/-! ## Timer lists as chains of `next` fields -/

theorem getTimer_writeLoc (s : State) (loc : timer_loc) (v : Option timer_ptr)
    (t : timer_ptr) :
    (s.writeLoc loc v).getTimer t
      = if loc = .next t then { s.getTimer t with next := v } else s.getTimer t := by
  cases loc with
  | head l =>
    have : ¬ (timer_loc.head l = timer_loc.next t) := by simp
    simp only [this, if_false]
    cases l <;> cases t <;> rfl
  | next u =>
    show (s.setTimer u { s.getTimer u with next := v }).getTimer t = _
    rw [getTimer_setTimer]
    by_cases h : t = u
    · subst h; simp
    · have : ¬ (timer_loc.next u = timer_loc.next t) := by
        intro e; apply h; injection e with e; exact e.symm
      simp [h, this]

theorem listHead_writeLoc (s : State) (loc : timer_loc) (v : Option timer_ptr)
    (l : timer_list_id) :
    (s.writeLoc loc v).listHead l = if loc = .head l then v else s.listHead l := by
  cases loc with
  | head l' =>
    cases l' <;> cases l <;> simp [State.writeLoc, State.listHead]
  | next u =>
    have : ¬ (timer_loc.next u = timer_loc.head l) := by simp
    simp only [this, if_false]
    exact listHead_setTimer _ _ _ _

theorem readLoc_writeLoc (s : State) (loc loc' : timer_loc) (v : Option timer_ptr) :
    (s.writeLoc loc v).readLoc loc' = if loc' = loc then v else s.readLoc loc' := by
  cases loc' with
  | head l =>
    show (s.writeLoc loc v).listHead l = _
    rw [listHead_writeLoc]
    by_cases h : loc = .head l
    · subst h; simp
    · have : ¬ (timer_loc.head l = loc) := fun e => h e.symm
      simp [h, this, State.readLoc]
  | next t =>
    show ((s.writeLoc loc v).getTimer t).next = _
    rw [getTimer_writeLoc]
    by_cases h : loc = .next t
    · subst h; simp
    · have : ¬ (timer_loc.next t = loc) := fun e => h e.symm
      simp [h, this, State.readLoc]

theorem timer_chain_congr_on (s s' : State) :
    ∀ (n : Nat) (p : Option timer_ptr) (L : List timer_ptr), timer_chain s n p = some L →
      (∀ x ∈ L, (s'.getTimer x).next = (s.getTimer x).next) →
      timer_chain s' n p = some L := by
  intro n
  induction n with
  | zero =>
    intro p L h _
    cases p with
    | none => simpa [timer_chain] using h
    | some x => simp [timer_chain] at h
  | succ n ih =>
    intro p L h hL
    cases p with
    | none => simpa [timer_chain] using h
    | some x =>
      simp only [timer_chain, Option.map_eq_some'] at h ⊢
      obtain ⟨L', h1, h2⟩ := h
      subst h2
      refine ⟨L', ?_, rfl⟩
      rw [hL x (List.mem_cons_self _ _)]
      exact ih _ _ h1 (fun j hj => hL j (List.mem_cons_of_mem _ hj))

theorem timer_chain_succ (s : State) :
    ∀ (n : Nat) (p : Option timer_ptr) (L : List timer_ptr), timer_chain s n p = some L →
      timer_chain s (n + 1) p = some L := by
  intro n
  induction n with
  | zero =>
    intro p L h
    cases p with
    | none => simpa [timer_chain] using h
    | some x => simp [timer_chain] at h
  | succ n ih =>
    intro p L h
    cases p with
    | none => simpa [timer_chain] using h
    | some x =>
      simp only [timer_chain, Option.map_eq_some'] at h
      obtain ⟨L', h1, h2⟩ := h
      subst h2
      have := ih _ _ h1
      simp only [timer_chain, Option.map_eq_some']
      exact ⟨L', this, rfl⟩

theorem timer_chain_mono (s : State) (n m : Nat) (hnm : n ≤ m) (p : Option timer_ptr)
    (L : List timer_ptr) (h : timer_chain s n p = some L) : timer_chain s m p = some L := by
  induction hnm with
  | refl => exact h
  | step _ ih => exact timer_chain_succ s _ p L ih

theorem timer_chain_length (s : State) :
    ∀ (n : Nat) (p : Option timer_ptr) (L : List timer_ptr), timer_chain s n p = some L →
      L.length ≤ n := by
  intro n
  induction n with
  | zero =>
    intro p L h
    cases p with
    | none => simp [timer_chain] at h; subst h; simp
    | some x => simp [timer_chain] at h
  | succ n ih =>
    intro p L h
    cases p with
    | none => simp [timer_chain] at h; subst h; simp
    | some x =>
      simp only [timer_chain, Option.map_eq_some'] at h
      obtain ⟨L', h1, h2⟩ := h
      subst h2
      have := ih _ _ h1
      simp
      omega

/-- A chain of length at most `n` is found with fuel `n`. -/
theorem timer_chain_of_length (s : State) :
    ∀ (n m : Nat) (p : Option timer_ptr) (L : List timer_ptr), timer_chain s m p = some L →
      L.length ≤ n → timer_chain s n p = some L := by
  intro n
  induction n with
  | zero =>
    intro m p L h hl
    cases p with
    | none => cases m <;> simpa [timer_chain] using h
    | some x =>
      cases m with
      | zero => simp [timer_chain] at h
      | succ m =>
        simp only [timer_chain, Option.map_eq_some'] at h
        obtain ⟨L', _, h2⟩ := h
        subst h2
        simp at hl
  | succ n ih =>
    intro m p L h hl
    cases p with
    | none => cases m <;> simpa [timer_chain] using h
    | some x =>
      cases m with
      | zero => simp [timer_chain] at h
      | succ m =>
        simp only [timer_chain, Option.map_eq_some'] at h ⊢
        obtain ⟨L', h1, h2⟩ := h
        subst h2
        exact ⟨L', ih m _ L' h1 (by simpa using hl), rfl⟩

/-- The chain from a node of a chain is the part of the chain from that node on. -/
theorem timer_chain_suffix (s : State) :
    ∀ (n : Nat) (p : Option timer_ptr) (L : List timer_ptr), timer_chain s n p = some L →
      ∀ x ∈ L, ∃ A B, L = A ++ x :: B ∧ timer_chain s n (some x) = some (x :: B) := by
  intro n
  induction n with
  | zero =>
    intro p L h x hx
    cases p with
    | none => simp [timer_chain] at h; subst h; simp at hx
    | some y => simp [timer_chain] at h
  | succ n ih =>
    intro p L h x hx
    cases p with
    | none => simp [timer_chain] at h; subst h; simp at hx
    | some y =>
      have h0 := h
      simp only [timer_chain, Option.map_eq_some'] at h
      obtain ⟨L', h1, h2⟩ := h
      subst h2
      rcases List.mem_cons.mp hx with hxy | hxL
      · subst hxy
        exact ⟨[], L', rfl, h0⟩
      · obtain ⟨A, B, e1, e2⟩ := ih _ _ h1 x hxL
        exact ⟨y :: A, B, by rw [e1]; rfl, timer_chain_succ s n _ _ e2⟩

/-- A chain that ends holds no node twice. -/
theorem timer_chain_nodup (s : State) :
    ∀ (n : Nat) (p : Option timer_ptr) (L : List timer_ptr), timer_chain s n p = some L →
      L.Nodup := by
  intro n
  induction n with
  | zero =>
    intro p L h
    cases p with
    | none => simp [timer_chain] at h; subst h; simp
    | some y => simp [timer_chain] at h
  | succ n ih =>
    intro p L h
    cases p with
    | none => simp [timer_chain] at h; subst h; simp
    | some y =>
      have h0 := h
      simp only [timer_chain, Option.map_eq_some'] at h
      obtain ⟨L', h1, h2⟩ := h
      subst h2
      refine List.nodup_cons.mpr ⟨?_, ih _ _ h1⟩
      intro hy
      obtain ⟨A, B, e1, e2⟩ := timer_chain_suffix s n _ L' h1 y hy
      have e3 := timer_chain_succ s n _ _ e2
      rw [h0] at e3
      have e4 : y :: L' = y :: B := Option.some.inj e3
      have e5 : L' = B := List.tail_eq_of_cons_eq e4
      rw [e5] at e1
      have := congrArg List.length e1
      simp at this
      omega

theorem timer_chain_nil (s : State) (n : Nat) (p : Option timer_ptr)
    (h : timer_chain s n p = some []) : p = none := by
  cases p with
  | none => rfl
  | some x =>
    cases n with
    | zero => simp [timer_chain] at h
    | succ n => simp [timer_chain] at h

theorem timer_chain_cons (s : State) (n : Nat) (p : Option timer_ptr) (h : timer_ptr)
    (T : List timer_ptr) (hc : timer_chain s n p = some (h :: T)) :
    p = some h ∧ ∃ m, n = m + 1 ∧ timer_chain s m (s.getTimer h).next = some T := by
  cases p with
  | none => simp [timer_chain] at hc
  | some x =>
    cases n with
    | zero => simp [timer_chain] at hc
    | succ m =>
      simp only [timer_chain, Option.map_eq_some'] at hc
      obtain ⟨L', h1, h2⟩ := hc
      have e1 : x = h := by injection h2
      have e2 : L' = T := by injection h2
      subst e1 e2
      exact ⟨rfl, m, rfl, h1⟩

/-- The insertion loop on a chain that ends and does not hold the new timer: the loop
returns, it writes the `next` field of the timer and one location of the chain, and the
chain from `loc` is afterwards the old one with the timer put in front of the first node
for which `keep` fails. -/
theorem insert_loop_spec (keep : timer_ptr → Bool) (timer : timer_ptr) :
    ∀ (L : List timer_ptr) (n fuel : Nat) (loc : timer_loc) (s : State),
      timer_chain s n (s.readLoc loc) = some L → timer ∉ L → loc ≠ .next timer →
      (∀ x ∈ L, loc ≠ .next x) → L.length < fuel →
      ∃ loc1 nx,
        insert_loop keep timer fuel loc s
          = some ((s.writeLoc (.next timer) nx).writeLoc loc1 (some timer)) ∧
        (loc1 = loc ∨ ∃ x ∈ L, loc1 = .next x) ∧
        timer_chain ((s.writeLoc (.next timer) nx).writeLoc loc1 (some timer)) (n + 1)
          (((s.writeLoc (.next timer) nx).writeLoc loc1 (some timer)).readLoc loc)
          = some (insert_before keep timer L) := by
  intro L
  induction L with
  | nil =>
    intro n fuel loc s hc _ hlt _ hf
    obtain ⟨f, rfl⟩ : ∃ f, fuel = f + 1 := ⟨fuel - 1, by omega⟩
    have hr := timer_chain_nil s n _ hc
    refine ⟨loc, none, ?_, Or.inl rfl, ?_⟩
    · unfold insert_loop
      simp only [hr]
    · have hne : ¬ (timer_loc.next timer = loc) := fun e => hlt e.symm
      have hlt' : ¬ (loc = timer_loc.next timer) := hlt
      simp [insert_before, timer_chain, readLoc_writeLoc, getTimer_writeLoc, hne, hlt']
  | cons h T ih =>
    intro n fuel loc s hc hnot hlt hown hf
    obtain ⟨f, rfl⟩ : ∃ f, fuel = f + 1 := ⟨fuel - 1, by omega⟩
    obtain ⟨hr, m, rfl, hT⟩ := timer_chain_cons s n _ h T hc
    have hht : h ≠ timer := fun e => hnot (by rw [e]; exact List.mem_cons_self _ _)
    have hne : ¬ (timer_loc.next timer = loc) := fun e => hlt e.symm
    by_cases hk : keep h = true
    · -- the loop goes on behind `h`
      have hnd := timer_chain_nodup s _ _ _ hc
      have hhT : h ∉ T := (List.nodup_cons.mp hnd).1
      obtain ⟨loc1, nx, e1, e2, e3⟩ := ih m f (.next h) s hT
        (fun hx => hnot (List.mem_cons_of_mem _ hx))
        (by intro e; injection e with e; exact hht e)
        (by intro x hx e; injection e with e; exact hhT (by rw [e]; exact hx))
        (by simp at hf; omega)
      refine ⟨loc1, nx, ?_, ?_, ?_⟩
      · unfold insert_loop
        simp only [hr, hk, if_true]
        exact e1
      · rcases e2 with e2 | ⟨x, hx, e2⟩
        · exact Or.inr ⟨h, List.mem_cons_self _ _, e2⟩
        · exact Or.inr ⟨x, List.mem_cons_of_mem _ hx, e2⟩
      · have hl1 : loc ≠ loc1 := by
          rcases e2 with e2 | ⟨x, hx, e2⟩
          · rw [e2]; exact hown h (List.mem_cons_self _ _)
          · rw [e2]; exact hown x (List.mem_cons_of_mem _ hx)
        have hrl : ((s.writeLoc (.next timer) nx).writeLoc loc1 (some timer)).readLoc loc
            = some h := by
          rw [readLoc_writeLoc, readLoc_writeLoc]
          simp only [hl1, hlt, if_false]
          exact hr
        rw [hrl]
        simp only [timer_chain, Option.map_eq_some']
        refine ⟨insert_before keep timer T, e3, ?_⟩
        simp [insert_before, List.takeWhile_cons, List.dropWhile_cons, hk]
    · -- the timer is linked in front of `h`
      have hk' : keep h = false := by simpa using hk
      refine ⟨loc, some h, ?_, Or.inl rfl, ?_⟩
      · unfold insert_loop
        simp only [hr, hk']
        simp
      · have hcong : timer_chain ((s.writeLoc (.next timer) (some h)).writeLoc loc
            (some timer)) (m + 1) (some h) = some (h :: T) := by
          apply timer_chain_congr_on s _ _ _ _ (by rw [← hr]; exact hc)
          intro x hx
          have hxt : x ≠ timer := fun e => hnot (by rw [← e]; exact hx)
          have h1 : ¬ (loc = timer_loc.next x) := hown x hx
          have h2 : ¬ (timer_loc.next timer = timer_loc.next x) := by
            intro e; injection e with e; exact hxt e.symm
          rw [getTimer_writeLoc, getTimer_writeLoc]
          simp [h1, h2]
        rw [readLoc_writeLoc]
        simp only [if_true]
        simp only [timer_chain, Option.map_eq_some']
        refine ⟨h :: T, ?_, ?_⟩
        · have hnx : (((s.writeLoc (.next timer) (some h)).writeLoc loc
              (some timer)).getTimer timer).next = some h := by
            rw [getTimer_writeLoc, getTimer_writeLoc]
            have h1 : ¬ (loc = timer_loc.next timer) := hlt
            simp [h1]
          rw [hnx]
          exact hcong
        · simp [insert_before, List.takeWhile_cons, List.dropWhile_cons, hk']

theorem add_timer_to_list_loop_eq (timer : timer_ptr) (s : State) :
    ∀ (fuel : Nat) (loc : timer_loc),
      add_timer_to_list_loop timer fuel loc s
        = insert_loop (fun h => decide (timer_le s h timer)) timer fuel loc s := by
  intro fuel
  induction fuel with
  | zero => intro loc; rfl
  | succ n ih =>
    intro loc
    unfold add_timer_to_list_loop insert_loop
    cases s.readLoc loc with
    | none => rfl
    | some h =>
      simp only [timer_le, decide_eq_true_eq]
      split
      · exact ih _
      · rfl

theorem add_timer_to_long_list_loop_eq (timer : timer_ptr) (s : State) :
    ∀ (fuel : Nat) (loc : timer_loc),
      add_timer_to_long_list_loop timer fuel loc s
        = insert_loop (fun h => decide (timer_long_le s h timer)) timer fuel loc s := by
  intro fuel
  induction fuel with
  | zero => intro loc; rfl
  | succ n ih =>
    intro loc
    unfold add_timer_to_long_list_loop insert_loop
    cases s.readLoc loc with
    | none => rfl
    | some h =>
      simp only [timer_long_le, decide_eq_true_eq]
      split
      · exact ih _
      · rfl

/-- Order facts of `insert_before` for a total preorder given by a key. -/
theorem insert_before_sorted {κ : Type} [LinearOrder κ] (key : timer_ptr → κ)
    (keep : timer_ptr → Bool) (timer : timer_ptr)
    (hkeep : ∀ h, keep h = true ↔ key h ≤ key timer) :
    ∀ L : List timer_ptr, L.Pairwise (fun a b => key a ≤ key b) →
      (∀ x ∈ L.takeWhile keep, key x ≤ key timer) ∧
      (∀ x ∈ L.dropWhile keep, key timer < key x) ∧
      (insert_before keep timer L).Pairwise (fun a b => key a ≤ key b) := by
  intro L hs
  have h1 : ∀ x ∈ L.takeWhile keep, key x ≤ key timer := by
    intro x hx
    exact (hkeep x).mp (List.mem_takeWhile_imp hx)
  have h2 : ∀ x ∈ L.dropWhile keep, key timer < key x := by
    induction L with
    | nil => intro x hx; simp at hx
    | cons h T ih =>
      intro x hx
      have hs' := List.pairwise_cons.mp hs
      by_cases hk : keep h = true
      · rw [List.dropWhile_cons_of_pos hk] at hx
        exact ih hs'.2 (fun y hy => (hkeep y).mp (List.mem_takeWhile_imp hy)) x hx
      · rw [List.dropWhile_cons_of_neg hk] at hx
        have hlt : key timer < key h := by
          rw [hkeep] at hk
          exact lt_of_not_le hk
        rcases List.mem_cons.mp hx with e | e
        · rw [e]; exact hlt
        · exact lt_of_lt_of_le hlt (hs'.1 x e)
  refine ⟨h1, h2, ?_⟩
  unfold insert_before
  rw [List.pairwise_append]
  refine ⟨hs.sublist (List.takeWhile_sublist _), ?_, ?_⟩
  · rw [List.pairwise_cons]
    exact ⟨fun b hb => le_of_lt (h2 b hb), hs.sublist (List.dropWhile_sublist _)⟩
  · intro a ha b hb
    rcases List.mem_cons.mp hb with e | e
    · rw [e]; exact h1 a ha
    · exact le_trans (h1 a ha) (le_of_lt (h2 b e))

/-- A list of distinct valid timers that misses a valid timer has fewer than
`TIMER_NODES` nodes. -/
theorem valid_timers_length (L : List timer_ptr) (timer : timer_ptr) (hnd : L.Nodup)
    (hv : ∀ x ∈ L, x.valid) (ht : timer.valid) (hnot : timer ∉ L) :
    L.length < TIMER_NODES := by
  let idx : timer_ptr → Nat := fun t =>
    match t with
    | .pool i => i
    | .sched => SECURE_MINTIMER_TIMER_LIST_LENGTH
  have hinj : ∀ a, a.valid → ∀ b, b.valid → idx a = idx b → a = b := by
    intro a ha b hb e
    cases a with
    | pool i =>
      cases b with
      | pool j => simp [idx] at e; rw [e]
      | sched => simp [idx] at e; unfold timer_ptr.valid at ha; omega
    | sched =>
      cases b with
      | pool j => simp [idx] at e; unfold timer_ptr.valid at hb; omega
      | sched => rfl
  have hlt : ∀ a, a.valid → idx a < TIMER_NODES := by
    intro a ha
    cases a with
    | pool i => unfold timer_ptr.valid at ha; simp [idx, TIMER_NODES]; omega
    | sched => simp [idx, TIMER_NODES]
  have hnd2 : (timer :: L).Nodup := List.nodup_cons.mpr ⟨hnot, hnd⟩
  have hv2 : ∀ x ∈ timer :: L, x.valid := by
    intro x hx
    rcases List.mem_cons.mp hx with e | e
    · rw [e]; exact ht
    · exact hv x e
  have hnd3 : ((timer :: L).map idx).Nodup :=
    List.Nodup.map_on (fun a ha b hb e => hinj a (hv2 a ha) b (hv2 b hb) e) hnd2
  have hsub : (timer :: L).map idx ⊆ List.range TIMER_NODES := by
    intro k hk
    obtain ⟨a, ha, rfl⟩ := List.mem_map.mp hk
    exact List.mem_range.mpr (hlt a (hv2 a ha))
  have := (List.subperm_of_subset hnd3 hsub).length_le
  simp at this
  omega

/-! ## C20: insertion keeps the timer lists in order -/

/-- Insertion at a list head: the function returns, the list becomes
`insert_before keep timer L`, and the only writes are to `timer->next` and to one
location of the list. -/
theorem insert_at_head (keep : timer_ptr → Bool) (l : timer_list_id) (timer : timer_ptr)
    (s : State) (L : List timer_ptr) (hL : timer_list s l = some L) (hnot : timer ∉ L)
    (hlen : L.length < TIMER_NODES) :
    ∃ loc1 nx,
      insert_loop keep timer (TIMER_NODES + 1) (.head l) s
        = some ((s.writeLoc (.next timer) nx).writeLoc loc1 (some timer)) ∧
      (loc1 = .head l ∨ ∃ x ∈ L, loc1 = .next x) ∧
      timer_list ((s.writeLoc (.next timer) nx).writeLoc loc1 (some timer)) l
        = some (insert_before keep timer L) := by
  obtain ⟨loc1, nx, h1, h2, h3⟩ :=
    insert_loop_spec keep timer L TIMER_NODES (TIMER_NODES + 1) (.head l) s hL hnot
      (by simp) (by intro x _; simp) (by omega)
  refine ⟨loc1, nx, h1, h2, ?_⟩
  unfold timer_list
  apply timer_chain_of_length _ _ _ _ _ h3
  unfold insert_before
  have e : (L.takeWhile keep ++ L.dropWhile keep).length = L.length := by
    rw [List.takeWhile_append_dropWhile]
  simp only [List.length_append, List.length_cons] at e ⊢
  omega

theorem target_writeLoc (s : State) (loc : timer_loc) (v : Option timer_ptr) (t : timer_ptr) :
    ((s.writeLoc loc v).getTimer t).target = (s.getTimer t).target ∧
    ((s.writeLoc loc v).getTimer t).long_target = (s.getTimer t).long_target ∧
    ((s.writeLoc loc v).getTimer t).thread = (s.getTimer t).thread := by
  rw [getTimer_writeLoc]
  split <;> exact ⟨rfl, rfl, rfl⟩

theorem chain_of_pairwise_key {κ : Type} [LinearOrder κ] (key : timer_ptr → κ)
    (L : List timer_ptr) :
    L.Chain' (fun a b => key a ≤ key b) ↔ L.Pairwise (fun a b => key a ≤ key b) := by
  haveI : IsTrans timer_ptr (fun a b => key a ≤ key b) :=
    ⟨fun a b c h1 h2 => le_trans h1 h2⟩
  exact List.chain'_iff_pairwise

theorem timer_long_le_iff (s : State) (a b : timer_ptr) :
    timer_long_le s a b ↔
      toLex ((s.getTimer a).long_target, (s.getTimer a).target)
        ≤ toLex ((s.getTimer b).long_target, (s.getTimer b).target) := by
  rw [Prod.Lex.le_iff]
  rfl

/-- Order facts of insertion for two relations that both are the order of a key. -/
theorem insert_before_chain {κ : Type} [LinearOrder κ] (key : timer_ptr → κ)
    (R R' : timer_ptr → timer_ptr → Prop) (hR : ∀ a b, R a b ↔ key a ≤ key b)
    (hR' : ∀ a b, R' a b ↔ key a ≤ key b) (keep : timer_ptr → Bool) (timer : timer_ptr)
    (hkeep : ∀ h, keep h = true ↔ R h timer) (L : List timer_ptr) :
    (∀ x ∈ L.takeWhile keep, R x timer) ∧
    (L.Chain' R →
      (∀ x ∈ L.dropWhile keep, ¬ R x timer) ∧ (insert_before keep timer L).Chain' R') := by
  refine ⟨fun x hx => (hkeep x).mp (List.mem_takeWhile_imp hx), fun hc => ?_⟩
  have hc1 : L.Chain' (fun a b => key a ≤ key b) :=
    List.Chain'.imp (fun a b h => (hR a b).mp h) hc
  rw [chain_of_pairwise_key] at hc1
  obtain ⟨_, h2, h3⟩ :=
    insert_before_sorted key keep timer (fun h => (hkeep h).trans (hR h timer)) L hc1
  refine ⟨fun x hx hle => ?_, ?_⟩
  · exact absurd ((hR x timer).mp hle) (not_le_of_lt (h2 x hx))
  · rw [← chain_of_pairwise_key] at h3
    exact List.Chain'.imp (fun a b h => (hR' a b).mpr h) h3

/-- C20: `_add_timer_to_list` on a list that ends, whose nodes are timers of the module
and do not include `timer`, returns; the list then is `A ++ timer :: B` where `A ++ B` is
the old list and the nodes of `A` have a target at most `timer->target`, and no `target`
or `long_target` changes. If the old list is ascending by `target`, the nodes of `B` have
a larger target than `timer` and the new list is ascending by `target`.
`_add_timer_to_long_list` does the same for the lexicographic order of
`(long_target, target)`. -/
theorem add_timer_keeps_list_ascending (l : timer_list_id) (timer : timer_ptr) (s : State)
    (L : List timer_ptr) (hL : timer_list s l = some L) (hv : ∀ x ∈ L, x.valid)
    (ht : timer.valid) (hnot : timer ∉ L) :
    (∃ s' A B, _add_timer_to_list l timer s = some s' ∧ L = A ++ B ∧
        timer_list s' l = some (A ++ timer :: B) ∧
        (∀ x ∈ A, timer_le s x timer) ∧
        (∀ t, (s'.getTimer t).target = (s.getTimer t).target ∧
          (s'.getTimer t).long_target = (s.getTimer t).long_target) ∧
        (L.Chain' (timer_le s) →
          (∀ x ∈ B, ¬ timer_le s x timer) ∧ (A ++ timer :: B).Chain' (timer_le s'))) ∧
    (∃ s' A B, _add_timer_to_long_list l timer s = some s' ∧ L = A ++ B ∧
        timer_list s' l = some (A ++ timer :: B) ∧
        (∀ x ∈ A, timer_long_le s x timer) ∧
        (∀ t, (s'.getTimer t).target = (s.getTimer t).target ∧
          (s'.getTimer t).long_target = (s.getTimer t).long_target) ∧
        (L.Chain' (timer_long_le s) →
          (∀ x ∈ B, ¬ timer_long_le s x timer) ∧
          (A ++ timer :: B).Chain' (timer_long_le s'))) := by
  have hlen : L.length < TIMER_NODES :=
    valid_timers_length L timer (timer_chain_nodup s _ _ L hL) hv ht hnot
  have hfr : ∀ (loc1 : timer_loc) (nx : Option timer_ptr) (t : timer_ptr),
      (((s.writeLoc (.next timer) nx).writeLoc loc1 (some timer)).getTimer t).target
          = (s.getTimer t).target ∧
        (((s.writeLoc (.next timer) nx).writeLoc loc1 (some timer)).getTimer t).long_target
          = (s.getTimer t).long_target := by
    intro loc1 nx t
    have a := target_writeLoc (s.writeLoc (.next timer) nx) loc1 (some timer) t
    have b := target_writeLoc s (.next timer) nx t
    exact ⟨a.1.trans b.1, a.2.1.trans b.2.1⟩
  constructor
  · obtain ⟨loc1, nx, h1, _, h3⟩ :=
      insert_at_head (fun h => decide (timer_le s h timer)) l timer s L hL hnot hlen
    obtain ⟨k1, k2⟩ := insert_before_chain (fun x => (s.getTimer x).target) (timer_le s)
      (timer_le ((s.writeLoc (.next timer) nx).writeLoc loc1 (some timer)))
      (fun a b => Iff.rfl)
      (fun a b => by unfold timer_le; rw [(hfr loc1 nx a).1, (hfr loc1 nx b).1])
      (fun h => decide (timer_le s h timer)) timer (fun h => by simp) L
    refine ⟨_, L.takeWhile _, L.dropWhile _, ?_, (List.takeWhile_append_dropWhile _ L).symm,
      h3, k1, hfr loc1 nx, k2⟩
    unfold _add_timer_to_list
    rw [add_timer_to_list_loop_eq]
    exact h1
  · obtain ⟨loc1, nx, h1, _, h3⟩ :=
      insert_at_head (fun h => decide (timer_long_le s h timer)) l timer s L hL hnot hlen
    obtain ⟨k1, k2⟩ := insert_before_chain
      (fun x => toLex ((s.getTimer x).long_target, (s.getTimer x).target)) (timer_long_le s)
      (timer_long_le ((s.writeLoc (.next timer) nx).writeLoc loc1 (some timer)))
      (fun a b => timer_long_le_iff s a b)
      (fun a b => by
        rw [timer_long_le_iff, (hfr loc1 nx a).1, (hfr loc1 nx b).1, (hfr loc1 nx a).2,
          (hfr loc1 nx b).2])
      (fun h => decide (timer_long_le s h timer)) timer (fun h => by simp) L
    refine ⟨_, L.takeWhile _, L.dropWhile _, ?_, (List.takeWhile_append_dropWhile _ L).symm,
      h3, k1, hfr loc1 nx, k2⟩
    unfold _add_timer_to_long_list
    rw [add_timer_to_long_list_loop_eq]
    exact h1

/-- C20, witness: the short list `[pool 0, pool 1]` with the targets 5000 and 9000 and the
new timer `pool 2`, with the target 7000 for the short order and with
`(long_target, target) = (0, 7000)` for the long order. -/
theorem add_timer_keeps_list_ascending_witness :
    (∃ s' A B, _add_timer_to_list .short (.pool 2) (short_pair_new 7000 0) = some s' ∧
        [timer_ptr.pool 0, .pool 1] = A ++ B ∧
        timer_list s' .short = some (A ++ .pool 2 :: B) ∧
        (∀ x ∈ A, timer_le (short_pair_new 7000 0) x (.pool 2)) ∧
        (∀ t, (s'.getTimer t).target = ((short_pair_new 7000 0).getTimer t).target ∧
          (s'.getTimer t).long_target = ((short_pair_new 7000 0).getTimer t).long_target) ∧
        ([timer_ptr.pool 0, .pool 1].Chain' (timer_le (short_pair_new 7000 0)) →
          (∀ x ∈ B, ¬ timer_le (short_pair_new 7000 0) x (.pool 2)) ∧
          (A ++ .pool 2 :: B).Chain' (timer_le s'))) ∧
    [timer_ptr.pool 0, .pool 1].Chain' (timer_le (short_pair_new 7000 0)) ∧
    (_add_timer_to_list .short (.pool 2) (short_pair_new 7000 0)).map
        (fun s' => timer_list s' .short) = some (some [.pool 0, .pool 2, .pool 1]) :=
  ⟨(add_timer_keeps_list_ascending .short (.pool 2) (short_pair_new 7000 0)
      [.pool 0, .pool 1] (by decide!) (by decide) (by decide) (by decide)).1,
   List.Chain'.cons (by decide!) (List.chain'_singleton _), by decide!⟩

/-! ## Removal from a timer list -/

/-- A list is the same in two states that agree on its head and on the `next` fields of
its nodes. -/
theorem timer_list_frame (s s' : State) (l : timer_list_id) (L : List timer_ptr)
    (h : timer_list s l = some L) (hh : s'.listHead l = s.listHead l)
    (hn : ∀ x ∈ L, (s'.getTimer x).next = (s.getTimer x).next) :
    timer_list s' l = some L := by
  unfold timer_list at h ⊢
  rw [hh]
  exact timer_chain_congr_on s s' _ _ _ h hn

/-- A write to a location outside a list leaves the list as it is. -/
theorem timer_list_writeLoc_other (s : State) (loc : timer_loc) (v : Option timer_ptr)
    (l : timer_list_id) (L : List timer_ptr) (h : timer_list s l = some L)
    (h1 : loc ≠ .head l) (h2 : ∀ x ∈ L, loc ≠ .next x) :
    timer_list (s.writeLoc loc v) l = some L := by
  apply timer_list_frame s _ l L h
  · rw [listHead_writeLoc]; simp [h1]
  · intro x hx
    rw [getTimer_writeLoc]
    simp [h2 x hx]

/-- The removal loop on a chain that ends and does not hold the timer changes nothing. -/
theorem remove_loop_absent (timer : timer_ptr) :
    ∀ (L : List timer_ptr) (n fuel : Nat) (loc : timer_loc) (s : State),
      timer_chain s n (s.readLoc loc) = some L → timer ∉ L → L.length < fuel →
      remove_timer_from_list_loop timer fuel loc s = some (0, s) := by
  intro L
  induction L with
  | nil =>
    intro n fuel loc s hc _ hf
    obtain ⟨f, rfl⟩ : ∃ f, fuel = f + 1 := ⟨fuel - 1, by omega⟩
    have hr := timer_chain_nil s n _ hc
    unfold remove_timer_from_list_loop
    simp only [hr]
  | cons h T ih =>
    intro n fuel loc s hc hnot hf
    obtain ⟨f, rfl⟩ : ∃ f, fuel = f + 1 := ⟨fuel - 1, by omega⟩
    obtain ⟨hr, m, rfl, hT⟩ := timer_chain_cons s n _ h T hc
    have hht : h ≠ timer := fun e => hnot (by rw [e]; exact List.mem_cons_self _ _)
    unfold remove_timer_from_list_loop
    simp only [hr, hht, if_false]
    exact ih m f (.next h) s hT (fun hx => hnot (List.mem_cons_of_mem _ hx))
      (by simp at hf; omega)

/-- The removal loop on a chain that ends and holds the timer: the loop returns 1, its one
write stores `timer->next` in the location that pointed to the timer, and the chain is
afterwards the old one without the timer. -/
theorem remove_loop_present (timer : timer_ptr) :
    ∀ (L : List timer_ptr) (n fuel : Nat) (loc : timer_loc) (s : State),
      timer_chain s n (s.readLoc loc) = some L → timer ∈ L →
      (∀ x ∈ L, loc ≠ .next x) → L.length < fuel →
      ∃ loc1,
        remove_timer_from_list_loop timer fuel loc s
          = some (1, s.writeLoc loc1 (s.getTimer timer).next) ∧
        (loc1 = loc ∨ ∃ x ∈ L, x ≠ timer ∧ loc1 = .next x) ∧
        timer_chain (s.writeLoc loc1 (s.getTimer timer).next) n
          ((s.writeLoc loc1 (s.getTimer timer).next).readLoc loc)
          = some (L.erase timer) := by
  intro L
  induction L with
  | nil => intro n fuel loc s _ hin; simp at hin
  | cons h T ih =>
    intro n fuel loc s hc hin hown hf
    obtain ⟨f, rfl⟩ : ∃ f, fuel = f + 1 := ⟨fuel - 1, by omega⟩
    obtain ⟨hr, m, rfl, hT⟩ := timer_chain_cons s n _ h T hc
    have hnd := timer_chain_nodup s _ _ _ hc
    have hhT : h ∉ T := (List.nodup_cons.mp hnd).1
    by_cases hht : h = timer
    · subst hht
      refine ⟨loc, ?_, Or.inl rfl, ?_⟩
      · unfold remove_timer_from_list_loop
        simp only [hr, if_true]
      · rw [readLoc_writeLoc]
        simp only [if_true, List.erase_cons_head]
        apply timer_chain_mono _ m (m + 1) (by omega)
        apply timer_chain_congr_on s _ _ _ _ hT
        intro x hx
        rw [getTimer_writeLoc]
        simp [hown x (List.mem_cons_of_mem _ hx)]
    · have hinT : timer ∈ T := by
        rcases List.mem_cons.mp hin with e | e
        · exact absurd e.symm hht
        · exact e
      obtain ⟨loc1, e1, e2, e3⟩ := ih m f (.next h) s hT hinT
        (by intro x hx e; injection e with e; exact hhT (by rw [e]; exact hx))
        (by simp at hf; omega)
      refine ⟨loc1, ?_, ?_, ?_⟩
      · unfold remove_timer_from_list_loop
        simp only [hr, hht, if_false]
        exact e1
      · rcases e2 with e2 | ⟨x, hx, hxt, e2⟩
        · exact Or.inr ⟨h, List.mem_cons_self _ _, hht, e2⟩
        · exact Or.inr ⟨x, List.mem_cons_of_mem _ hx, hxt, e2⟩
      · have hl1 : loc ≠ loc1 := by
          rcases e2 with e2 | ⟨x, hx, _, e2⟩
          · rw [e2]; exact hown h (List.mem_cons_self _ _)
          · rw [e2]; exact hown x (List.mem_cons_of_mem _ hx)
        have hrl : (s.writeLoc loc1 (s.getTimer timer).next).readLoc loc = some h := by
          rw [readLoc_writeLoc]
          simp only [hl1, if_false]
          exact hr
        rw [hrl]
        simp only [timer_chain, Option.map_eq_some']
        refine ⟨T.erase timer, e3, ?_⟩
        rw [List.erase_cons_tail]
        simpa using hht

/-- The function `_remove_timer_from_list` on a list that ends: the result tells whether
the timer was linked in it, the list is afterwards the old one without the timer, and the
one write goes to the head of this list or to the `next` field of one of its nodes other
than the timer. -/
theorem remove_timer_from_list_spec (l : timer_list_id) (timer : timer_ptr) (s : State)
    (L : List timer_ptr) (hL : timer_list s l = some L) :
    (timer ∉ L → _remove_timer_from_list l timer s = some (0, s)) ∧
    (timer ∈ L → ∃ loc1,
      _remove_timer_from_list l timer s
        = some (1, s.writeLoc loc1 (s.getTimer timer).next) ∧
      (loc1 = .head l ∨ ∃ x ∈ L, x ≠ timer ∧ loc1 = .next x) ∧
      timer_list (s.writeLoc loc1 (s.getTimer timer).next) l = some (L.erase timer)) := by
  have hlen : L.length < TIMER_NODES + 1 := by
    have := timer_chain_length s _ _ _ hL
    omega
  constructor
  · intro hnot
    exact remove_loop_absent timer L TIMER_NODES (TIMER_NODES + 1) (.head l) s hL hnot hlen
  · intro hin
    exact remove_loop_present timer L TIMER_NODES (TIMER_NODES + 1) (.head l) s hL hin
      (by intro x _; simp) hlen

theorem lltimer_set_getTimer (target : Nat) (s : State) (t : timer_ptr) :
    (_lltimer_set target s).getTimer t = s.getTimer t := by
  unfold _lltimer_set
  split
  · rfl
  · cases t <;> rfl

theorem lltimer_set_listHead (target : Nat) (s : State) (l : timer_list_id) :
    (_lltimer_set target s).listHead l = s.listHead l := by
  unfold _lltimer_set
  split
  · rfl
  · cases l <;> rfl

theorem lltimer_set_timer_list (target : Nat) (s : State) (l : timer_list_id) :
    timer_list (_lltimer_set target s) l = timer_list s l := by
  cases h : timer_list s l with
  | some L =>
    exact timer_list_frame s _ l L h (lltimer_set_listHead _ _ _)
      (fun x _ => by rw [lltimer_set_getTimer])
  | none =>
    cases h2 : timer_list (_lltimer_set target s) l with
    | none => rfl
    | some L =>
      have := timer_list_frame (_lltimer_set target s) s l L h2
        (lltimer_set_listHead _ _ _).symm (fun x _ => by rw [lltimer_set_getTimer])
      rw [h] at this
      cases this

/-- Removal of a timer from the list that holds it: the other lists, if disjoint from this
one, and the `target`, `long_target` and `thread` fields stay as they are. -/
theorem remove_timer_from_list_present (l : timer_list_id) (timer : timer_ptr) (s : State)
    (L : List timer_ptr) (hL : timer_list s l = some L) (hin : timer ∈ L) :
    ∃ s1, _remove_timer_from_list l timer s = some (1, s1) ∧
      timer_list s1 l = some (L.erase timer) ∧
      (∀ l' L', l' ≠ l → timer_list s l' = some L' → L.Disjoint L' →
        timer_list s1 l' = some L') ∧
      (∀ t, (s1.getTimer t).target = (s.getTimer t).target ∧
        (s1.getTimer t).long_target = (s.getTimer t).long_target ∧
        (s1.getTimer t).thread = (s.getTimer t).thread) := by
  obtain ⟨loc1, e1, e2, e3⟩ := (remove_timer_from_list_spec l timer s L hL).2 hin
  refine ⟨_, e1, e3, ?_, fun t => target_writeLoc s loc1 _ t⟩
  intro l' L' hne hL' hdis
  apply timer_list_writeLoc_other s loc1 _ l' L' hL'
  · rcases e2 with e2 | ⟨x, _, _, e2⟩
    · rw [e2]; intro e; injection e with e; exact hne e.symm
    · rw [e2]; simp
  · intro y hy
    rcases e2 with e2 | ⟨x, hx, _, e2⟩
    · rw [e2]; simp
    · rw [e2]; intro e; injection e with e
      exact hdis hx (by rw [e]; exact hy)

/-- The function `_remove` on three lists that end and share no node: it returns, each list
is afterwards the old one without the timer, no `target`, `long_target` or `thread` field
changes, and nothing at all changes when the timer is in none of the lists. -/
theorem remove_spec (timer : timer_ptr) (s : State) (S O G : List timer_ptr)
    (hS : timer_list s .short = some S) (hO : timer_list s .overflow = some O)
    (hG : timer_list s .long = some G) (hnd : (S ++ O ++ G).Nodup) :
    ∃ s', _remove timer s = some s' ∧
      timer_list s' .short = some (S.erase timer) ∧
      timer_list s' .overflow = some (O.erase timer) ∧
      timer_list s' .long = some (G.erase timer) ∧
      (∀ t, (s'.getTimer t).target = (s.getTimer t).target ∧
        (s'.getTimer t).long_target = (s.getTimer t).long_target ∧
        (s'.getTimer t).thread = (s.getTimer t).thread) ∧
      (timer ∉ S ++ O ++ G → s' = s) := by
  obtain ⟨hSO, hGn, hdSOG⟩ := List.nodup_append.mp hnd
  obtain ⟨hSn, hOn, hdSO⟩ := List.nodup_append.mp hSO
  have hdSG : S.Disjoint G := fun x hx hg => hdSOG (List.mem_append_left _ hx) hg
  have hdOG : O.Disjoint G := fun x hx hg => hdSOG (List.mem_append_right _ hx) hg
  by_cases hhead : s.timer_list_head = some timer
  · -- the timer is the head of the short list
    have hS' : timer_chain s TIMER_NODES (some timer) = some S := by
      rw [← hhead]; exact hS
    obtain ⟨T, rfl⟩ : ∃ T, S = timer :: T := by
      simp only [TIMER_NODES, timer_chain, Option.map_eq_some'] at hS'
      obtain ⟨T, _, e⟩ := hS'
      exact ⟨T, e.symm⟩
    obtain ⟨_, m, hm, hT⟩ := timer_chain_cons s _ _ timer T hS'
    have htO : timer ∉ O := fun h => hdSO (List.mem_cons_self _ _) h
    have htG : timer ∉ G := fun h => hdSG (List.mem_cons_self _ _) h
    have hrem : _remove timer s
        = some (_lltimer_set
            (match (s.writeLoc (.head .short) (s.getTimer timer).next).timer_list_head with
              | some h => (((s.writeLoc (.head .short) (s.getTimer timer).next).getTimer h).target
                  + U32 - SECURE_MINTIMER_OVERHEAD) % U32
              | none => _secure_mintimer_lltimer_mask 0xFFFFFFFF)
            (s.writeLoc (.head .short) (s.getTimer timer).next)) := by
      unfold _remove
      simp only [hhead, if_true]
      rfl
    refine ⟨_, hrem, ?_, ?_, ?_, ?_, ?_⟩
    · rw [lltimer_set_timer_list, List.erase_cons_head]
      unfold timer_list
      rw [listHead_writeLoc]
      simp only [if_true]
      apply timer_chain_mono _ m TIMER_NODES (by omega)
      apply timer_chain_congr_on s _ _ _ _ hT
      intro x _
      rw [getTimer_writeLoc]
      simp
    · rw [lltimer_set_timer_list, List.erase_of_not_mem htO]
      exact timer_list_writeLoc_other s _ _ _ O hO (by simp) (by intro x _; simp)
    · rw [lltimer_set_timer_list, List.erase_of_not_mem htG]
      exact timer_list_writeLoc_other s _ _ _ G hG (by simp) (by intro x _; simp)
    · intro t
      rw [lltimer_set_getTimer]
      exact target_writeLoc s _ _ t
    · intro hnot
      exact absurd (List.mem_append_left _ (List.mem_append_left _ (List.mem_cons_self _ _)))
        hnot
  · by_cases hinS : timer ∈ S
    · obtain ⟨s1, e1, e2, e3, e4⟩ := remove_timer_from_list_present .short timer s S hS hinS
      have htO : timer ∉ O := fun h => hdSO hinS h
      have htG : timer ∉ G := fun h => hdSG hinS h
      refine ⟨s1, ?_, e2, ?_, ?_, e4, ?_⟩
      · unfold _remove
        simp only [hhead, if_false, e1]
        simp
      · rw [List.erase_of_not_mem htO]
        exact e3 _ O (by simp) hO hdSO
      · rw [List.erase_of_not_mem htG]
        exact e3 _ G (by simp) hG hdSG
      · intro hnot
        exact absurd (List.mem_append_left _ (List.mem_append_left _ hinS)) hnot
    · have e1 := (remove_timer_from_list_spec .short timer s S hS).1 hinS
      by_cases hinO : timer ∈ O
      · obtain ⟨s2, f1, f2, f3, f4⟩ :=
          remove_timer_from_list_present .overflow timer s O hO hinO
        have htG : timer ∉ G := fun h => hdOG hinO h
        refine ⟨s2, ?_, ?_, f2, ?_, f4, ?_⟩
        · unfold _remove
          simp only [hhead, if_false, e1, f1]
          simp
        · rw [List.erase_of_not_mem hinS]
          exact f3 _ S (by simp) hS hdSO.symm
        · rw [List.erase_of_not_mem htG]
          exact f3 _ G (by simp) hG hdOG
        · intro hnot
          exact absurd (List.mem_append_left _ (List.mem_append_right _ hinO)) hnot
      · have f1 := (remove_timer_from_list_spec .overflow timer s O hO).1 hinO
        by_cases hinG : timer ∈ G
        · obtain ⟨s3, g1, g2, g3, g4⟩ :=
            remove_timer_from_list_present .long timer s G hG hinG
          refine ⟨s3, ?_, ?_, ?_, g2, g4, ?_⟩
          · unfold _remove
            simp only [hhead, if_false, e1, f1, g1]
            simp
          · rw [List.erase_of_not_mem hinS]
            exact g3 _ S (by simp) hS hdSG.symm
          · rw [List.erase_of_not_mem hinO]
            exact g3 _ O (by simp) hO hdOG.symm
          · intro hnot
            exact absurd (List.mem_append_right _ hinG) hnot
        · have g1 := (remove_timer_from_list_spec .long timer s G hG).1 hinG
          refine ⟨s, ?_, ?_, ?_, ?_, fun t => ⟨rfl, rfl, rfl⟩, fun _ => rfl⟩
          · unfold _remove
            simp only [hhead, if_false, e1, f1, g1]
            simp
          · rw [List.erase_of_not_mem hinS]; exact hS
          · rw [List.erase_of_not_mem hinO]; exact hO
          · rw [List.erase_of_not_mem hinG]; exact hG

/-! ## C22: `secure_mintimer_remove` -/

/-- C22, the code at the failing input. At time 1000 `_secure_mintimer_set` arms the timer
`pool 0` with the offset `2 ^ 32 - 1000`, so that its target is the absolute time 0: the
timer is linked in the long list, and in no other list, with `target = long_target = 0`.
`_is_set` takes these two zeros to mean that the timer is not armed, so
`secure_mintimer_remove` returns the state as it is and the timer is still linked in the
long list. -/
theorem remove_keeps_timer_armed_for_zero :
    armed_for_zero_boot.map (fun s => (timer_list s .long, (s.getTimer (.pool 0)).target,
        (s.getTimer (.pool 0)).long_target)) = some (some [.pool 0], 0, 0) ∧
    timer_ownership_inv armed_for_zero ∧
    _is_set armed_for_zero (.pool 0) = false ∧
    secure_mintimer_remove (.pool 0) armed_for_zero = some armed_for_zero ∧
    (secure_mintimer_remove (.pool 0) armed_for_zero).map (fun s => timer_list s .long)
      = some (some [.pool 0]) := by
  have h : _is_set armed_for_zero (.pool 0) = false := by decide!
  refine ⟨by decide!, by decide!, h, ?_, by decide!⟩
  unfold secure_mintimer_remove
  rw [h]
  rfl

/-- What `secure_mintimer_remove` does for a timer that `_is_set` takes to be armed
(`target` or `long_target` is not 0), on three lists that end and share no node: it
returns, each list is afterwards the old one without the timer, the timer is in none of
them, its `target` and `long_target` are 0, the fields `target` and `long_target` of the
other timers are as before, and a second call on the result changes nothing. -/
theorem secure_mintimer_remove_set_timer (timer : timer_ptr) (s : State)
    (S O G : List timer_ptr) (hS : timer_list s .short = some S)
    (hO : timer_list s .overflow = some O) (hG : timer_list s .long = some G)
    (hnd : (S ++ O ++ G).Nodup) (hset : _is_set s timer = true) :
    ∃ s', secure_mintimer_remove timer s = some s' ∧
      secure_mintimer_remove timer s' = some s' ∧
      timer_list s' .short = some (S.erase timer) ∧
      timer_list s' .overflow = some (O.erase timer) ∧
      timer_list s' .long = some (G.erase timer) ∧
      timer ∉ S.erase timer ++ O.erase timer ++ G.erase timer ∧
      (s'.getTimer timer).target = 0 ∧ (s'.getTimer timer).long_target = 0 ∧
      (∀ t, t ≠ timer → (s'.getTimer t).target = (s.getTimer t).target ∧
        (s'.getTimer t).long_target = (s.getTimer t).long_target) := by
  obtain ⟨hSO, hGn, _⟩ := List.nodup_append.mp hnd
  obtain ⟨hSn, hOn, _⟩ := List.nodup_append.mp hSO
  obtain ⟨s1, e1, e2, e3, e4, e5, _⟩ := remove_spec timer s S O G hS hO hG hnd
  have hfin : secure_mintimer_remove timer s
      = some (s1.setTimer timer { s1.getTimer timer with target := 0, long_target := 0 }) := by
    unfold secure_mintimer_remove
    simp only [hset, if_true, e1]
  have hnx : ∀ x, ((s1.setTimer timer
      { s1.getTimer timer with target := 0, long_target := 0 }).getTimer x).next
        = (s1.getTimer x).next := by
    intro x
    rw [getTimer_setTimer]
    split
    · next h => rw [h]
    · rfl
  have hhd : ∀ l, (s1.setTimer timer
      { s1.getTimer timer with target := 0, long_target := 0 }).listHead l
        = s1.listHead l := by
    intro l
    cases l <;> cases timer <;> rfl
  have hunset : _is_set (s1.setTimer timer
      { s1.getTimer timer with target := 0, long_target := 0 }) timer = false := by
    unfold _is_set
    rw [getTimer_setTimer]
    simp
  refine ⟨_, hfin, ?_, ?_, ?_, ?_, ?_, ?_, ?_, ?_⟩
  · unfold secure_mintimer_remove
    rw [hunset]
    rfl
  · exact timer_list_frame s1 _ _ _ e2 (hhd _) (fun x _ => hnx x)
  · exact timer_list_frame s1 _ _ _ e3 (hhd _) (fun x _ => hnx x)
  · exact timer_list_frame s1 _ _ _ e4 (hhd _) (fun x _ => hnx x)
  · intro h
    rcases List.mem_append.mp h with h | h
    · rcases List.mem_append.mp h with h | h
      · exact (List.Nodup.mem_erase_iff hSn).mp h |>.1 rfl
      · exact (List.Nodup.mem_erase_iff hOn).mp h |>.1 rfl
    · exact (List.Nodup.mem_erase_iff hGn).mp h |>.1 rfl
  · rw [getTimer_setTimer]; simp
  · rw [getTimer_setTimer]; simp
  · intro t ht
    rw [getTimer_setTimer]
    simp only [ht, if_false]
    exact ⟨(e5 t).1, (e5 t).2.1⟩

/-- An instance of `secure_mintimer_remove_set_timer`: in the state `overflow_and_long` the
timer `pool 1` is linked in the long list and `pool 0` in the overflow list; after the
removal of `pool 1` the long list is empty and the overflow list is as before. -/
theorem secure_mintimer_remove_set_timer_example :
    ∃ s', secure_mintimer_remove (.pool 1) overflow_and_long = some s' ∧
      secure_mintimer_remove (.pool 1) s' = some s' ∧
      timer_list s' .short = some [] ∧ timer_list s' .overflow = some [.pool 0] ∧
      timer_list s' .long = some [] ∧
      (s'.getTimer (.pool 1)).target = 0 ∧ (s'.getTimer (.pool 1)).long_target = 0 := by
  obtain ⟨s', h1, h2, h3, h4, h5, _, h7, h8, _⟩ :=
    secure_mintimer_remove_set_timer (.pool 1) overflow_and_long [] [.pool 0] [.pool 1]
      (by decide!) (by decide!) (by decide!) (by decide) (by decide!)
  exact ⟨s', h1, h2, h3, by simpa using h4, by simpa using h5, h7, h8⟩

/-! ## C21: the backoff branch of `_secure_mintimer_set_absolute` -/

theorem setTimer_sched (s : State) (p : timer_ptr) (t : secure_mintimer_t) :
    (s.setTimer p t).sched_threads = s.sched_threads ∧
    (s.setTimer p t).sched_runqueues = s.sched_runqueues ∧
    (s.setTimer p t).runqueue_bitcache = s.runqueue_bitcache ∧
    (s.setTimer p t).secure_mintimer_high_cnt = s.secure_mintimer_high_cnt ∧
    (s.setTimer p t).long_cnt = s.long_cnt ∧
    (s.setTimer p t).TAR = s.TAR ∧
    (s.setTimer p t).in_handler = s.in_handler ∧
    (∀ l, (s.setTimer p t).listHead l = s.listHead l) := by
  cases p <;> exact ⟨rfl, rfl, rfl, rfl, rfl, rfl, rfl, fun l => by cases l <;> rfl⟩

theorem sched_set_status_timers (process : Nat) (status : thread_status_t) (s s' : State)
    (h : sched_set_status process status s = some s') :
    (∀ t, s'.getTimer t = s.getTimer t) ∧ (∀ l, s'.listHead l = s.listHead l) ∧
    s'.secure_mintimer_high_cnt = s.secure_mintimer_high_cnt ∧ s'.long_cnt = s.long_cnt ∧
    s'.TAR = s.TAR ∧ s'.in_handler = s.in_handler := by
  have e := sched_set_status_frame process status s s' h
  rw [e]
  exact ⟨fun t => by cases t <;> rfl, fun l => by cases l <;> rfl, rfl, rfl, rfl, rfl⟩

theorem same_epoch_refl (s : State) : same_epoch s s := ⟨rfl, rfl⟩

theorem same_epoch_trans {s m t : State} (h1 : same_epoch s m) (h2 : same_epoch m t) :
    same_epoch s t := ⟨h2.1.trans h1.1, h2.2.trans h1.2⟩

theorem same_epoch_setTimer (s : State) (p : timer_ptr) (t : secure_mintimer_t) :
    same_epoch s (s.setTimer p t) := by
  cases p <;> exact ⟨rfl, rfl⟩

theorem same_epoch_writeLoc (s : State) (loc : timer_loc) (v : Option timer_ptr) :
    same_epoch s (s.writeLoc loc v) := by
  cases loc with
  | head l => cases l <;> exact ⟨rfl, rfl⟩
  | next t => exact same_epoch_setTimer s t _

theorem same_epoch_lltimer_set (target : Nat) (s : State) :
    same_epoch s (_lltimer_set target s) := by
  unfold _lltimer_set
  split <;> exact ⟨rfl, rfl⟩

theorem same_epoch_remove_loop (timer : timer_ptr) :
    ∀ (fuel : Nat) (loc : timer_loc) (s : State) (r : Int) (s' : State),
      remove_timer_from_list_loop timer fuel loc s = some (r, s') → same_epoch s s' := by
  intro fuel
  induction fuel with
  | zero => intro loc s r s' h; simp [remove_timer_from_list_loop] at h
  | succ n ih =>
    intro loc s r s' h
    unfold remove_timer_from_list_loop at h
    split at h
    · simp at h; rw [← h.2]; exact same_epoch_refl s
    · split at h
      · simp at h; rw [← h.2]; exact same_epoch_writeLoc _ _ _
      · exact ih _ _ _ _ h

theorem same_epoch_remove (timer : timer_ptr) (s s' : State) (h : _remove timer s = some s') :
    same_epoch s s' := by
  unfold _remove at h
  split at h
  · simp at h
    rw [← h]
    exact same_epoch_trans (m := { s with timer_list_head := (s.getTimer timer).next })
      ⟨rfl, rfl⟩ (same_epoch_lltimer_set _ _)
  · unfold _remove_timer_from_list at h
    split at h
    · simp at h
    · rename_i r1 s1 h1
      have e1 := same_epoch_remove_loop _ _ _ _ _ _ h1
      split at h
      · split at h
        · simp at h
        · rename_i r2 s2 h2
          have e2 := same_epoch_remove_loop _ _ _ _ _ _ h2
          split at h
          · split at h
            · simp at h
            · rename_i r3 s3 h3
              have e3 := same_epoch_remove_loop _ _ _ _ _ _ h3
              simp at h
              rw [← h]
              exact same_epoch_trans (same_epoch_trans e1 e2) e3
          · simp at h
            rw [← h]
            exact same_epoch_trans e1 e2
      · simp at h
        rw [← h]
        exact e1

theorem same_epoch_secure_mintimer_remove (timer : timer_ptr) (s s' : State)
    (h : secure_mintimer_remove timer s = some s') : same_epoch s s' := by
  unfold secure_mintimer_remove at h
  split at h
  · split at h
    · simp at h
    · rename_i s1 h1
      simp at h
      rw [← h]
      exact same_epoch_trans (same_epoch_remove _ _ _ h1) (same_epoch_setTimer _ _ _)
  · simp at h; rw [← h]; exact same_epoch_refl s

theorem same_epoch_insert_loop (keep : timer_ptr → Bool) (timer : timer_ptr) :
    ∀ (fuel : Nat) (loc : timer_loc) (s s' : State),
      insert_loop keep timer fuel loc s = some s' → same_epoch s s' := by
  intro fuel
  induction fuel with
  | zero => intro loc s s' h; simp [insert_loop] at h
  | succ n ih =>
    intro loc s s' h
    unfold insert_loop at h
    split at h
    · split at h
      · exact ih _ _ _ h
      · simp at h; rw [← h]
        exact same_epoch_trans (same_epoch_writeLoc _ _ _) (same_epoch_writeLoc _ _ _)
    · simp at h; rw [← h]
      exact same_epoch_trans (same_epoch_writeLoc _ _ _) (same_epoch_writeLoc _ _ _)

theorem same_epoch_add_timer_to_list (l : timer_list_id) (timer : timer_ptr) (s s' : State)
    (h : _add_timer_to_list l timer s = some s') : same_epoch s s' := by
  unfold _add_timer_to_list at h
  rw [add_timer_to_list_loop_eq] at h
  exact same_epoch_insert_loop _ _ _ _ _ _ h

theorem same_epoch_add_timer_to_long_list (l : timer_list_id) (timer : timer_ptr)
    (s s' : State) (h : _add_timer_to_long_list l timer s = some s') : same_epoch s s' := by
  unfold _add_timer_to_long_list at h
  rw [add_timer_to_long_list_loop_eq] at h
  exact same_epoch_insert_loop _ _ _ _ _ _ h

theorem same_epoch_sched_set_status (process : Nat) (status : thread_status_t) (s s' : State)
    (h : sched_set_status process status s = some s') : same_epoch s s' := by
  obtain ⟨_, _, h1, h2, _⟩ := sched_set_status_timers process status s s' h
  exact ⟨h1, h2⟩

theorem same_epoch_shoot_timer (timer : timer_ptr) (s s' : State)
    (h : _shoot_timer timer s = some s') : same_epoch s s' := by
  unfold _shoot_timer at h
  simp only [] at h
  split at h
  · simp at h
  · rename_i s1 h1
    simp at h
    rw [← h]
    have e1 : same_epoch s s1 := by
      split at h1
      · exact same_epoch_sched_set_status _ _ _ _ h1
      · simp at h1; rw [← h1]; exact same_epoch_refl s
    exact same_epoch_trans e1 ⟨rfl, rfl⟩

theorem same_epoch_set_absolute_place (timer : timer_ptr) (target now : Nat) (s : State)
    (r : Int) (s' : State) (h : set_absolute_place timer target now s = some (r, s')) :
    same_epoch s s' := by
  unfold set_absolute_place at h
  split at h
  · split at h
    · simp at h
    · rename_i s2 h2
      simp at h
      rw [← h.2]
      exact same_epoch_add_timer_to_long_list _ _ _ _ h2
  · split at h
    · split at h
      · simp at h
      · rename_i s2 h2
        simp at h
        rw [← h.2]
        exact same_epoch_add_timer_to_list _ _ _ _ h2
    · split at h
      · simp at h
      · rename_i s2 h2
        have e2 := same_epoch_add_timer_to_list _ _ _ _ h2
        split at h
        · simp at h
          rw [← h.2]
          exact same_epoch_trans e2 (same_epoch_lltimer_set _ _)
        · simp at h
          rw [← h.2]
          exact e2

theorem same_epoch_set_absolute_explicit (timer : timer_ptr) (now : Nat) (s : State) (r : Int)
    (s' : State) (h : _secure_mintimer_set_absolute_explicit timer now s = some (r, s')) :
    same_epoch s s' := by
  unfold _secure_mintimer_set_absolute_explicit at h
  simp only [] at h
  have e0 : ∀ tg, same_epoch s (set_absolute_bump timer tg now s) := by
    intro tg
    unfold set_absolute_bump
    split
    · exact same_epoch_setTimer _ _ _
    · exact same_epoch_refl s
  exact same_epoch_trans (e0 _) (same_epoch_set_absolute_place _ _ _ _ _ _ h)

theorem same_epoch_set_absolute (timer : Option timer_ptr) (target : Nat) (s : State) (r : Int)
    (s' : State) (h : _secure_mintimer_set_absolute timer target s = some (r, s')) :
    same_epoch s s' := by
  unfold _secure_mintimer_set_absolute at h
  split at h
  · simp at h
  · rename_i tm
    simp only [] at h
    have e1 := same_epoch_setTimer s tm { s.getTimer tm with next := none }
    split at h
    · split at h
      · simp at h
      · rename_i s2 h2
        simp at h
        rw [← h.2]
        have e2 := same_epoch_shoot_timer _ _ _ h2
        exact same_epoch_trans e1 (same_epoch_trans
          (m := secure_mintimer_spin_until target
            (s.setTimer tm { s.getTimer tm with next := none })) ⟨rfl, rfl⟩ e2)
    · split at h
      · simp at h
      · rename_i s2 h2
        have e2 : same_epoch (s.setTimer tm { s.getTimer tm with next := none }) s2 := by
          split at h2
          · exact same_epoch_remove _ _ _ h2
          · simp at h2; rw [← h2]; exact same_epoch_refl _
        have e3 := same_epoch_set_absolute_explicit _ _ _ _ _ h
        exact same_epoch_trans e1 (same_epoch_trans e2
          (same_epoch_trans (same_epoch_setTimer _ _ _) e3))

theorem same_epoch_secure_mintimer_set (timer : timer_ptr) (offset : Nat) (s s' : State)
    (h : _secure_mintimer_set timer offset s = some s') : same_epoch s s' := by
  unfold _secure_mintimer_set at h
  split at h
  · simp at h
  · rename_i s1 h1
    simp only [] at h
    split at h
    · simp at h
    · rename_i r s2 h2
      simp at h
      rw [← h]
      exact same_epoch_trans (same_epoch_secure_mintimer_remove _ _ _ h1)
        (same_epoch_set_absolute _ _ _ _ _ h2)

theorem same_epoch_get_available_timer (pid : Int) (s : State) (r : Option timer_ptr)
    (s' : State) (h : get_available_timer pid s = some (r, s')) : same_epoch s s' := by
  unfold get_available_timer at h
  split at h
  · split at h
    · split at h
      · simp at h
      · rename_i s1 h1
        simp at h
        rw [← h.2]
        exact same_epoch_secure_mintimer_remove _ _ _ h1
    · simp at h
  · simp at h; rw [← h.2]; exact same_epoch_refl s

theorem same_epoch_tsleep (cfg : Config) (offset : Nat) (pid : Int) (s s' : State)
    (h : _secure_mintimer_tsleep_specific_pid cfg offset pid s = some s') :
    same_epoch s s' := by
  unfold _secure_mintimer_tsleep_specific_pid at h
  split at h
  · simp at h
  · rename_i s1 h1
    simp at h; rw [← h]
    exact same_epoch_get_available_timer _ _ _ _ h1
  · rename_i timer s1 h1
    have e1 := same_epoch_get_available_timer _ _ _ _ h1
    split at h
    · simp only [] at h
      split at h
      · simp at h
      · rename_i s3 h3
        exact same_epoch_trans e1 (same_epoch_trans (same_epoch_setTimer _ _ _)
          (same_epoch_trans (same_epoch_sched_set_status _ _ _ _ h3)
            (same_epoch_secure_mintimer_set _ _ _ _ h)))
    · simp at h

theorem same_epoch_select_loop :
    ∀ (fuel : Nat) (last : Option timer_ptr) (s : State) (r : Option timer_ptr) (s' : State),
      select_long_timers_loop fuel last s = some (r, s') → same_epoch s s' := by
  intro fuel
  induction fuel with
  | zero => intro last s r s' h; simp [select_long_timers_loop] at h
  | succ n ih =>
    intro last s r s' h
    unfold select_long_timers_loop at h
    split at h
    · split at h
      · have e := ih _ _ _ _ h
        exact ⟨e.1, e.2⟩
      · simp at h; rw [← h.2]; exact same_epoch_refl s
    · simp at h; rw [← h.2]; exact same_epoch_refl s

theorem same_epoch_merge_loop :
    ∀ (fuel : Nat) (head_a head_b pos : timer_ptr) (s s' : State),
      merge_lists_loop fuel head_a head_b pos s = some s' → same_epoch s s' := by
  intro fuel
  induction fuel with
  | zero => intro a b pos s s' h; simp [merge_lists_loop] at h
  | succ n ih =>
    intro a b pos s s' h
    unfold merge_lists_loop at h
    split at h
    · simp at h; rw [← h]; exact same_epoch_setTimer _ _ _
    · simp at h; rw [← h]; exact same_epoch_setTimer _ _ _
    · exact same_epoch_trans (same_epoch_setTimer _ _ _) (ih _ _ _ _ _ h)

theorem same_epoch_select_long_timers (s s' : State) (h : _select_long_timers s = some s') :
    same_epoch s s' := by
  unfold _select_long_timers at h
  simp only [] at h
  split at h
  · simp at h
  · rename_i s1 h1
    simp at h; rw [← h]
    exact same_epoch_select_loop _ _ _ _ _ h1
  · rename_i last s1 h1
    have e1 := same_epoch_select_loop _ _ _ _ _ h1
    have e2 := same_epoch_setTimer s1 last { s1.getTimer last with next := none }
    split at h
    · unfold _merge_lists at h
      simp only [] at h
      split at h
      · simp at h
      · rename_i r s3 h3
        split at h3
        · simp at h3
        · rename_i s4 h4
          simp at h3
          simp at h
          rw [← h, ← h3.2]
          exact same_epoch_trans e1 (same_epoch_trans e2
            (same_epoch_trans (same_epoch_merge_loop _ _ _ _ _ _ h4) ⟨rfl, rfl⟩))
    · simp at h; rw [← h]; exact same_epoch_trans e1 e2
    · simp at h; rw [← h]
      exact same_epoch_trans e1 (same_epoch_trans e2 ⟨rfl, rfl⟩)

/-- The first loop of `_select_long_timers` on a long list that ends: it returns, having
moved `long_list_head` behind a prefix `G1` of the list; the last selected timer is the
last node of `G1`. -/
theorem select_loop_spec :
    ∀ (G : List timer_ptr) (n fuel : Nat) (last : Option timer_ptr) (s : State),
      timer_chain s n s.long_list_head = some G → G.length < fuel →
      ∃ G1 G2 p, G = G1 ++ G2 ∧
        select_long_timers_loop fuel last s
          = some ((last.toList ++ G1).getLast?, { s with long_list_head := p }) := by
  intro G
  induction G with
  | nil =>
    intro n fuel last s hc hf
    obtain ⟨f, rfl⟩ : ∃ f, fuel = f + 1 := ⟨fuel - 1, by omega⟩
    have hr := timer_chain_nil s n _ hc
    have e : select_long_timers_loop (f + 1) last s = some (last, s) := by
      unfold select_long_timers_loop
      simp only [hr]
    refine ⟨[], [], s.long_list_head, rfl, ?_⟩
    rw [e]
    cases last <;> rfl
  | cons h T ih =>
    intro n fuel last s hc hf
    obtain ⟨f, rfl⟩ : ∃ f, fuel = f + 1 := ⟨fuel - 1, by omega⟩
    obtain ⟨hr, m, rfl, hT⟩ := timer_chain_cons s n _ h T hc
    by_cases hk : (s.getTimer h).long_target ≤ s.long_cnt
        ∧ _this_high_period s (s.getTimer h).target = true
    · have hT' : timer_chain { s with long_list_head := (s.getTimer h).next } m
          ({ s with long_list_head := (s.getTimer h).next } : State).long_list_head
            = some T := by
        apply timer_chain_congr_on s _ _ _ _ hT
        intro x _
        cases x <;> rfl
      obtain ⟨G1, G2, p, e1, e2⟩ := ih m f (some h) _ hT' (by simp at hf; omega)
      have e : select_long_timers_loop (f + 1) last s
          = select_long_timers_loop f (some h)
              { s with long_list_head := (s.getTimer h).next } := by
        rw [select_long_timers_loop]
        simp only [hr, hk, and_self, if_true]
      have hlast : ((some h).toList ++ G1).getLast? = (last.toList ++ h :: G1).getLast? := by
        cases last <;> simp [List.getLast?_append, List.getLast?_cons_cons]
      refine ⟨h :: G1, G2, p, by rw [e1]; rfl, ?_⟩
      rw [e, e2, hlast]
    · have e : select_long_timers_loop (f + 1) last s = some (last, s) := by
        unfold select_long_timers_loop
        simp only [hr, hk, if_false]
      refine ⟨[], h :: T, s.long_list_head, rfl, ?_⟩
      rw [e]
      cases last <;> rfl

/-- Cutting a chain behind the node `lst`: with `lst->next = NULL` and the other `next`
fields as before, the chain is the prefix that ends in `lst`. -/
theorem timer_chain_cut (s s' : State) (lst : timer_ptr)
    (hnx : (s'.getTimer lst).next = none)
    (hoth : ∀ x, x ≠ lst → (s'.getTimer x).next = (s.getTimer x).next) :
    ∀ (G1 G2 : List timer_ptr) (n : Nat) (g : timer_ptr),
      timer_chain s n (some g) = some (G1 ++ G2) → G1.getLast? = some lst →
      timer_chain s' n (some g) = some G1 := by
  intro G1
  induction G1 with
  | nil => intro G2 n g _ hl; simp at hl
  | cons x R ih =>
    intro G2 n g hc hl
    have hnd := timer_chain_nodup s _ _ _ hc
    obtain ⟨hg, m, rfl, hT⟩ := timer_chain_cons s n _ x (R ++ G2) hc
    injection hg with hg
    subst hg
    cases R with
    | nil =>
      simp at hl
      subst hl
      simp [timer_chain, hnx]
    | cons y R' =>
      have hl' : (y :: R').getLast? = some lst := by
        rw [List.getLast?_cons_cons] at hl; exact hl
      have hmem : lst ∈ y :: R' := List.mem_of_getLast?_eq_some hl'
      have hx : g ≠ lst := by
        intro e
        have : g ∉ (y :: R') ++ G2 := (List.nodup_cons.mp hnd).1
        exact this (List.mem_append_left _ (by rw [e]; exact hmem))
      obtain ⟨hy, _⟩ := timer_chain_cons s m _ y (R' ++ G2) hT
      have hT2 : timer_chain s m (some y) = some ((y :: R') ++ G2) := by
        rw [← hy]; exact hT
      have := ih G2 m y hT2 hl'
      simp only [timer_chain, Option.map_eq_some']
      refine ⟨y :: R', ?_, rfl⟩
      rw [hoth g hx, hy]
      exact this

/-- The loop of `_merge_lists` on two chains that end and share no node returns. -/
theorem merge_loop_returns :
    ∀ (A : List timer_ptr) (fuel : Nat) (head_a head_b pos : timer_ptr) (s : State)
      (B : List timer_ptr) (n n' : Nat),
      timer_chain s n (some head_a) = some (head_a :: A) →
      timer_chain s n' (some head_b) = some (head_b :: B) →
      (head_a :: A).Disjoint (head_b :: B) → (pos = head_a ∨ pos = head_b) →
      A.length < fuel →
      ∃ s', merge_lists_loop fuel head_a head_b pos s = some s' := by
  intro A
  induction A with
  | nil =>
    intro fuel a b pos s B n n' ha _ _ _ hf
    obtain ⟨f, rfl⟩ : ∃ f, fuel = f + 1 := ⟨fuel - 1, by omega⟩
    obtain ⟨_, m, _, hT⟩ := timer_chain_cons s n _ a [] ha
    have hr := timer_chain_nil s m _ hT
    unfold merge_lists_loop
    rw [hr]
    exact ⟨_, rfl⟩
  | cons a1 A' ih =>
    intro fuel a b pos s B n n' ha hb hdis hpos hf
    obtain ⟨f, rfl⟩ : ∃ f, fuel = f + 1 := ⟨fuel - 1, by omega⟩
    have hnda := timer_chain_nodup s _ _ _ ha
    have hndb := timer_chain_nodup s _ _ _ hb
    obtain ⟨_, m, rfl, hTa⟩ := timer_chain_cons s n _ a (a1 :: A') ha
    obtain ⟨hra, _⟩ := timer_chain_cons s m _ a1 A' hTa
    obtain ⟨_, m', rfl, hTb⟩ := timer_chain_cons s n' _ b B hb
    cases B with
    | nil =>
      have hrb := timer_chain_nil s m' _ hTb
      unfold merge_lists_loop
      rw [hra, hrb]
      exact ⟨_, rfl⟩
    | cons b1 B' =>
      obtain ⟨hrb, _⟩ := timer_chain_cons s m' _ b1 B' hTb
      have hposa : ∀ x ∈ a1 :: A', x ≠ pos := by
        intro x hx e
        rcases hpos with hp | hp
        · rw [hp] at e
          exact (List.nodup_cons.mp hnda).1 (by rw [← e]; exact hx)
        · rw [hp] at e
          exact hdis (List.mem_cons_of_mem _ hx) (by rw [e]; exact List.mem_cons_self _ _)
      have hposb : ∀ x ∈ b1 :: B', x ≠ pos := by
        intro x hx e
        rcases hpos with hp | hp
        · rw [hp] at e
          exact hdis (List.mem_cons_self _ _) (by rw [← e]; exact List.mem_cons_of_mem _ hx)
        · rw [hp] at e
          exact (List.nodup_cons.mp hndb).1 (by rw [← e]; exact hx)
      have hca : timer_chain
          (s.setTimer pos { s.getTimer pos with next := some (_compare s a1 b1) }) m (some a1)
            = some (a1 :: A') := by
        apply timer_chain_congr_on s _ _ _ _ (by rw [← hra]; exact hTa)
        intro x hx
        rw [getTimer_setTimer]
        simp [hposa x hx]
      have hcb : timer_chain
          (s.setTimer pos { s.getTimer pos with next := some (_compare s a1 b1) }) m' (some b1)
            = some (b1 :: B') := by
        apply timer_chain_congr_on s _ _ _ _ (by rw [← hrb]; exact hTb)
        intro x hx
        rw [getTimer_setTimer]
        simp [hposb x hx]
      have hdis' : (a1 :: A').Disjoint (b1 :: B') :=
        fun x hx hy => hdis (List.mem_cons_of_mem _ hx) (List.mem_cons_of_mem _ hy)
      have hc : _compare s a1 b1 = a1 ∨ _compare s a1 b1 = b1 := by
        unfold _compare
        split
        · exact Or.inl rfl
        · exact Or.inr rfl
      obtain ⟨s', hs'⟩ := ih f a1 b1 (_compare s a1 b1) _ B' m m' hca hcb hdis' hc
        (by simp at hf; omega)
      unfold merge_lists_loop
      rw [hra, hrb]
      exact ⟨s', hs'⟩

/-- The function `_merge_lists` returns on the short list and the selected part of the long
list, cut behind its last node. -/
theorem merge_lists_returns (s s2 : State) (A G1 G2 : List timer_ptr) (last h st : timer_ptr)
    (hA : timer_list s .short = some A) (hG : timer_list s .long = some (G1 ++ G2))
    (hdis : A.Disjoint (G1 ++ G2)) (hl : G1.getLast? = some last)
    (hh : s2.timer_list_head = some h) (hhd : s2.timer_list_head = s.timer_list_head)
    (hst : s.long_list_head = some st)
    (hoth : ∀ x, x ≠ last → (s2.getTimer x).next = (s.getTimer x).next)
    (hnx : (s2.getTimer last).next = none) :
    ∃ r, _merge_lists h st s2 = some r := by
  have hlastG : last ∈ G1 := List.mem_of_getLast?_eq_some hl
  have hA' : timer_chain s TIMER_NODES (some h) = some A := by
    rw [← hh, hhd]; exact hA
  have hG' : timer_chain s TIMER_NODES (some st) = some (G1 ++ G2) := by
    rw [← hst]; exact hG
  obtain ⟨A', rfl⟩ : ∃ A', A = h :: A' := by
    simp only [TIMER_NODES, timer_chain, Option.map_eq_some'] at hA'
    obtain ⟨T, _, e⟩ := hA'
    exact ⟨T, e.symm⟩
  have hA2 : timer_chain s2 TIMER_NODES (some h) = some (h :: A') := by
    apply timer_chain_congr_on s _ _ _ _ hA'
    intro x hx
    exact hoth x (fun e => hdis hx (List.mem_append_left _ (by rw [e]; exact hlastG)))
  have hG2 := timer_chain_cut s s2 last hnx hoth G1 G2 TIMER_NODES st hG' hl
  obtain ⟨B, rfl⟩ : ∃ B, G1 = st :: B := by
    simp only [TIMER_NODES, timer_chain, Option.map_eq_some'] at hG2
    obtain ⟨T, _, e⟩ := hG2
    exact ⟨T, e.symm⟩
  have hlen : A'.length < TIMER_NODES + 1 := by
    have := timer_chain_length s _ _ _ hA'
    simp at this
    omega
  have hc : _compare s2 h st = h ∨ _compare s2 h st = st := by
    unfold _compare
    split
    · exact Or.inl rfl
    · exact Or.inr rfl
  obtain ⟨s', hs'⟩ := merge_loop_returns A' (TIMER_NODES + 1) h st (_compare s2 h st) s2 B
    TIMER_NODES TIMER_NODES hA2 hG2
    (fun x hx hy => hdis hx (List.mem_append_left _ hy)) hc hlen
  unfold _merge_lists
  simp only [hs']
  exact ⟨_, rfl⟩

/-- The function `_select_long_timers` returns when the short and the long list end and
share no node. -/
theorem select_long_timers_returns (s : State) (A G : List timer_ptr)
    (hA : timer_list s .short = some A) (hG : timer_list s .long = some G)
    (hdis : A.Disjoint G) : ∃ s', _select_long_timers s = some s' := by
  have hlen : G.length < TIMER_NODES + 1 := by
    have := timer_chain_length s _ _ _ hG
    omega
  obtain ⟨G1, G2, p, e1, e2⟩ := select_loop_spec G TIMER_NODES (TIMER_NODES + 1) none s hG hlen
  have hnone : ((none : Option timer_ptr).toList ++ G1).getLast? = G1.getLast? := by simp
  rw [hnone] at e2
  subst e1
  have hX : ∀ x, ({ s with long_list_head := p } : State).getTimer x = s.getTimer x :=
    fun x => by cases x <;> rfl
  unfold _select_long_timers
  simp only [e2]
  cases hl : G1.getLast? with
  | none => exact ⟨_, rfl⟩
  | some last =>
    simp only []
    split
    · rename_i h st hh hst
      obtain ⟨r, hr⟩ := merge_lists_returns s _ A G1 G2 last h st hA hG hdis hl hh
        (by cases last <;> rfl) hst
        (by intro x hx; rw [getTimer_setTimer]; simp only [hx, if_false]; rw [hX])
        (by rw [getTimer_setTimer]; simp)
      rw [hr]
      exact ⟨_, rfl⟩
    · exact ⟨_, rfl⟩
    · exact ⟨_, rfl⟩

/-- The function `_next_period` with the two counter updates and the swap of the lists
written as one state. -/
theorem next_period_eq (s : State) :
    _next_period s = _select_long_timers
      { s with
        secure_mintimer_high_cnt :=
          (s.secure_mintimer_high_cnt + (0xFFFFFFFF - SECURE_MINTIMER_MASK) + 1) % U32,
        long_cnt :=
          if (s.secure_mintimer_high_cnt + (0xFFFFFFFF - SECURE_MINTIMER_MASK) + 1) % U32 = 0
          then (s.long_cnt + 1) % U32 else s.long_cnt,
        timer_list_head := s.overflow_list_head,
        overflow_list_head := none } := by
  unfold _next_period
  by_cases hz : (s.secure_mintimer_high_cnt + (0xFFFFFFFF - SECURE_MINTIMER_MASK) + 1) % U32 = 0
  · rw [if_pos hz]
    show _select_long_timers _ = _select_long_timers _
    rw [if_pos hz]
  · rw [if_neg hz]
    show _select_long_timers _ = _select_long_timers _
    rw [if_neg hz]

/-- The counters after `_next_period`: `_secure_mintimer_high_cnt` is advanced by
`~SECURE_MINTIMER_MASK + 1` modulo `2 ^ 32`, and `_long_cnt` is incremented modulo `2 ^ 32`
if the new `_secure_mintimer_high_cnt` is 0. -/
theorem next_period_counters (s s' : State) (h : _next_period s = some s') :
    s'.secure_mintimer_high_cnt
      = (s.secure_mintimer_high_cnt + (0xFFFFFFFF - SECURE_MINTIMER_MASK) + 1) % U32 ∧
    s'.long_cnt = (if s'.secure_mintimer_high_cnt = 0 then (s.long_cnt + 1) % U32
      else s.long_cnt) := by
  rw [next_period_eq] at h
  obtain ⟨e1, e2⟩ := same_epoch_select_long_timers _ _ h
  refine ⟨e1, ?_⟩
  rw [e2, e1]

/-- The lists after the counter updates and the swap of `_next_period`: the short list is
the old overflow list, the long list is as before. -/
theorem next_period_swap_lists (s : State) (H lc : Nat) (O G : List timer_ptr)
    (hO : timer_list s .overflow = some O) (hG : timer_list s .long = some G) :
    timer_list { s with secure_mintimer_high_cnt := H, long_cnt := lc,
                        timer_list_head := s.overflow_list_head,
                        overflow_list_head := none } .short = some O ∧
    timer_list { s with secure_mintimer_high_cnt := H, long_cnt := lc,
                        timer_list_head := s.overflow_list_head,
                        overflow_list_head := none } .long = some G := by
  constructor
  · show timer_chain _ TIMER_NODES s.overflow_list_head = some O
    exact timer_chain_congr_on s _ _ _ _ hO (fun x _ => by cases x <;> rfl)
  · show timer_chain _ TIMER_NODES s.long_list_head = some G
    exact timer_chain_congr_on s _ _ _ _ hG (fun x _ => by cases x <;> rfl)

/-- The function `_next_period` returns when the overflow and the long list end and share
no node. -/
theorem next_period_returns (s : State) (O G : List timer_ptr)
    (hO : timer_list s .overflow = some O) (hG : timer_list s .long = some G)
    (hdis : O.Disjoint G) : ∃ s', _next_period s = some s' := by
  rw [next_period_eq]
  exact select_long_timers_returns _ O G (next_period_swap_lists s _ _ O G hO hG).1
    (next_period_swap_lists s _ _ O G hO hG).2 hdis

theorem SECURE_MINTIMER_MASK_eq : SECURE_MINTIMER_MASK = 0xFFFF0000 := by decide

/-- One step of the epoch counters as 64-bit arithmetic. -/
theorem epoch_step (high long : Nat) (hd : 2 ^ SECURE_MINTIMER_WIDTH ∣ high) (hh : high < U32)
    (hl : long < U32) :
    2 ^ SECURE_MINTIMER_WIDTH ∣ (high + (0xFFFFFFFF - SECURE_MINTIMER_MASK) + 1) % U32 ∧
    (high + (0xFFFFFFFF - SECURE_MINTIMER_MASK) + 1) % U32 < U32 ∧
    (if (high + (0xFFFFFFFF - SECURE_MINTIMER_MASK) + 1) % U32 = 0 then (long + 1) % U32
      else long) < U32 ∧
    (if (high + (0xFFFFFFFF - SECURE_MINTIMER_MASK) + 1) % U32 = 0 then (long + 1) % U32
      else long) * U32 + (high + (0xFFFFFFFF - SECURE_MINTIMER_MASK) + 1) % U32
      = (long * U32 + high + 2 ^ SECURE_MINTIMER_WIDTH) % U64 := by
  rw [SECURE_MINTIMER_MASK_eq]
  have hw : SECURE_MINTIMER_WIDTH = 16 := rfl
  rw [hw] at hd ⊢
  unfold U32 at *
  unfold U64
  norm_num at hd ⊢
  obtain ⟨k, rfl⟩ := hd
  split <;> omega

theorem epoch_inv_of_same_epoch {s s' : State} (h : same_epoch s s')
    (hinv : epoch_counters_inv s) : epoch_counters_inv s' := by
  unfold epoch_counters_inv at *
  rw [h.1, h.2]
  exact hinv

theorem epoch_inv_next_period (s s' : State) (h : _next_period s = some s')
    (hinv : epoch_counters_inv s) : epoch_counters_inv s' := by
  obtain ⟨e1, e2⟩ := next_period_counters s s' h
  obtain ⟨a, b, c, _⟩ := epoch_step _ _ hinv.1 hinv.2.1 hinv.2.2
  unfold epoch_counters_inv
  rw [e2, e1]
  exact ⟨a, b, c⟩

theorem same_epoch_callback_shoot :
    ∀ (fuel reference : Nat) (s s' : State),
      timer_callback_shoot fuel reference s = some s' → same_epoch s s' := by
  intro fuel
  induction fuel with
  | zero => intro r s s' h; simp [timer_callback_shoot] at h
  | succ n ih =>
    intro r s s' h
    unfold timer_callback_shoot at h
    split at h
    · simp only [] at h
      split at h
      · split at h
        · simp at h
        · rename_i s4 h4
          have e4 := same_epoch_shoot_timer _ _ _ h4
          have e5 := ih _ _ _ h
          have e3 := same_epoch_trans e4 e5
          refine ⟨e3.1.trans ?_, e3.2.trans ?_⟩
          · rw [(same_epoch_setTimer _ _ _).1]
            split <;> rfl
          · rw [(same_epoch_setTimer _ _ _).2]
            split <;> rfl
      · simp at h; rw [← h]; exact same_epoch_refl s
    · simp at h; rw [← h]; exact same_epoch_refl s

/-! ## The epoch counters across `_timer_callback` -/

section EpochCallback

attribute [local irreducible] _next_period

theorem timer_callback_overflow_zero (reference : Nat) (s : State) :
    timer_callback_overflow 0 reference s = none := rfl

/-- The body of `timer_callback_overflow` for a positive number of passes. -/
theorem timer_callback_overflow_succ (passes reference : Nat) (s : State) :
    timer_callback_overflow (passes + 1) reference s =
    match timer_callback_shoot (TIMER_NODES + 1) reference s with
    | none => none
    | some s1 =>
      let now := (_secure_mintimer_lltimer_now s1 + SECURE_MINTIMER_ISR_BACKOFF) % U16
      if now < reference then
        match _next_period s1 with
        | none => none
        | some s2 =>
          let s3 := if reference < _secure_mintimer_lltimer_now s2 then { s2 with TAR := 0 } else s2
          timer_callback_overflow passes 0 s3
      else
        match s1.timer_list_head with
        | some h =>
          let next_target := ((s1.getTimer h).target + U32 - SECURE_MINTIMER_OVERHEAD) % U32
          if next_target < (_secure_mintimer_now s1 + SECURE_MINTIMER_ISR_BACKOFF) % U32 then
            timer_callback_overflow passes reference s1
          else
            let s2 := { s1 with in_handler := 0 }
            some { _lltimer_set next_target s2 with CTL_IFG := false }
        | none =>
          let next_target := _secure_mintimer_lltimer_mask 0xFFFFFFFF
          let now := _secure_mintimer_lltimer_now s1
          if now < reference then
            match _next_period s1 with
            | none => none
            | some s2 => timer_callback_overflow passes 0 s2
          else if _secure_mintimer_lltimer_mask (now + SECURE_MINTIMER_ISR_BACKOFF) < now then
            match _next_period { s1 with TAR := 0 } with
            | none => none
            | some s2 => timer_callback_overflow passes 0 s2
          else
            let s2 := { s1 with in_handler := 0 }
            some { _lltimer_set next_target s2 with CTL_IFG := false } := rfl

theorem same_epoch_callback_exit (s1 : State) (t : Nat) :
    same_epoch s1 { _lltimer_set t { s1 with in_handler := 0 } with CTL_IFG := false } := by
  have h := same_epoch_lltimer_set t { s1 with in_handler := 0 }
  exact ⟨h.1, h.2⟩

theorem epoch_inv_callback_overflow :
    ∀ (passes reference : Nat) (s s' : State),
      timer_callback_overflow passes reference s = some s' → epoch_counters_inv s →
      epoch_counters_inv s' := by
  intro passes
  induction passes with
  | zero => intro r s s' h; rw [timer_callback_overflow_zero] at h; cases h
  | succ n ih =>
    intro r s s' h hinv
    rw [timer_callback_overflow_succ] at h
    split at h
    · simp at h
    · rename_i s1 h1
      have i1 := epoch_inv_of_same_epoch (same_epoch_callback_shoot _ _ _ _ h1) hinv
      simp only [] at h
      split at h
      · split at h
        · simp at h
        · rename_i s2 h2
          have i2 := epoch_inv_next_period _ _ h2 i1
          refine ih _ _ _ h ?_
          split
          · exact epoch_inv_of_same_epoch (s := s2) ⟨rfl, rfl⟩ i2
          · exact i2
      · split at h
        · split at h
          · exact ih _ _ _ h i1
          · simp at h
            rw [← h]
            exact epoch_inv_of_same_epoch (same_epoch_callback_exit s1 _) i1
        · split at h
          · split at h
            · simp at h
            · rename_i s2 h2
              exact ih _ _ _ h (epoch_inv_next_period _ _ h2 i1)
          · split at h
            · split at h
              · simp at h
              · rename_i s2 h2
                exact ih _ _ _ h (epoch_inv_next_period _ _ h2
                  (epoch_inv_of_same_epoch (s := s1) ⟨rfl, rfl⟩ i1))
            · simp at h
              rw [← h]
              exact epoch_inv_of_same_epoch (same_epoch_callback_exit s1 _) i1

theorem epoch_inv_timer_callback (passes : Nat) (s s' : State)
    (h : _timer_callback passes s = some s') (hinv : epoch_counters_inv s) :
    epoch_counters_inv s' := by
  unfold _timer_callback at h
  simp only [] at h
  split at h
  · split at h
    · simp at h
    · rename_i s2 h2
      have i2 := epoch_inv_next_period _ _ h2
        (epoch_inv_of_same_epoch (s := s) ⟨rfl, rfl⟩ hinv)
      refine epoch_inv_callback_overflow _ _ _ _ h ?_
      split
      · exact epoch_inv_of_same_epoch (s := s2) ⟨rfl, rfl⟩ i2
      · exact i2
  · exact epoch_inv_callback_overflow _ _ _ _ h
      (epoch_inv_of_same_epoch (s := s) ⟨rfl, rfl⟩ hinv)

end EpochCallback

/-! ## C23: the epoch counters -/

/-- The value of `_secure_mintimer_now64` with the hardware counter at 0. -/
theorem now64_at_zero (s : State) (hinv : epoch_counters_inv s) :
    _secure_mintimer_now64 { s with TAR := 0 } = s.long_cnt * U32 + s.secure_mintimer_high_cnt := by
  obtain ⟨_, hh, hl⟩ := hinv
  unfold _secure_mintimer_now64 _secure_mintimer_now_internal _secure_mintimer_lltimer_now
  simp only [Nat.or_zero, Nat.shiftLeft_eq]
  unfold U32 at *
  unfold U64
  norm_num
  omega

/-- C23. Let the overflow list and the long list end and share no node, and let the epoch
counters be `uint32_t` values with `_secure_mintimer_high_cnt` a multiple of
`2 ^ SECURE_MINTIMER_WIDTH`, as they are after static initialisation. Then `_next_period`
returns; in its result `_secure_mintimer_high_cnt` is again such a multiple, the value of
`_secure_mintimer_now64` with the hardware counter at 0 has advanced by exactly
`2 ^ SECURE_MINTIMER_WIDTH` modulo `2 ^ 64`, `_long_cnt` is incremented (modulo `2 ^ 32`)
exactly when `_secure_mintimer_high_cnt` has wrapped to 0, and the value has grown unless
the 64-bit value itself wraps. `_timer_callback`, which calls `_next_period`, keeps
`_secure_mintimer_high_cnt` a multiple of `2 ^ SECURE_MINTIMER_WIDTH`, and the other
functions of the timer module leave both counters as they are. -/
theorem epoch_counters_advance (s : State) (O G : List timer_ptr)
    (hO : timer_list s .overflow = some O) (hG : timer_list s .long = some G)
    (hdis : O.Disjoint G) (hinv : epoch_counters_inv s) :
    (∀ cfg, epoch_counters_inv (State.init cfg)) ∧
    (∃ s', _next_period s = some s' ∧ epoch_counters_inv s' ∧
      _secure_mintimer_now64 { s' with TAR := 0 }
        = (_secure_mintimer_now64 { s with TAR := 0 } + 2 ^ SECURE_MINTIMER_WIDTH) % U64 ∧
      (s'.secure_mintimer_high_cnt = 0 → s'.long_cnt = (s.long_cnt + 1) % U32) ∧
      (s'.secure_mintimer_high_cnt ≠ 0 → s'.long_cnt = s.long_cnt) ∧
      (_secure_mintimer_now64 { s with TAR := 0 } + 2 ^ SECURE_MINTIMER_WIDTH < U64 →
        _secure_mintimer_now64 { s with TAR := 0 }
          < _secure_mintimer_now64 { s' with TAR := 0 })) ∧
    (∀ passes s', _timer_callback passes s = some s' → epoch_counters_inv s') ∧
    (∀ timer target r s', _secure_mintimer_set_absolute timer target s = some (r, s') →
      same_epoch s s') ∧
    (∀ timer offset s', _secure_mintimer_set timer offset s = some s' → same_epoch s s') ∧
    (∀ timer s', secure_mintimer_remove timer s = some s' → same_epoch s s') ∧
    (∀ cfg offset pid s', _secure_mintimer_tsleep_specific_pid cfg offset pid s = some s' →
      same_epoch s s') ∧
    (∀ timer s', _shoot_timer timer s = some s' → same_epoch s s') := by
  refine ⟨fun cfg => by unfold epoch_counters_inv State.init U32; simp, ?_,
    fun passes s' h => epoch_inv_timer_callback passes s s' h hinv,
    fun timer target r s' h => same_epoch_set_absolute timer target s r s' h,
    fun timer offset s' h => same_epoch_secure_mintimer_set timer offset s s' h,
    fun timer s' h => same_epoch_secure_mintimer_remove timer s s' h,
    fun cfg offset pid s' h => same_epoch_tsleep cfg offset pid s s' h,
    fun timer s' h => same_epoch_shoot_timer timer s s' h⟩
  obtain ⟨s', hs'⟩ := next_period_returns s O G hO hG hdis
  obtain ⟨e1, e2⟩ := next_period_counters s s' hs'
  have hinv' := epoch_inv_next_period s s' hs' hinv
  obtain ⟨_, _, _, hstep⟩ := epoch_step _ _ hinv.1 hinv.2.1 hinv.2.2
  have hnew : _secure_mintimer_now64 { s' with TAR := 0 }
      = (_secure_mintimer_now64 { s with TAR := 0 } + 2 ^ SECURE_MINTIMER_WIDTH) % U64 := by
    rw [now64_at_zero s hinv, now64_at_zero s' hinv', e2, e1]
    exact hstep
  refine ⟨s', hs', hinv', hnew, ?_, ?_, ?_⟩
  · intro h0
    rw [e2, if_pos h0]
  · intro h0
    rw [e2, if_neg h0]
  · intro hlt
    rw [hnew, Nat.mod_eq_of_lt hlt]
    have : 0 < 2 ^ SECURE_MINTIMER_WIDTH := by positivity
    omega

/-- C23, witness: in the state `overflow_and_long` (both counters 0, `pool 0` in the
overflow list, `pool 1` in the long list) `_next_period` gives the counters `0x10000` and
0; from `_secure_mintimer_high_cnt = 0xFFFF0000` it gives 0 and `_long_cnt + 1`. -/
theorem epoch_counters_advance_witness :
    (∃ s', _next_period overflow_and_long = some s' ∧ epoch_counters_inv s' ∧
      _secure_mintimer_now64 { s' with TAR := 0 }
        = (_secure_mintimer_now64 { overflow_and_long with TAR := 0 }
            + 2 ^ SECURE_MINTIMER_WIDTH) % U64 ∧
      (s'.secure_mintimer_high_cnt = 0 → s'.long_cnt = (overflow_and_long.long_cnt + 1) % U32) ∧
      (s'.secure_mintimer_high_cnt ≠ 0 → s'.long_cnt = overflow_and_long.long_cnt) ∧
      (_secure_mintimer_now64 { overflow_and_long with TAR := 0 }
          + 2 ^ SECURE_MINTIMER_WIDTH < U64 →
        _secure_mintimer_now64 { overflow_and_long with TAR := 0 }
          < _secure_mintimer_now64 { s' with TAR := 0 })) ∧
    (_next_period overflow_and_long).map
        (fun s' => (s'.secure_mintimer_high_cnt, s'.long_cnt)) = some (0x10000, 0) ∧
    (_next_period { booted_at 0 with secure_mintimer_high_cnt := 0xFFFF0000, long_cnt := 7 }).map
        (fun s' => (s'.secure_mintimer_high_cnt, s'.long_cnt)) = some (0, 8) :=
  ⟨(epoch_counters_advance overflow_and_long [.pool 0] [.pool 1] (by decide!) (by decide!)
      (by intro x hx hy; simp at hx hy; rw [hx] at hy; cases hy) (by decide!)).2.1,
   by decide!, by decide!⟩

/-! ## C18: the list a timer is put in -/

theorem writeLoc_in_handler (s : State) (loc : timer_loc) (v : Option timer_ptr) :
    (s.writeLoc loc v).in_handler = s.in_handler := by
  cases loc with
  | head l => cases l <;> rfl
  | next t => cases t <;> rfl

/-- A write to a timer that is in none of the nodes of a list leaves the list as it is. -/
theorem timer_list_setTimer (s : State) (p : timer_ptr) (t : secure_mintimer_t)
    (l : timer_list_id) (L : List timer_ptr) (h : timer_list s l = some L) (hp : p ∉ L) :
    timer_list (s.setTimer p t) l = some L := by
  apply timer_list_frame s _ l L h
  · exact (setTimer_sched s p t).2.2.2.2.2.2.2 l
  · intro x hx
    rw [getTimer_setTimer]
    have : x ≠ p := fun e => hp (by rw [← e]; exact hx)
    simp [this]

/-- Insertion at the head of one of the three lists, which end, share no node and do not
contain the timer: the timer is linked into that list and into no other. -/
theorem insert_linked (keep : timer_ptr → Bool) (l : timer_list_id) (timer : timer_ptr)
    (s : State) (Ls : timer_list_id → List timer_ptr)
    (hL : ∀ l', timer_list s l' = some (Ls l'))
    (hdis : ∀ l1 l2, l1 ≠ l2 → (Ls l1).Disjoint (Ls l2))
    (hnot : ∀ l', timer ∉ Ls l') (hlen : (Ls l).length < TIMER_NODES) :
    ∃ s', insert_loop keep timer (TIMER_NODES + 1) (.head l) s = some s' ∧
      linked_into s s' timer l ∧ s'.in_handler = s.in_handler ∧
      (∀ t, (s'.getTimer t).target = (s.getTimer t).target ∧
        (s'.getTimer t).long_target = (s.getTimer t).long_target) := by
  obtain ⟨loc1, nx, h1, h2, h3⟩ := insert_at_head keep l timer s (Ls l) (hL l) (hnot l) hlen
  refine ⟨_, h1, ⟨⟨_, _, ?_, h3⟩, ?_⟩, ?_, ?_⟩
  · rw [List.takeWhile_append_dropWhile]
    exact hL l
  · intro l' hne
    rw [hL l']
    apply timer_list_writeLoc_other
    · apply timer_list_writeLoc_other s _ _ l' _ (hL l')
      · simp
      · intro x hx e
        injection e with e
        exact hnot l' (by rw [e]; exact hx)
    · rcases h2 with h2 | ⟨x, _, h2⟩
      · rw [h2]; intro e; injection e with e; exact hne e.symm
      · rw [h2]; simp
    · intro y hy
      rcases h2 with h2 | ⟨x, hx, h2⟩
      · rw [h2]; simp
      · rw [h2]; intro e; injection e with e
        exact hdis l l' (fun e => hne e.symm) hx (by rw [e]; exact hy)
  · rw [writeLoc_in_handler, writeLoc_in_handler]
  · intro t
    have a := target_writeLoc (s.writeLoc (.next timer) nx) loc1 (some timer) t
    have b := target_writeLoc s (.next timer) nx t
    exact ⟨a.1.trans b.1, a.2.1.trans b.2.1⟩

theorem linked_into_lltimer_set (s s5 : State) (timer : timer_ptr) (l : timer_list_id)
    (v : Nat) (h : linked_into s s5 timer l) : linked_into s (_lltimer_set v s5) timer l := by
  obtain ⟨⟨A, B, h1, h2⟩, h3⟩ := h
  refine ⟨⟨A, B, h1, ?_⟩, ?_⟩
  · rw [lltimer_set_timer_list]; exact h2
  · intro l' hne
    rw [lltimer_set_timer_list]; exact h3 l' hne

/-- The choice of the list in `_secure_mintimer_set_absolute_explicit`, on three lists that
end, share no node and do not contain the timer. -/
theorem set_absolute_place_spec (timer : timer_ptr) (v now : Nat) (s : State)
    (Ls : timer_list_id → List timer_ptr)
    (hL : ∀ l', timer_list s l' = some (Ls l'))
    (hdis : ∀ l1 l2, l1 ≠ l2 → (Ls l1).Disjoint (Ls l2))
    (hnot : ∀ l', timer ∉ Ls l') (hlen : ∀ l', (Ls l').length < TIMER_NODES) :
    ∃ s', set_absolute_place timer v now s = some (0, s') ∧
      (∀ t, (s'.getTimer t).target = (s.getTimer t).target ∧
        (s'.getTimer t).long_target = (s.getTimer t).long_target) ∧
      ((s.getTimer timer).long_target > s.long_cnt ∨ _this_high_period s v = false →
        linked_into s s' timer .long) ∧
      (¬ ((s.getTimer timer).long_target > s.long_cnt ∨ _this_high_period s v = false) →
        _secure_mintimer_lltimer_mask now ≥ v → linked_into s s' timer .overflow) ∧
      (¬ ((s.getTimer timer).long_target > s.long_cnt ∨ _this_high_period s v = false) →
        _secure_mintimer_lltimer_mask now < v →
        linked_into s s' timer .short ∧
        (s'.timer_list_head = some timer → s.in_handler = 0 →
          s'.CCR0 = _secure_mintimer_lltimer_mask v % U16 ∧ s'.CCTL0_CCIE = true)) := by
  by_cases hc : (s.getTimer timer).long_target > s.long_cnt ∨ _this_high_period s v = false
  · obtain ⟨s', h1, h2, _, h4⟩ := insert_linked (fun h => decide (timer_long_le s h timer))
      .long timer s Ls hL hdis hnot (hlen _)
    have e : set_absolute_place timer v now s = some (0, s') := by
      unfold set_absolute_place
      have hc' : (s.getTimer timer).long_target > s.long_cnt
          ∨ (!_this_high_period s v) = true := by
        rcases hc with h | h
        · exact Or.inl h
        · exact Or.inr (by rw [h]; rfl)
      rw [if_pos hc']
      unfold _add_timer_to_long_list
      rw [add_timer_to_long_list_loop_eq, h1]
    exact ⟨s', e, h4, fun _ => h2, fun h => absurd hc h, fun h => absurd hc h⟩
  · have hc' : ¬ ((s.getTimer timer).long_target > s.long_cnt
        ∨ (!_this_high_period s v) = true) := by
      intro h
      apply hc
      rcases h with h | h
      · exact Or.inl h
      · exact Or.inr (by simpa using h)
    by_cases hm : _secure_mintimer_lltimer_mask now ≥ v
    · obtain ⟨s', h1, h2, _, h4⟩ := insert_linked (fun h => decide (timer_le s h timer))
        .overflow timer s Ls hL hdis hnot (hlen _)
      have e : set_absolute_place timer v now s = some (0, s') := by
        unfold set_absolute_place
        rw [if_neg hc', if_pos hm]
        unfold _add_timer_to_list
        rw [add_timer_to_list_loop_eq, h1]
      exact ⟨s', e, h4, fun h => absurd h hc, fun _ _ => h2,
        fun _ h => absurd hm (by omega)⟩
    · obtain ⟨s5, h1, h2, h3, h4⟩ := insert_linked (fun h => decide (timer_le s h timer))
        .short timer s Ls hL hdis hnot (hlen _)
      have e : set_absolute_place timer v now s
          = if s5.timer_list_head = some timer then some (0, _lltimer_set v s5)
            else some (0, s5) := by
        unfold set_absolute_place
        rw [if_neg hc', if_neg hm]
        unfold _add_timer_to_list
        rw [add_timer_to_list_loop_eq, h1]
      by_cases hhd : s5.timer_list_head = some timer
      · rw [if_pos hhd] at e
        refine ⟨_, e, ?_, fun h => absurd h hc, fun _ h => absurd h hm, fun _ _ => ⟨?_, ?_⟩⟩
        · intro t; rw [lltimer_set_getTimer]; exact h4 t
        · exact linked_into_lltimer_set s s5 timer _ v h2
        · intro _ hin
          unfold _lltimer_set
          rw [h3, hin]
          simp [sm_timer_set_absolute]
      · rw [if_neg hhd] at e
        refine ⟨_, e, h4, fun h => absurd h hc, fun _ h => absurd h hm, fun _ _ => ⟨h2, ?_⟩⟩
        intro h; exact absurd h hhd

theorem linked_into_congr (s s4 s' : State) (timer : timer_ptr) (l : timer_list_id)
    (h : ∀ l', timer_list s4 l' = timer_list s l') (hl : linked_into s4 s' timer l) :
    linked_into s s' timer l := by
  obtain ⟨⟨A, B, h1, h2⟩, h3⟩ := hl
  refine ⟨⟨A, B, ?_, h2⟩, ?_⟩
  · rw [← h l]; exact h1
  · intro l' hne
    rw [h3 l' hne, h l']

/-- The part of `_secure_mintimer_set_absolute` that follows the backoff test, for a timer
that is in none of the lists: `_remove` changes nothing, so the call is the choice of the
list on the state with the new `target` and `long_target`. -/
theorem set_absolute_unlinked_eq (timer : timer_ptr) (target : Nat) (s : State)
    (S O G : List timer_ptr) (hS : timer_list s .short = some S)
    (hO : timer_list s .overflow = some O) (hG : timer_list s .long = some G)
    (hnd : (S ++ O ++ G).Nodup) (hnot : timer ∉ S ++ O ++ G)
    (hB : ¬ ((target + U32 - _secure_mintimer_now s) % U32 ≤ SECURE_MINTIMER_BACKOFF)) :
    _secure_mintimer_set_absolute (some timer) target s
      = set_absolute_place timer (corrected_target target) (_secure_mintimer_now s)
          (set_absolute_bump timer (corrected_target target) (_secure_mintimer_now s)
            ((s.setTimer timer { s.getTimer timer with next := none }).setTimer timer
              { next := none, target := target, long_target := s.long_cnt,
                thread := (s.getTimer timer).thread })) := by
  have hnS : timer ∉ S := fun h => hnot (List.mem_append_left _ (List.mem_append_left _ h))
  have hnO : timer ∉ O := fun h => hnot (List.mem_append_left _ (List.mem_append_right _ h))
  have hnG : timer ∉ G := fun h => hnot (List.mem_append_right _ h)
  have hrem : ∀ s1 : State, s1 = s.setTimer timer { s.getTimer timer with next := none } →
      (if _is_set s1 timer then _remove timer s1 else some s1) = some s1 := by
    intro s1 hs1
    split
    · obtain ⟨s', e1, _, _, _, _, e6⟩ := remove_spec timer s1 S O G
        (by rw [hs1]; exact timer_list_setTimer s timer _ _ S hS hnS)
        (by rw [hs1]; exact timer_list_setTimer s timer _ _ O hO hnO)
        (by rw [hs1]; exact timer_list_setTimer s timer _ _ G hG hnG) hnd
      rw [e1, e6 hnot]
    · rfl
  unfold _secure_mintimer_set_absolute
  simp only [if_neg hB]
  rw [hrem _ rfl]
  simp only []
  unfold _secure_mintimer_set_absolute_explicit
  have e1 : ((s.setTimer timer { s.getTimer timer with next := none }).getTimer timer)
      = { s.getTimer timer with next := none } := by
    rw [getTimer_setTimer]; simp
  have e2 : (s.setTimer timer { s.getTimer timer with next := none }).long_cnt = s.long_cnt :=
    (setTimer_sched s timer _).2.2.2.2.1
  rw [e1, e2]
  simp only [getTimer_setTimer, if_true]
  rfl

/-- C18, counterexample: at time 1000 of the first hardware epoch (`high_cnt = 0`) the timer
`pool 0` is armed with the offset `0x18000`. The epoch bits of its firing value are
`0x10000`, the next hardware epoch, and the timer is linked in the long list; the overflow
list stays empty. -/
theorem next_epoch_timer_goes_to_long_list :
    (_secure_mintimer_set (.pool 0) 0x18000 (booted_at 1000)).map
        (fun s => (timer_list s .short, timer_list s .overflow, timer_list s .long))
      = some (some [], some [], some [.pool 0]) ∧
    (booted_at 1000).secure_mintimer_high_cnt = 0 ∧
    (1000 + 0x18000) &&& SECURE_MINTIMER_MASK = 0 + 2 ^ SECURE_MINTIMER_WIDTH ∧
    corrected_target (1000 + 0x18000) &&& SECURE_MINTIMER_MASK
      = 0 + 2 ^ SECURE_MINTIMER_WIDTH := by
  refine ⟨by decide!, by decide!, by decide!, by decide!⟩

/-- C18, amended. Let the three timer lists end, share no node, consist of timers of the
module and not contain `timer`, and let the offset `(target - now) mod 2 ^ 32` be at least
`SECURE_MINTIMER_OVERHEAD`. `_secure_mintimer_set_absolute(timer, target)` returns 0 with
`timer->target = target` and the timer linked into exactly one list, the other two being as
before; with `v = target - SECURE_MINTIMER_OVERHEAD` the list is
* the long list if `v < now` (the 32-bit value has wrapped; `long_target` is then
  `_long_cnt + 1`) or if the epoch bits of `v` differ from `_secure_mintimer_high_cnt`
  (`long_target` is then `_long_cnt`);
* the overflow list if `v` is in the current epoch and the masked `now` is at least `v`;
* the short list otherwise, and if the timer is then the head of the short list and
  `_in_handler` is 0, the compare register is set to the masked `v` and its interrupt is
  enabled. -/
theorem set_absolute_placement (timer : timer_ptr) (target : Nat) (s : State)
    (S O G : List timer_ptr) (hS : timer_list s .short = some S)
    (hO : timer_list s .overflow = some O) (hG : timer_list s .long = some G)
    (hnd : (S ++ O ++ G).Nodup) (hv : ∀ x ∈ S ++ O ++ G, x.valid) (ht : timer.valid)
    (hnot : timer ∉ S ++ O ++ G)
    (hoff : SECURE_MINTIMER_OVERHEAD ≤ (target + U32 - _secure_mintimer_now s) % U32) :
    ∃ s', _secure_mintimer_set_absolute (some timer) target s = some (0, s') ∧
      (s'.getTimer timer).target = target ∧
      (corrected_target target < _secure_mintimer_now s → s.long_cnt + 1 < U32 →
        linked_into s s' timer .long ∧ (s'.getTimer timer).long_target = s.long_cnt + 1) ∧
      (_secure_mintimer_now s ≤ corrected_target target →
        _this_high_period s (corrected_target target) = false →
        linked_into s s' timer .long ∧ (s'.getTimer timer).long_target = s.long_cnt) ∧
      (_secure_mintimer_now s ≤ corrected_target target →
        _this_high_period s (corrected_target target) = true →
        _secure_mintimer_lltimer_mask (_secure_mintimer_now s) ≥ corrected_target target →
        linked_into s s' timer .overflow) ∧
      (_secure_mintimer_now s ≤ corrected_target target →
        _this_high_period s (corrected_target target) = true →
        _secure_mintimer_lltimer_mask (_secure_mintimer_now s) < corrected_target target →
        linked_into s s' timer .short ∧
        (s'.timer_list_head = some timer → s.in_handler = 0 →
          s'.CCR0 = _secure_mintimer_lltimer_mask (corrected_target target) % U16 ∧
          s'.CCTL0_CCIE = true)) := by
  obtain ⟨hSO, hGn, hdSOG⟩ := List.nodup_append.mp hnd
  obtain ⟨hSn, hOn, hdSO⟩ := List.nodup_append.mp hSO
  have hdSG : S.Disjoint G := fun x hx hg => hdSOG (List.mem_append_left _ hx) hg
  have hdOG : O.Disjoint G := fun x hx hg => hdSOG (List.mem_append_right _ hx) hg
  have hnS : timer ∉ S := fun h => hnot (List.mem_append_left _ (List.mem_append_left _ h))
  have hnO : timer ∉ O := fun h => hnot (List.mem_append_left _ (List.mem_append_right _ h))
  have hnG : timer ∉ G := fun h => hnot (List.mem_append_right _ h)
  have hB : ¬ ((target + U32 - _secure_mintimer_now s) % U32 ≤ SECURE_MINTIMER_BACKOFF) := by
    unfold SECURE_MINTIMER_OVERHEAD at hoff
    unfold SECURE_MINTIMER_BACKOFF
    omega
  rw [set_absolute_unlinked_eq timer target s S O G hS hO hG hnd hnot hB]
  -- the state before the choice of the list
  obtain ⟨s3, hs3⟩ : ∃ s3, s3 = (s.setTimer timer { s.getTimer timer with next := none }).setTimer
      timer { next := none, target := target, long_target := s.long_cnt,
              thread := (s.getTimer timer).thread } := ⟨_, rfl⟩
  rw [← hs3]
  have h3g : (s3.getTimer timer).target = target ∧
      (s3.getTimer timer).long_target = s.long_cnt := by
    rw [hs3, getTimer_setTimer]; simp
  have h3c : s3.long_cnt = s.long_cnt ∧ s3.secure_mintimer_high_cnt = s.secure_mintimer_high_cnt
      ∧ s3.in_handler = s.in_handler := by
    rw [hs3]
    obtain ⟨_, _, _, a1, a2, _, a3, _⟩ := setTimer_sched
      (s.setTimer timer { s.getTimer timer with next := none }) timer
      { next := none, target := target, long_target := s.long_cnt,
        thread := (s.getTimer timer).thread }
    obtain ⟨_, _, _, b1, b2, _, b3, _⟩ := setTimer_sched s timer
      { s.getTimer timer with next := none }
    exact ⟨a2.trans b2, a1.trans b1, a3.trans b3⟩
  have h3l : ∀ l L, timer_list s l = some L → timer ∉ L → timer_list s3 l = some L := by
    intro l L hL hn
    rw [hs3]
    exact timer_list_setTimer _ timer _ l L (timer_list_setTimer s timer _ l L hL hn) hn
  obtain ⟨s4, hs4⟩ : ∃ s4, s4 = set_absolute_bump timer (corrected_target target)
      (_secure_mintimer_now s) s3 := ⟨_, rfl⟩
  rw [← hs4]
  have h4g : (s4.getTimer timer).target = target ∧
      (s4.getTimer timer).long_target
        = (if corrected_target target < _secure_mintimer_now s then (s.long_cnt + 1) % U32
            else s.long_cnt) := by
    rw [hs4]
    unfold set_absolute_bump
    split
    · rw [getTimer_setTimer]; simp [h3g.1, h3g.2]
    · exact h3g
  have h4c : s4.long_cnt = s.long_cnt ∧ s4.secure_mintimer_high_cnt = s.secure_mintimer_high_cnt
      ∧ s4.in_handler = s.in_handler := by
    rw [hs4]
    unfold set_absolute_bump
    split
    · obtain ⟨_, _, _, a1, a2, _, a3, _⟩ := setTimer_sched s3 timer
        { s3.getTimer timer with long_target := ((s3.getTimer timer).long_target + 1) % U32 }
      exact ⟨a2.trans h3c.1, a1.trans h3c.2.1, a3.trans h3c.2.2⟩
    · exact h3c
  have h4l : ∀ l L, timer_list s l = some L → timer ∉ L → timer_list s4 l = some L := by
    intro l L hL hn
    rw [hs4]
    unfold set_absolute_bump
    split
    · exact timer_list_setTimer _ timer _ l L (h3l l L hL hn) hn
    · exact h3l l L hL hn
  have h4p : ∀ x, _this_high_period s4 x = _this_high_period s x := by
    intro x
    unfold _this_high_period
    rw [h4c.2.1]
  -- the three lists as a function of the list
  obtain ⟨Ls, hLs⟩ : ∃ Ls : timer_list_id → List timer_ptr,
      Ls .short = S ∧ Ls .overflow = O ∧ Ls .long = G :=
    ⟨fun l => match l with | .short => S | .overflow => O | .long => G, rfl, rfl, rfl⟩
  have hLs0 : ∀ l, timer_list s l = some (Ls l) := by
    intro l
    cases l
    · rw [hLs.1]; exact hS
    · rw [hLs.2.1]; exact hO
    · rw [hLs.2.2]; exact hG
  have hnL : ∀ l, timer ∉ Ls l := by
    intro l
    cases l
    · rw [hLs.1]; exact hnS
    · rw [hLs.2.1]; exact hnO
    · rw [hLs.2.2]; exact hnG
  have hLs4 : ∀ l, timer_list s4 l = some (Ls l) := fun l => h4l l _ (hLs0 l) (hnL l)
  have hdL : ∀ l1 l2, l1 ≠ l2 → (Ls l1).Disjoint (Ls l2) := by
    intro l1 l2 hne
    cases l1 <;> cases l2 <;>
      simp only [hLs.1, hLs.2.1, hLs.2.2, ne_eq, not_true_eq_false] at hne ⊢
    · exact hdSO
    · exact hdSG
    · exact hdSO.symm
    · exact hdOG
    · exact hdSG.symm
    · exact hdOG.symm
  have hlenL : ∀ l, (Ls l).length < TIMER_NODES := by
    intro l
    apply valid_timers_length (Ls l) timer (timer_chain_nodup s _ _ _ (hLs0 l)) _ ht (hnL l)
    intro x hx
    apply hv x
    cases l
    · rw [hLs.1] at hx; exact List.mem_append_left _ (List.mem_append_left _ hx)
    · rw [hLs.2.1] at hx; exact List.mem_append_left _ (List.mem_append_right _ hx)
    · rw [hLs.2.2] at hx; exact List.mem_append_right _ hx
  obtain ⟨s', e, f1, f2, f3, f4⟩ := set_absolute_place_spec timer (corrected_target target)
    (_secure_mintimer_now s) s4 Ls hLs4 hdL hnL hlenL
  have hcong : ∀ l, linked_into s4 s' timer l → linked_into s s' timer l :=
    fun l h => linked_into_congr s s4 s' timer l (fun l' => by rw [hLs4 l', hLs0 l']) h
  rw [h4g.2, h4c.1, h4p] at f2 f3 f4
  refine ⟨s', e, (f1 timer).1.trans h4g.1, ?_, ?_, ?_, ?_⟩
  · intro hlt hl
    have hb : (s.long_cnt + 1) % U32 = s.long_cnt + 1 := Nat.mod_eq_of_lt hl
    refine ⟨hcong _ (f2 (Or.inl ?_)), ?_⟩
    · rw [if_pos hlt, hb]; omega
    · rw [(f1 timer).2, h4g.2, if_pos hlt, hb]
  · intro hle hp
    refine ⟨hcong _ (f2 (Or.inr hp)), ?_⟩
    rw [(f1 timer).2, h4g.2, if_neg (by omega)]
  · intro hle hp hm
    refine hcong _ (f3 ?_ hm)
    rw [if_neg (by omega), hp]
    simp
  · intro hle hp hm
    have hno : ¬ ((if corrected_target target < _secure_mintimer_now s
        then (s.long_cnt + 1) % U32 else s.long_cnt) > s.long_cnt
        ∨ _this_high_period s (corrected_target target) = false) := by
      rw [if_neg (by omega), hp]
      simp
    obtain ⟨g1, g2⟩ := f4 hno hm
    refine ⟨hcong _ g1, fun hh hin => g2 hh ?_⟩
    rw [h4c.2.2]; exact hin

/-- C18, witness: in the state `short_pair` (time 1000, `pool 0` and `pool 1` in the short
list with the targets 5000 and 9000) the timer `pool 2` is armed for 3000: it becomes the
head of the short list and the compare register is set to 2700. -/
theorem set_absolute_placement_witness :
    (∃ s', _secure_mintimer_set_absolute (some (.pool 2)) 3000 short_pair = some (0, s') ∧
      (s'.getTimer (.pool 2)).target = 3000 ∧
      linked_into short_pair s' (.pool 2) .short ∧
      (s'.timer_list_head = some (.pool 2) → short_pair.in_handler = 0 →
        s'.CCR0 = _secure_mintimer_lltimer_mask (corrected_target 3000) % U16 ∧
        s'.CCTL0_CCIE = true)) ∧
    (_secure_mintimer_set_absolute (some (.pool 2)) 3000 short_pair).map
        (fun r => (timer_list r.2 .short, r.2.CCR0))
      = some (some [.pool 2, .pool 0, .pool 1], 2700) := by
  obtain ⟨s', h1, h2, _, _, _, h6⟩ :=
    set_absolute_placement (.pool 2) 3000 short_pair [.pool 0, .pool 1] [] []
      (by decide!) (by decide!) (by decide!) (by decide) (by decide) (by decide) (by decide)
      (by decide!)
  exact ⟨⟨s', h1, h2, h6 (by decide!) (by decide!) (by decide!)⟩, by decide!⟩

end SancusRiot
